import Mathlib

/-!
Shallow embedding of the two normalization routines of `nflgamedata/main.py`
(`extract_clean_game_data` and `extract_box_score_data`) together with proofs
about them.

JSON documents are modelled by `JVal`.  JSON numbers are modelled as integers
(the claims under study never involve fractional values).  Python dictionaries
are modelled as insertion-ordered association lists with string keys; Python
accepts any hashable value as a dict key, and the few places where the code
uses a document value as a key are modelled through `pyKey`, which renders
the hashable scalars canonically and fails (raises) on unhashable values.

Each Python operation that can raise on malformed documents is modelled by a
helper returning `Except Unit`.  The body of each extractor threads the
partially-built output record and short-circuits with that partial record on
the first raise; the surrounding `try/except` of the source is the final
`match` that returns the partial record in the error case as well.
-/

set_option maxRecDepth 4000
inductive JVal where
  | null : JVal
  | bool (b : Bool) : JVal
  | num (n : Int) : JVal
  | str (s : String) : JVal
  | arr (elems : List JVal) : JVal
  | obj (fields : List (String × JVal)) : JVal

abbrev JObj := List (String × JVal)

mutual
/-- Structural equality on JSON values (Python `==` restricted to this universe). -/
def JVal.beq : JVal → JVal → Bool
  | .null, .null => true
  | .bool a, .bool b => a == b
  | .num a, .num b => a == b
  | .str a, .str b => a == b
  | .arr a, .arr b => JVal.beqList a b
  | .obj a, .obj b => JVal.beqFields a b
  | _, _ => false

def JVal.beqList : List JVal → List JVal → Bool
  | [], [] => true
  | x :: xs, y :: ys => JVal.beq x y && JVal.beqList xs ys
  | _, _ => false

def JVal.beqFields : List (String × JVal) → List (String × JVal) → Bool
  | [], [] => true
  | (k, v) :: xs, (l, w) :: ys => k == l && JVal.beq v w && JVal.beqFields xs ys
  | _, _ => false
end

instance : BEq JVal := ⟨JVal.beq⟩

/-- Python truthiness of a JSON value. -/
def truthy : JVal → Bool
  | .null => false
  | .bool b => b
  | .num n => n != 0
  | .str s => !(s = "")
  | .arr xs => !xs.isEmpty
  | .obj kvs => !kvs.isEmpty

/-- Truthiness of the optional `event_data` argument (`None` is falsy). -/
def truthyOpt : Option JVal → Bool
  | none => false
  | some v => truthy v

/-- Dictionary lookup: first binding of the key (keys of a Python dict are unique). -/
def dget : JObj → String → Option JVal
  | [], _ => none
  | (k', v) :: rest, k => if k' = k then some v else dget rest k

/-- Dictionary update `d[k] = v`: replaces the binding in place, else appends
(Python dicts keep the original insertion position on overwrite). -/
def dset : JObj → String → JVal → JObj
  | [], k, v => [(k, v)]
  | (k', v') :: rest, k, v =>
      if k' = k then (k, v) :: rest else (k', v') :: dset rest k v

/-- The keys of a dictionary, in insertion order. -/
def objKeys (d : JObj) : List String := d.map Prod.fst

/-- Python `s.lower()` (ASCII case folding suffices for the category names
compared here); written via `String.mk` so that it reduces definitionally. -/
def strLower (s : String) : String := String.mk (s.toList.map Char.toLower)

/-- Python `x.get(k, dflt)`: raises (`AttributeError`) when `x` is not a dict. -/
def pyGet (v : JVal) (k : String) (dflt : JVal) : Except Unit JVal :=
  match v with
  | .obj kvs => .ok ((dget kvs k).getD dflt)
  | _ => .error ()

/-- Substring test used by Python `key in someString`. -/
def strHasSub (s sub : String) : Bool :=
  if sub = "" then true else (s.splitOn sub).length > 1

/-- Python `k in x` for a string `k`: key membership on dicts, element
membership on lists, substring on strings; raises (`TypeError`) otherwise. -/
def pyIn (k : String) (v : JVal) : Except Unit Bool :=
  match v with
  | .obj kvs => .ok (dget kvs k).isSome
  | .arr xs => .ok (xs.any fun x => JVal.beq x (.str k))
  | .str s => .ok (strHasSub s k)
  | _ => .error ()

/-- Python `x[k]` for a string key: `KeyError` when the key is absent,
`TypeError` when `x` is not a dict. -/
def pySubS (v : JVal) (k : String) : Except Unit JVal :=
  match v with
  | .obj kvs =>
      match dget kvs k with
      | some x => .ok x
      | none => .error ()
  | _ => .error ()

/-- Python `x[i]` for a numeric index: list indexing, string indexing
(yielding a one-character string); raises otherwise or out of range. -/
def pySubN (v : JVal) (i : Nat) : Except Unit JVal :=
  match v with
  | .arr xs =>
      match xs.get? i with
      | some x => .ok x
      | none => .error ()
  | .str s =>
      match s.toList.get? i with
      | some c => .ok (.str (String.mk [c]))
      | none => .error ()
  | _ => .error ()

/-- Use of a document value as a Python dict key.  Hashable scalars are
rendered canonically into the string key space of the model; lists and dicts
are unhashable and raise (`TypeError`). -/
def pyKey (v : JVal) : Except Unit String :=
  match v with
  | .str s => .ok s
  | .num n => .ok (toString n)
  | .bool b => .ok (if b then "True" else "False")
  | .null => .ok "None"
  | _ => .error ()

/-- Python `int(s)` on a string: optional sign followed by digits, surrounding
whitespace ignored (underscore separators and non-ASCII digits are not
modelled).  Raises `ValueError` on anything else. -/
def pyStrToInt (s : String) : Except Unit Int :=
  let t := s.trim
  let core := if t.startsWith "+" || t.startsWith "-" then t.drop 1 else t
  if core.length > 0 && core.all Char.isDigit then
    .ok (if t.startsWith "-" then -(core.toNat?.getD 0 : Int) else (core.toNat?.getD 0 : Int))
  else
    .error ()

/-- Python `int(x)`: identity on integers, `0`/`1` on booleans, string parsing
on strings; raises (`TypeError`) on anything else. -/
def pyInt (v : JVal) : Except Unit Int :=
  match v with
  | .num n => .ok n
  | .bool b => .ok (if b then 1 else 0)
  | .str s => pyStrToInt s
  | _ => .error ()

/-- Python `len(x)`: defined on strings, lists and dicts; raises otherwise. -/
def pyLen (v : JVal) : Except Unit Nat :=
  match v with
  | .str s => .ok s.length
  | .arr xs => .ok xs.length
  | .obj kvs => .ok kvs.length
  | _ => .error ()

/-- Python iteration `for x in v`: list elements, characters of a string
(as one-character strings), keys of a dict; raises otherwise. -/
def pyElems (v : JVal) : Except Unit (List JVal) :=
  match v with
  | .arr xs => .ok xs
  | .str s => .ok (s.toList.map fun c => .str (String.mk [c]))
  | .obj kvs => .ok (kvs.map fun kv => .str kv.1)
  | _ => .error ()

/-- Python slicing `x[:n]`: lists and strings; raises otherwise
(slicing a dict or a number is a `TypeError`). -/
def pySlice (v : JVal) (n : Nat) : Except Unit JVal :=
  match v with
  | .arr xs => .ok (.arr (xs.take n))
  | .str s => .ok (.str (String.mk (s.toList.take n)))
  | _ => .error ()

/-- Python `zip(a, b)` consumed by a `for` loop. -/
def pyZip (a b : JVal) : Except Unit (List (JVal × JVal)) := do
  let xs ← pyElems a
  let ys ← pyElems b
  .ok (xs.zip ys)

/-- A fold over a list that threads the record being built and aborts with the
record accumulated so far on the first raise (Python loop inside `try`). -/
def pyFoldE (f : JObj → α → Except JObj JObj) : JObj → List α → Except JObj JObj
  | d, [] => .ok d
  | d, x :: xs =>
      match f d x with
      | .ok d1 => pyFoldE f d1 xs
      | .error d1 => .error d1

/-- Fueled decimal digit rendering of a natural number (fuel `n + 1` always
suffices since the recursion divides by ten). -/
def decDigitsF : Nat → Nat → List Char
  | 0, _ => []
  | f + 1, n =>
      if n < 10 then [Nat.digitChar n]
      else decDigitsF f (n / 10) ++ [Nat.digitChar (n % 10)]

/-- Decimal rendering of a natural number, as produced by a Python f-string. -/
def natDec (n : Nat) : String := String.mk (decDigitsF (n + 1) n)

/-- Assignment `d[f][k] = v` (two subscript levels). -/
def dSetIn1 (d : JObj) (f k : String) (v : JVal) : Except Unit JObj :=
  match dget d f with
  | some (.obj m) => .ok (dset d f (.obj (dset m k v)))
  | _ => .error ()

/-- Assignment `d[f][k1][k2] = v` (three subscript levels). -/
def dSetIn2 (d : JObj) (f k1 k2 : String) (v : JVal) : Except Unit JObj :=
  match dget d f with
  | some (.obj m1) =>
      match dget m1 k1 with
      | some (.obj m2) => .ok (dset d f (.obj (dset m1 k1 (.obj (dset m2 k2 v)))))
      | _ => .error ()
  | _ => .error ()

/-- `d[f].append v`. -/
def dAppendIn0 (d : JObj) (f : String) (v : JVal) : Except Unit JObj :=
  match dget d f with
  | some (.arr xs) => .ok (dset d f (.arr (xs ++ [v])))
  | _ => .error ()

/-- `d[f][k1][k2].append v`. -/
def dAppendIn2 (d : JObj) (f k1 k2 : String) (v : JVal) : Except Unit JObj :=
  match dget d f with
  | some (.obj m1) =>
      match dget m1 k1 with
      | some (.obj m2) =>
          match dget m2 k2 with
          | some (.arr xs) =>
              .ok (dset d f (.obj (dset m1 k1 (.obj (dset m2 k2 (.arr (xs ++ [v])))))))
          | _ => .error ()
      | _ => .error ()
  | _ => .error ()

/-! ### `extract_clean_game_data` -/

/-- The initial `clean_data` dictionary (main.py lines 97-108). -/
def cleanInit : JObj :=
  [("game_id", .str ""), ("date", .str ""), ("status", .str ""), ("venue", .str ""),
   ("attendance", .num 0), ("teams", .obj []), ("final_score", .obj []),
   ("team_statistics", .obj []), ("scoring_plays", .arr []), ("player_statistics", .obj [])]

/-- One competitor of the event competition (main.py lines 124-131). -/
def cleanEventCompetitor (d : JObj) (competitor : JVal) : Except JObj JObj :=
  match (do
      let teamV ← pyGet competitor "team" (.obj [])
      let abbrV ← pyGet teamV "abbreviation" (.str "")
      let teamV2 ← pyGet competitor "team" (.obj [])
      let nameV ← pyGet teamV2 "displayName" (.str "")
      let haV ← pyGet competitor "homeAway" (.str "")
      let recsV ← pyGet competitor "records" .null
      let recV ←
        if truthy recsV then do
          let rs ← pyGet competitor "records" (.arr [.obj []])
          let r0 ← pySubN rs 0
          pyGet r0 "summary" (.str "")
        else
          pure (JVal.str "")
      let abbr ← pyKey abbrV
      pure (abbr, JVal.obj [("name", nameV), ("home_away", haV), ("record", recV)])
      : Except Unit (String × JVal)) with
  | .error _ => .error d
  | .ok (abbr, teamObj) =>
      match dSetIn1 d "teams" abbr teamObj with
      | .error _ => .error d
      | .ok d1 =>
          match (do
              let scoreV ← pyGet competitor "score" (.num 0)
              pyInt scoreV : Except Unit Int) with
          | .error _ => .error d1
          | .ok score =>
              match dSetIn1 d1 "final_score" abbr (.num score) with
              | .error _ => .error d1
              | .ok d2 => .ok d2

/-- The `if event_data:` block (main.py lines 112-131). -/
def cleanEventBlock (event_data : Option JVal) (d : JObj) : Except JObj JObj :=
  match event_data with
  | none => .ok d
  | some ev =>
    if truthy ev then
      match pyGet ev "id" (.str "") with
      | .error _ => .error d
      | .ok idV =>
      let d := dset d "game_id" idV
      match pyGet ev "date" (.str "") with
      | .error _ => .error d
      | .ok dateV =>
      let d := dset d "date" dateV
      match (do
          let stV ← pyGet ev "status" (.obj [])
          let tyV ← pyGet stV "type" (.obj [])
          pyGet tyV "description" (.str "") : Except Unit JVal) with
      | .error _ => .error d
      | .ok descV =>
      let d := dset d "status" descV
      match pyIn "competitions" ev with
      | .error _ => .error d
      | .ok hasComp =>
      if hasComp then
        match pySubS ev "competitions" with
        | .error _ => .error d
        | .ok compsV =>
        if truthy compsV then
          match pySubN compsV 0 with
          | .error _ => .error d
          | .ok comp =>
          match (do
              let venV ← pyGet comp "venue" (.obj [])
              pyGet venV "fullName" (.str "") : Except Unit JVal) with
          | .error _ => .error d
          | .ok fullNameV =>
          let d := dset d "venue" fullNameV
          match pyGet comp "attendance" (.num 0) with
          | .error _ => .error d
          | .ok attV =>
          let d := dset d "attendance" attV
          match pyIn "competitors" comp with
          | .error _ => .error d
          | .ok hasCs =>
          if hasCs then
            match pySubS comp "competitors" with
            | .error _ => .error d
            | .ok csV =>
            match pyElems csV with
            | .error _ => .error d
            | .ok cs => pyFoldE cleanEventCompetitor d cs
          else .ok d
        else .ok d
      else .ok d
    else .ok d

/-- One competitor of the header competition (main.py lines 144-151):
like the event competitor but `record` is always empty. -/
def cleanHeaderCompetitor (d : JObj) (competitor : JVal) : Except JObj JObj :=
  match (do
      let teamV ← pyGet competitor "team" (.obj [])
      let abbrV ← pyGet teamV "abbreviation" (.str "")
      let teamV2 ← pyGet competitor "team" (.obj [])
      let nameV ← pyGet teamV2 "displayName" (.str "")
      let haV ← pyGet competitor "homeAway" (.str "")
      let abbr ← pyKey abbrV
      pure (abbr, JVal.obj [("name", nameV), ("home_away", haV), ("record", .str "")])
      : Except Unit (String × JVal)) with
  | .error _ => .error d
  | .ok (abbr, teamObj) =>
      match dSetIn1 d "teams" abbr teamObj with
      | .error _ => .error d
      | .ok d1 =>
          match (do
              let scoreV ← pyGet competitor "score" (.num 0)
              pyInt scoreV : Except Unit Int) with
          | .error _ => .error d1
          | .ok score =>
              match dSetIn1 d1 "final_score" abbr (.num score) with
              | .error _ => .error d1
              | .ok d2 => .ok d2

/-- The `if "header" in game_summary and not event_data:` block
(main.py lines 134-151). -/
def cleanHeaderBlock (s : JVal) (event_data : Option JVal) (d : JObj) : Except JObj JObj :=
  match pyIn "header" s with
  | .error _ => .error d
  | .ok hasH =>
  if hasH && !truthyOpt event_data then
    match pySubS s "header" with
    | .error _ => .error d
    | .ok header =>
    match pyIn "competitions" header with
    | .error _ => .error d
    | .ok hasComp =>
    if hasComp then
      match pySubS header "competitions" with
      | .error _ => .error d
      | .ok compsV =>
      if truthy compsV then
        match pySubN compsV 0 with
        | .error _ => .error d
        | .ok comp =>
        match pyGet comp "date" (.str "") with
        | .error _ => .error d
        | .ok dateV =>
        let d := dset d "date" dateV
        match (do
            let stV ← pyGet comp "status" (.obj [])
            let tyV ← pyGet stV "type" (.obj [])
            pyGet tyV "description" (.str "") : Except Unit JVal) with
        | .error _ => .error d
        | .ok descV =>
        let d := dset d "status" descV
        match (do
            let venV ← pyGet comp "venue" (.obj [])
            pyGet venV "fullName" (.str "") : Except Unit JVal) with
        | .error _ => .error d
        | .ok fullNameV =>
        let d := dset d "venue" fullNameV
        match pyGet comp "attendance" (.num 0) with
        | .error _ => .error d
        | .ok attV =>
        let d := dset d "attendance" attV
        match pyIn "competitors" comp with
        | .error _ => .error d
        | .ok hasCs =>
        if hasCs then
          match pySubS comp "competitors" with
          | .error _ => .error d
          | .ok csV =>
          match pyElems csV with
          | .error _ => .error d
          | .ok cs => pyFoldE cleanHeaderCompetitor d cs
        else .ok d
      else .ok d
    else .ok d
  else .ok d

/-- The per-team body of the team-statistics block (main.py lines 155-163). -/
def cleanTeamStatStep (d : JObj) (team_data : JVal) : Except JObj JObj :=
  match (do
      let teamV ← pyGet team_data "team" (.obj [])
      pyGet teamV "abbreviation" (.str "") : Except Unit JVal) with
  | .error _ => .error d
  | .ok abbrV =>
  if truthy abbrV then
    match (do
        let statsV ← pyGet team_data "statistics" (.arr [])
        let stats ← pyElems statsV
        let m ← stats.foldlM (fun m st => do
            let nmV ← pyGet st "name" (.str "")
            let labV ← pyGet st "label" nmV
            let valDefV ← pyGet st "value" (.str "")
            let valV ← pyGet st "displayValue" valDefV
            let k ← pyKey labV
            pure (dset m k valV)) ([] : JObj)
        let abbr ← pyKey abbrV
        pure (abbr, m) : Except Unit (String × JObj)) with
    | .error _ => .error d
    | .ok (abbr, m) =>
        match dSetIn1 d "team_statistics" abbr (.obj m) with
        | .error _ => .error d
        | .ok d1 => .ok d1
  else .ok d

/-- The team-statistics block (main.py lines 154-163). -/
def cleanTeamStatsBlock (s : JVal) (d : JObj) : Except JObj JObj :=
  match pyIn "boxscore" s with
  | .error _ => .error d
  | .ok h1 =>
  if h1 then
    match pySubS s "boxscore" with
    | .error _ => .error d
    | .ok bs =>
    match pyIn "teams" bs with
    | .error _ => .error d
    | .ok h2 =>
    if h2 then
      match (pySubS s "boxscore" : Except Unit JVal) with
      | .error _ => .error d
      | .ok bs2 =>
      match pySubS bs2 "teams" with
      | .error _ => .error d
      | .ok teamsV =>
      match pyElems teamsV with
      | .error _ => .error d
      | .ok teams => pyFoldE cleanTeamStatStep d teams
    else .ok d
  else .ok d

/-- One scoring play (main.py lines 167-176). -/
def cleanScoringStep (d : JObj) (play : JVal) : Except JObj JObj :=
  match (do
      let perV ← pyGet play "period" (.obj [])
      let qV ← pyGet perV "number" (.num 0)
      let clkV ← pyGet play "clock" (.obj [])
      let timeV ← pyGet clkV "displayValue" (.str "")
      let teamV ← pyGet play "team" (.obj [])
      let abbrV ← pyGet teamV "abbreviation" (.str "")
      let txtV ← pyGet play "text" (.str "")
      let awayV ← pyGet play "awayScore" (.num 0)
      let homeV ← pyGet play "homeScore" (.num 0)
      pure (JVal.obj [("quarter", qV), ("time", timeV), ("team", abbrV),
        ("description", txtV), ("away_score", awayV), ("home_score", homeV)])
      : Except Unit JVal) with
  | .error _ => .error d
  | .ok playObj =>
      match dAppendIn0 d "scoring_plays" playObj with
      | .error _ => .error d
      | .ok d1 => .ok d1

/-- The scoring-plays block (main.py lines 166-176). -/
def cleanScoringBlock (s : JVal) (d : JObj) : Except JObj JObj :=
  match pyIn "scoringPlays" s with
  | .error _ => .error d
  | .ok h1 =>
  if h1 then
    match pySubS s "scoringPlays" with
    | .error _ => .error d
    | .ok playsV =>
    match pyElems playsV with
    | .error _ => .error d
    | .ok plays => pyFoldE cleanScoringStep d plays
  else .ok d

/-- The four key categories of main.py line 186. -/
def keyCategories : List String := ["passing", "rushing", "receiving", "defensive"]

/-- The fixed fallback label lists of main.py lines 209/214/219. -/
def fixedFallback (lowered : String) : Option (List String) :=
  if lowered = "passing" then some ["C/ATT", "YDS", "AVG", "TD", "INT", "SACKS", "QBR", "RTG"]
  else if lowered = "rushing" then some ["CAR", "YDS", "AVG", "TD", "LONG"]
  else if lowered = "receiving" then some ["REC", "YDS", "AVG", "TD", "LONG", "TGTS"]
  else none

/-- The fallback labelling of main.py lines 207-226: the fixed per-category
list applied positionally, or generic `stat_<i+1>` labels. -/
def fallbackStats (category_name : String) (stats_array : JVal) : Except Unit JObj :=
  match fixedFallback (strLower category_name) with
  | some fb => do
      let slicedV ← pySlice stats_array fb.length
      let items ← pyElems slicedV
      pure (items.enum.foldl (fun m iv =>
        match fb.get? iv.1 with
        | some lab => dset m lab iv.2
        | none => m) ([] : JObj))
  | none => do
      let items ← pyElems stats_array
      pure (items.enum.foldl (fun m iv =>
        dset m ("stat_" ++ natDec (iv.1 + 1)) iv.2) ([] : JObj))

/-- Processing of one athlete of a qualifying category
(main.py lines 199-232). -/
def cleanMkPlayer (category_name : String) (stat_labels : JVal) (athlete : JVal) :
    Except Unit JVal := do
  let stats_array ← pyGet athlete "stats" (.arr [])
  let player_stats ←
    if truthy stat_labels then do
      let n1 ← pyLen stat_labels
      let n2 ← pyLen stats_array
      if n1 = n2 then do
        let pairs ← pyZip stat_labels stats_array
        pairs.foldlM (fun m lv => do
          let k ← pyKey lv.1
          pure (dset m k lv.2)) ([] : JObj)
      else fallbackStats category_name stats_array
    else fallbackStats category_name stats_array
  let athV ← pyGet athlete "athlete" (.obj [])
  let nameV ← pyGet athV "displayName" (.str "")
  let athV2 ← pyGet athlete "athlete" (.obj [])
  let posOV ← pyGet athV2 "position" (.obj [])
  let posV ← pyGet posOV "abbreviation" (.str "")
  let statsField := if player_stats.isEmpty then stats_array else JVal.obj player_stats
  pure (JVal.obj [("name", nameV), ("position", posV), ("stats", statsField)])

/-- The label-list selection of main.py lines 191-196: `labels` when truthy,
else `keys` when truthy, else the empty list. -/
def statLabelsOf (stat_category : JVal) : Except Unit JVal := do
  let lp ← pyGet stat_category "labels" .null
  if truthy lp then pySubS stat_category "labels"
  else do
    let kp ← pyGet stat_category "keys" .null
    if truthy kp then pySubS stat_category "keys"
    else pure (JVal.arr [])

/-- Processing of one statistic category of a team players block
(main.py lines 188-235). -/
def cleanCatStep (team_key : String) (d : JObj) (stat_category : JVal) : Except JObj JObj :=
  match pyGet stat_category "name" (.str "") with
  | .error _ => .error d
  | .ok cnV =>
  match cnV with
  | .str cn =>
    if keyCategories.contains (strLower cn) then
      match statLabelsOf stat_category with
      | .error _ => .error d
      | .ok stat_labels =>
      match (do
          let athsV ← pyGet stat_category "athletes" (.arr [])
          let slicedV ← pySlice athsV 3
          pyElems slicedV : Except Unit (List JVal)) with
      | .error _ => .error d
      | .ok athletes =>
      match athletes.mapM (cleanMkPlayer cn stat_labels) with
      | .error _ => .error d
      | .ok players =>
      if players.isEmpty then .ok d
      else
        match dSetIn2 d "player_statistics" team_key cn (.arr players) with
        | .error _ => .error d
        | .ok d1 => .ok d1
    else .ok d
  | _ => .error d

/-- The per-team body of the player-statistics block (main.py lines 180-235). -/
def cleanPlayersTeamStep (d : JObj) (team_players : JVal) : Except JObj JObj :=
  match (do
      let teamV ← pyGet team_players "team" (.obj [])
      pyGet teamV "abbreviation" (.str "") : Except Unit JVal) with
  | .error _ => .error d
  | .ok abbrV =>
  if truthy abbrV then
    match pyKey abbrV with
    | .error _ => .error d
    | .ok tkey =>
    match dSetIn1 d "player_statistics" tkey (.obj []) with
    | .error _ => .error d
    | .ok d1 =>
    match (do
        let stV ← pyGet team_players "statistics" (.arr [])
        pyElems stV : Except Unit (List JVal)) with
    | .error _ => .error d1
    | .ok cats => pyFoldE (cleanCatStep tkey) d1 cats
  else .ok d

/-- The player-statistics block (main.py lines 179-235). -/
def cleanPlayersBlock (s : JVal) (d : JObj) : Except JObj JObj :=
  match pyIn "boxscore" s with
  | .error _ => .error d
  | .ok h1 =>
  if h1 then
    match pySubS s "boxscore" with
    | .error _ => .error d
    | .ok bs =>
    match pyIn "players" bs with
    | .error _ => .error d
    | .ok h2 =>
    if h2 then
      match (pySubS s "boxscore" : Except Unit JVal) with
      | .error _ => .error d
      | .ok bs2 =>
      match pySubS bs2 "players" with
      | .error _ => .error d
      | .ok playersV =>
      match pyElems playersV with
      | .error _ => .error d
      | .ok items => pyFoldE cleanPlayersTeamStep d items
    else .ok d
  else .ok d

/-- The whole `try` body of `extract_clean_game_data` (main.py lines 110-236). -/
def cleanTryBody (s : JVal) (event_data : Option JVal) (d : JObj) : Except JObj JObj :=
  cleanEventBlock event_data d >>= cleanHeaderBlock s event_data >>=
    cleanTeamStatsBlock s >>= cleanScoringBlock s >>= cleanPlayersBlock s

/-- `extract_clean_game_data` (main.py lines 90-240): the `except` clause
returns the record accumulated so far. -/
def extract_clean_game_data (game_summary : JVal) (event_data : Option JVal) : JObj :=
  match cleanTryBody game_summary event_data cleanInit with
  | .ok d => d
  | .error d => d

/-! ### `extract_box_score_data` -/

/-- The initial `box_score` dictionary (main.py lines 248-253). -/
def boxInit : JObj :=
  [("game_info", .obj []), ("team_stats", .obj []), ("scoring", .arr []),
   ("player_stats", .obj [])]

/-- One header competitor (main.py lines 270-276). -/
def boxHeaderCompetitor (d : JObj) (team : JVal) : Except JObj JObj :=
  match (do
      let teamV ← pyGet team "team" (.obj [])
      let abbrV ← pyGet teamV "abbreviation" (.str "")
      let scoreV ← pyGet team "score" (.num 0)
      let haV ← pyGet team "homeAway" (.str "")
      let recV ← pyGet team "record" (.arr [])
      let name ← pyKey abbrV
      pure (name, JVal.obj [("score", scoreV), ("home_away", haV), ("record", recV)])
      : Except Unit (String × JVal)) with
  | .error _ => .error d
  | .ok (name, entry) =>
      match dSetIn1 d "team_stats" name entry with
      | .error _ => .error d
      | .ok d1 => .ok d1

/-- The header block of the box score (main.py lines 257-276). -/
def boxHeaderBlock (s : JVal) (d : JObj) : Except JObj JObj :=
  match pyIn "header" s with
  | .error _ => .error d
  | .ok hasH =>
  if hasH then
    match pySubS s "header" with
    | .error _ => .error d
    | .ok header =>
    match pyIn "competitions" header with
    | .error _ => .error d
    | .ok hasComp =>
    if hasComp then
      match pySubS header "competitions" with
      | .error _ => .error d
      | .ok compsV =>
      if truthy compsV then
        match pySubN compsV 0 with
        | .error _ => .error d
        | .ok comp =>
        match (do
            let dateV ← pyGet comp "date" (.str "")
            let stV ← pyGet comp "status" (.obj [])
            let tyV ← pyGet stV "type" (.obj [])
            let descV ← pyGet tyV "description" (.str "")
            let venV ← pyGet comp "venue" (.obj [])
            let fullNameV ← pyGet venV "fullName" (.str "")
            let attV ← pyGet comp "attendance" (.num 0)
            pure (JVal.obj [("date", dateV), ("status", descV), ("venue", fullNameV),
              ("attendance", attV)]) : Except Unit JVal) with
        | .error _ => .error d
        | .ok infoObj =>
        let d := dset d "game_info" infoObj
        match pyIn "competitors" comp with
        | .error _ => .error d
        | .ok hasCs =>
        if hasCs then
          match pySubS comp "competitors" with
          | .error _ => .error d
          | .ok csV =>
          match pyElems csV with
          | .error _ => .error d
          | .ok cs => pyFoldE boxHeaderCompetitor d cs
        else .ok d
      else .ok d
    else .ok d
  else .ok d

/-- One entry of `boxscore["teams"]` with its 0-based index
(main.py lines 284-299). -/
def boxTeamStep (d : JObj) (it : Nat × JVal) : Except JObj JObj :=
  match (do
      let team_stats ← pyGet it.2 "statistics" (.arr [])
      let teamV ← pyGet it.2 "team" (.obj [])
      let nameV ← pyGet teamV "abbreviation" (.str ("Team" ++ natDec (it.1 + 1)))
      let name ← pyKey nameV
      pure (name, team_stats) : Except Unit (String × JVal)) with
  | .error _ => .error d
  | .ok (name, team_stats) =>
  match dget d "team_stats" with
  | some (.obj ts) =>
    let d1 := if (dget ts name).isSome then d else dset d "team_stats" (.obj (dset ts name (.obj [])))
    match (do
        let stats ← pyElems team_stats
        stats.foldlM (fun m st => do
          let stNameV ← pyGet st "name" (.str "")
          let valDefV ← pyGet st "value" (.str "")
          let valV ← pyGet st "displayValue" valDefV
          let labV ← pyGet st "label" stNameV
          let k ← pyKey labV
          pure (dset m k valV)) ([] : JObj) : Except Unit JObj) with
    | .error _ => .error d1
    | .ok stats_dict =>
        match dSetIn2 d1 "team_stats" name "statistics" (.obj stats_dict) with
        | .error _ => .error d1
        | .ok d2 => .ok d2
  | _ => .error d

/-- The team half of the boxscore block (main.py lines 283-299). -/
def boxTeamsBlock (bs : JVal) (d : JObj) : Except JObj JObj :=
  match pyIn "teams" bs with
  | .error _ => .error d
  | .ok h =>
  if h then
    match pySubS bs "teams" with
    | .error _ => .error d
    | .ok teamsV =>
    match pyElems teamsV with
    | .error _ => .error d
    | .ok teams => pyFoldE boxTeamStep d teams.enum
  else .ok d

/-- One athlete of a box-score category (main.py lines 311-317): the raw
stats sequence is kept unlabelled. -/
def boxMkPlayer (athlete : JVal) : Except Unit JVal := do
  let athV ← pyGet athlete "athlete" (.obj [])
  let nameV ← pyGet athV "displayName" (.str "")
  let athV2 ← pyGet athlete "athlete" (.obj [])
  let posOV ← pyGet athV2 "position" (.obj [])
  let posV ← pyGet posOV "abbreviation" (.str "")
  let statsV ← pyGet athlete "stats" (.arr [])
  pure (JVal.obj [("name", nameV), ("position", posV), ("stats", statsV)])

/-- Appending athletes of one category one by one (main.py lines 311-317);
a raise mid-loop leaves the partial list in place. -/
def boxAthleteStep (team_key cat_key : String) (d : JObj) (athlete : JVal) :
    Except JObj JObj :=
  match boxMkPlayer athlete with
  | .error _ => .error d
  | .ok player =>
      match dAppendIn2 d "player_stats" team_key cat_key player with
      | .error _ => .error d
      | .ok d1 => .ok d1

/-- One statistic category of a box-score team players block
(main.py lines 307-317): no filtering, all athletes. -/
def boxCatStep (team_key : String) (d : JObj) (stat_category : JVal) : Except JObj JObj :=
  match (do
      let cnV ← pyGet stat_category "name" (.str "")
      let ck ← pyKey cnV
      pure ck : Except Unit String) with
  | .error _ => .error d
  | .ok cat_key =>
  match dSetIn2 d "player_stats" team_key cat_key (.arr []) with
  | .error _ => .error d
  | .ok d1 =>
  match (do
      let athsV ← pyGet stat_category "athletes" (.arr [])
      pyElems athsV : Except Unit (List JVal)) with
  | .error _ => .error d1
  | .ok athletes => pyFoldE (boxAthleteStep team_key cat_key) d1 athletes

/-- One team players block of the box score (main.py lines 303-317);
note the absence of any truthiness check on the abbreviation. -/
def boxPlayersTeamStep (d : JObj) (team_players : JVal) : Except JObj JObj :=
  match (do
      let teamV ← pyGet team_players "team" (.obj [])
      let abbrV ← pyGet teamV "abbreviation" (.str "")
      pyKey abbrV : Except Unit String) with
  | .error _ => .error d
  | .ok tkey =>
  match dSetIn1 d "player_stats" tkey (.obj []) with
  | .error _ => .error d
  | .ok d1 =>
  match (do
      let stV ← pyGet team_players "statistics" (.arr [])
      pyElems stV : Except Unit (List JVal)) with
  | .error _ => .error d1
  | .ok cats => pyFoldE (boxCatStep tkey) d1 cats

/-- The player half of the boxscore block (main.py lines 302-317). -/
def boxPlayersBlock (bs : JVal) (d : JObj) : Except JObj JObj :=
  match pyIn "players" bs with
  | .error _ => .error d
  | .ok h =>
  if h then
    match pySubS bs "players" with
    | .error _ => .error d
    | .ok playersV =>
    match pyElems playersV with
    | .error _ => .error d
    | .ok items => pyFoldE boxPlayersTeamStep d items
  else .ok d

/-- The boxscore block (main.py lines 279-317). -/
def boxBoxscoreBlock (s : JVal) (d : JObj) : Except JObj JObj :=
  match pyIn "boxscore" s with
  | .error _ => .error d
  | .ok h =>
  if h then
    match pySubS s "boxscore" with
    | .error _ => .error d
    | .ok bs => boxTeamsBlock bs d >>= boxPlayersBlock bs
  else .ok d

/-- One box scoring play (main.py lines 321-330); note the key names
`score_home`/`score_away`. -/
def boxScoringStep (d : JObj) (play : JVal) : Except JObj JObj :=
  match (do
      let perV ← pyGet play "period" (.obj [])
      let qV ← pyGet perV "number" (.num 0)
      let clkV ← pyGet play "clock" (.obj [])
      let timeV ← pyGet clkV "displayValue" (.str "")
      let teamV ← pyGet play "team" (.obj [])
      let abbrV ← pyGet teamV "abbreviation" (.str "")
      let txtV ← pyGet play "text" (.str "")
      let homeV ← pyGet play "homeScore" (.num 0)
      let awayV ← pyGet play "awayScore" (.num 0)
      pure (JVal.obj [("quarter", qV), ("time", timeV), ("team", abbrV),
        ("description", txtV), ("score_home", homeV), ("score_away", awayV)])
      : Except Unit JVal) with
  | .error _ => .error d
  | .ok playObj =>
      match dAppendIn0 d "scoring" playObj with
      | .error _ => .error d
      | .ok d1 => .ok d1

/-- The box scoring-plays block (main.py lines 320-330). -/
def boxScoringBlock (s : JVal) (d : JObj) : Except JObj JObj :=
  match pyIn "scoringPlays" s with
  | .error _ => .error d
  | .ok h1 =>
  if h1 then
    match pySubS s "scoringPlays" with
    | .error _ => .error d
    | .ok playsV =>
    match pyElems playsV with
    | .error _ => .error d
    | .ok plays => pyFoldE boxScoringStep d plays
  else .ok d

/-- The whole `try` body of `extract_box_score_data` (main.py lines 255-330). -/
def boxTryBody (s : JVal) (d : JObj) : Except JObj JObj :=
  boxHeaderBlock s d >>= boxBoxscoreBlock s >>= boxScoringBlock s

/-- `extract_box_score_data` (main.py lines 242-335): the `except` clause
returns the record accumulated so far. -/
def extract_box_score_data (game_summary : JVal) : JObj :=
  match boxTryBody game_summary boxInit with
  | .ok d => d
  | .error d => d

/-- A predicate holding on the record carried by either branch of the
computation (the `except` clause returns the error payload too). -/
def exceptInv (P : JObj → Prop) : Except JObj JObj → Prop
  | .ok d => P d
  | .error d => P d

/-- The record returned after the `except` clause absorbs any raise. -/
def runCatch (r : Except JObj JObj) : JObj :=
  match r with
  | .ok d => d
  | .error d => d

/-- `f` leaves the binding of key `k` untouched, on every path. -/
def keepsKey (f : JObj → Except JObj JObj) (k : String) : Prop :=
  ∀ (d : JObj) (c : Option JVal), dget d k = c → exceptInv (fun d2 => dget d2 k = c) (f d)

/-- `f` preserves the top-level key list `ks`, on every path. -/
def keepsKeys (f : JObj → Except JObj JObj) (ks : List String) : Prop :=
  ∀ d : JObj, objKeys d = ks → exceptInv (fun d2 => objKeys d2 = ks) (f d)

/-- Whether a document is a mapping that has key `k`. -/
def hasKeyB (v : JVal) (k : String) : Bool :=
  match v with
  | .obj kvs => (dget kvs k).isSome
  | _ => false

/-- A summary with no `boxscore` key but with header competitors. -/
def docC7 : JVal :=
  .obj [("header", .obj [("competitions", .arr [.obj [("competitors",
    .arr [.obj [("team", .obj [("abbreviation", .str "KC")]), ("score", .num 7)]])]])])]

/-- Hashable JSON values (usable as Python dict keys). -/
def pyHashable : JVal → Bool
  | .arr _ => false
  | .obj _ => false
  | _ => true

/-- A summary whose boxscore carries only a teams list. -/
def mkTeamsSummary (ts : List JVal) : JVal :=
  .obj [("boxscore", .obj [("teams", .arr ts)])]

/-- A boxscore team entry carrying no team abbreviation (the entry is a
mapping whose `team` field is absent or a mapping without `abbreviation`). -/
def lacksAbbr (t : JVal) : Bool :=
  match t with
  | .obj kvs =>
      match dget kvs "team" with
      | none => true
      | some (.obj tk) => (dget tk "abbreviation").isNone
      | some _ => false
  | _ => false

/-- The team entry cannot contribute an empty-string key to `team_stats`:
its abbreviation is absent, a non-empty string, or unhashable (in which case
the entry raises before storing anything); malformed team fields also raise
before storing. -/
def abbrSafeB (t : JVal) : Bool :=
  match t with
  | .obj kvs =>
      match dget kvs "team" with
      | some (.obj tk) =>
          match dget tk "abbreviation" with
          | none => true
          | some (.str a) => !(a = "")
          | some (.arr _) => true
          | some (.obj _) => true
          | some _ => false
      | _ => true
  | _ => true

/-- A team statistic entry processable by the box-score stats loop. -/
def statEntryOkB (st : JVal) : Bool :=
  match st with
  | .obj kvs => pyHashable ((dget kvs "label").getD ((dget kvs "name").getD (.str "")))
  | _ => false

/-- A boxscore team entry fully processable by `boxTeamStep` (no raise). -/
def boxTeamEntryOkB (t : JVal) : Bool :=
  match t with
  | .obj kvs =>
      (match dget kvs "team" with
       | none => true
       | some (.obj tk) =>
           (match dget tk "abbreviation" with
            | none => true
            | some (.str a) => !(a = "")
            | some _ => false)
       | some _ => false) &&
      (match dget kvs "statistics" with
       | none => true
       | some (.arr sts) => sts.all statEntryOkB
       | some _ => false)
  | _ => false

/-- The `team_stats` key under which `boxTeamStep` stores the entry at
0-based index `p.1`. -/
def boxEntryName (p : Nat × JVal) : String :=
  match p.2 with
  | .obj kvs =>
      match dget kvs "team" with
      | some (.obj tk) =>
          match dget tk "abbreviation" with
          | some (.str a) => a
          | _ => "Team" ++ natDec (p.1 + 1)
      | _ => "Team" ++ natDec (p.1 + 1)
  | _ => "Team" ++ natDec (p.1 + 1)

/-- A teams list whose first entry raises (its statistics field is a
number) and whose second entry lacks an abbreviation. -/
def docC10bad : JVal := mkTeamsSummary [.obj [("statistics", .num 5)], .obj []]

/-! ### C2: field presence and the attendance value -/

def cleanFieldNames : List String :=
  ["game_id", "date", "status", "venue", "attendance", "teams", "final_score",
   "team_statistics", "scoring_plays", "player_statistics"]

def boxFieldNames : List String :=
  ["game_info", "team_stats", "scoring", "player_stats"]

/-- The attendance value the event branch would copy, when the event
competition path is fully shaped. -/
def eventAttSrc (e : Option JVal) : Option JVal :=
  match e with
  | some (.obj kvs) =>
      match dget kvs "competitions" with
      | some (.arr (c :: _)) =>
          match c with
          | .obj ckvs => dget ckvs "attendance"
          | _ => none
      | _ => none
  | _ => none

/-- The attendance value the header branch would copy, when the header
competition path is fully shaped. -/
def headerAttSrc (s : JVal) : Option JVal :=
  match s with
  | .obj kvs =>
      match dget kvs "header" with
      | some (.obj hkvs) =>
          match dget hkvs "competitions" with
          | some (.arr (c :: _)) =>
              match c with
              | .obj ckvs => dget ckvs "attendance"
              | _ => none
          | _ => none
      | _ => none
  | _ => none

/-- A source attendance value that is absent or a non-negative integer. -/
def attOkB (o : Option JVal) : Bool :=
  match o with
  | none => true
  | some (.num n) => decide (0 ≤ n)
  | some _ => false

/-- The attendance slot inside the box record's `game_info` field. -/
def gameInfoAtt (d : JObj) : Option JVal :=
  match dget d "game_info" with
  | some (.obj g) => dget g "attendance"
  | _ => none

/-- The status-description chain of the event branch
(`event_data.get("status", {}).get("type", {}).get("description", "")`,
main.py line 115). -/
def cleanEventStatus (e : JVal) : Except Unit JVal := do
  let stV ← pyGet e "status" (.obj [])
  let tyV ← pyGet stV "type" (.obj [])
  pyGet tyV "description" (.str "")

/-- The venue chain applied to a competition
(`competition.get("venue", {}).get("fullName", "")`, main.py line 120). -/
def cleanEventVenueOf (comp : JVal) : Except Unit JVal := do
  let venV ← pyGet comp "venue" (.obj [])
  pyGet venV "fullName" (.str "")

/-- Spec-side (C4): the mapping built by assigning values to labels
positionally, later labels overwriting earlier equal ones as successive
Python dict assignments do. -/
def zipStats (labs : List String) (vals : List JVal) : JObj :=
  (labs.zip vals).foldl (fun m p => dset m p.1 p.2) []

/-- Spec-side (C4): the generic labels `stat_1`, `stat_2`, ... -/
def genericLabels (n : Nat) : List String :=
  (List.range n).map (fun i => "stat_" ++ natDec (i + 1))

/-- Spec-side (C4, amended): the expected `stats` field of one athlete:
positional zip when the label list is nonempty and matches the stats
length, else the fixed per-category fallback applied positionally, else
generic `stat_<i+1>` labels; an empty mapping is replaced by the raw
stats sequence. -/
def specStats (cn : String) (L : List String) (S : List JVal) : JVal :=
  if L ≠ [] ∧ L.length = S.length then .obj (zipStats L S)
  else
    match fixedFallback (strLower cn) with
    | some fb => if S.isEmpty then .arr [] else .obj (zipStats fb S)
    | none => if S.isEmpty then .arr [] else .obj (zipStats (genericLabels S.length) S)

/-- Well-shapedness of one athlete entry: the `athlete` sub-object and its
`position` are dicts when present, and `stats` is a sequence when present,
so that the per-athlete accesses of main.py lines 199-232 cannot raise. -/
def athleteOkB (athlete : JVal) : Bool :=
  match athlete with
  | .obj akvs =>
      (match (dget akvs "athlete").getD (.obj []) with
       | .obj avkvs =>
           match (dget avkvs "position").getD (.obj []) with
           | .obj _ => true
           | _ => false
       | _ => false) &&
      (match (dget akvs "stats").getD (.arr []) with
       | .arr _ => true
       | _ => false)
  | _ => false

/-- The list of category keys stored for team `tk` inside the mapping
field `f` of a record. -/
def teamCats (d : JObj) (f tk : String) : Option (List String) :=
  match dget d f with
  | some (.obj m) =>
      match dget m tk with
      | some (.obj tm) => some (objKeys tm)
      | _ => none
  | _ => none

/-! ### Basic dictionary lemmas -/

theorem dget_dset_self (d : JObj) (k : String) (v : JVal) :
    dget (dset d k v) k = some v := by
  induction d with
  | nil => simp [dget, dset]
  | cons kv rest ih =>
      by_cases h : kv.1 = k
      · simp [dget, dset, h]
      · simp [dget, dset, h, ih]

theorem dget_dset_ne (d : JObj) (k k' : String) (v : JVal) (h : k' ≠ k) :
    dget (dset d k v) k' = dget d k' := by
  induction d with
  | nil => simp [dget, dset, Ne.symm h]
  | cons kv rest ih =>
      by_cases hk : kv.1 = k
      · subst hk
        simp [dset, dget, Ne.symm h]
      · simp only [dset, if_neg hk, dget]
        by_cases hk' : kv.1 = k'
        · simp [hk']
        · simp [hk', ih]

theorem dget_isSome_of_mem {d : JObj} {k : String} (h : k ∈ objKeys d) :
    (dget d k).isSome := by
  induction d with
  | nil => simp [objKeys] at h
  | cons kv rest ih =>
      simp only [objKeys, List.map_cons, List.mem_cons] at h
      by_cases hk : kv.1 = k
      · simp [dget, hk]
      · rcases h with h | h
        · exact absurd h.symm hk
        · simpa [dget, hk] using ih h

theorem objKeys_dset_of_isSome {d : JObj} {k : String} (v : JVal)
    (h : (dget d k).isSome) : objKeys (dset d k v) = objKeys d := by
  induction d with
  | nil => simp [dget] at h
  | cons kv rest ih =>
      by_cases hk : kv.1 = k
      · simp [dset, hk, objKeys]
      · simp only [dget, if_neg hk] at h
        simp [dset, hk, objKeys, objKeys_dset_of_isSome] at ih ⊢
        exact ih h

theorem dset_ne_nil (d : JObj) (k : String) (v : JVal) : dset d k v ≠ [] := by
  cases d with
  | nil => simp [dset]
  | cons kv rest =>
      by_cases hk : kv.1 = k <;> simp [dset, hk]

/-! ### Invariant machinery for the error-carrying computations -/

@[simp] theorem exceptInv_ok (P : JObj → Prop) (d : JObj) :
    exceptInv P (.ok d) = P d := rfl

@[simp] theorem exceptInv_error (P : JObj → Prop) (d : JObj) :
    exceptInv P (.error d) = P d := rfl

theorem exceptInv_runCatch {P : JObj → Prop} {r : Except JObj JObj}
    (h : exceptInv P r) : P (runCatch r) := by
  cases r <;> exact h

theorem exceptInv_bind {P : JObj → Prop} {r : Except JObj JObj}
    {g : JObj → Except JObj JObj} (h : exceptInv P r)
    (hg : ∀ d, P d → exceptInv P (g d)) : exceptInv P (r >>= g) := by
  cases r with
  | ok d => exact hg d h
  | error d => exact h

theorem pyFoldE_inv {P : JObj → Prop} (f : JObj → α → Except JObj JObj)
    (hf : ∀ d x, P d → exceptInv P (f d x)) :
    ∀ (xs : List α) (d : JObj), P d → exceptInv P (pyFoldE f d xs) := by
  intro xs
  induction xs with
  | nil => intro d hd; simpa [pyFoldE] using hd
  | cons x rest ih =>
      intro d hd
      simp only [pyFoldE]
      cases hfd : f d x with
      | ok d1 =>
          have := hf d x hd
          rw [hfd] at this
          exact ih d1 this
      | error d1 =>
          have := hf d x hd
          rw [hfd] at this
          exact this

theorem dget_dset_ne2 {d : JObj} {k k0 : String} {v : JVal} {c : Option JVal}
    (h : dget d k = c) (hne : k ≠ k0) : dget (dset d k0 v) k = c := by
  rw [dget_dset_ne _ _ _ _ hne]; exact h

theorem dSetIn1_ok_eq {d : JObj} {f a : String} {v : JVal} {d1 : JObj}
    (h : dSetIn1 d f a v = .ok d1) :
    ∃ m, dget d f = some (.obj m) ∧ d1 = dset d f (.obj (dset m a v)) := by
  unfold dSetIn1 at h
  split at h
  · next m heq =>
      injection h with h
      exact ⟨m, heq, h.symm⟩
  · exact absurd h (by simp)

theorem dSetIn1_ok_keeps {d : JObj} {f a : String} {v : JVal} {d1 : JObj} {k : String}
    {c : Option JVal} (h : dSetIn1 d f a v = .ok d1) (hd : dget d k = c)
    (hk : k ≠ f) : dget d1 k = c := by
  obtain ⟨m, _, rfl⟩ := dSetIn1_ok_eq h
  exact dget_dset_ne2 hd hk

theorem dSetIn1_ok_keys {d : JObj} {f a : String} {v : JVal} {d1 : JObj}
    (h : dSetIn1 d f a v = .ok d1) : objKeys d1 = objKeys d := by
  obtain ⟨m, heq, rfl⟩ := dSetIn1_ok_eq h
  exact objKeys_dset_of_isSome _ (by rw [heq]; rfl)

theorem dSetIn2_ok_eq {d : JObj} {f k1 k2 : String} {v : JVal} {d1 : JObj}
    (h : dSetIn2 d f k1 k2 v = .ok d1) :
    ∃ m1 m2, dget d f = some (.obj m1) ∧ dget m1 k1 = some (.obj m2) ∧
      d1 = dset d f (.obj (dset m1 k1 (.obj (dset m2 k2 v)))) := by
  unfold dSetIn2 at h
  split at h
  · next m1 heq1 =>
      split at h
      · next m2 heq2 =>
          injection h with h
          exact ⟨m1, m2, heq1, heq2, h.symm⟩
      · exact absurd h (by simp)
  · exact absurd h (by simp)

theorem dSetIn2_ok_keeps {d : JObj} {f k1 k2 : String} {v : JVal} {d1 : JObj} {k : String}
    {c : Option JVal} (h : dSetIn2 d f k1 k2 v = .ok d1) (hd : dget d k = c)
    (hk : k ≠ f) : dget d1 k = c := by
  obtain ⟨m1, m2, _, _, rfl⟩ := dSetIn2_ok_eq h
  exact dget_dset_ne2 hd hk

theorem dSetIn2_ok_keys {d : JObj} {f k1 k2 : String} {v : JVal} {d1 : JObj}
    (h : dSetIn2 d f k1 k2 v = .ok d1) : objKeys d1 = objKeys d := by
  obtain ⟨m1, m2, heq, _, rfl⟩ := dSetIn2_ok_eq h
  exact objKeys_dset_of_isSome _ (by rw [heq]; rfl)

theorem dAppendIn0_ok_eq {d : JObj} {f : String} {v : JVal} {d1 : JObj}
    (h : dAppendIn0 d f v = .ok d1) :
    ∃ xs, dget d f = some (.arr xs) ∧ d1 = dset d f (.arr (xs ++ [v])) := by
  unfold dAppendIn0 at h
  split at h
  · next xs heq =>
      injection h with h
      exact ⟨xs, heq, h.symm⟩
  · exact absurd h (by simp)

theorem dAppendIn0_ok_keeps {d : JObj} {f : String} {v : JVal} {d1 : JObj} {k : String}
    {c : Option JVal} (h : dAppendIn0 d f v = .ok d1) (hd : dget d k = c)
    (hk : k ≠ f) : dget d1 k = c := by
  obtain ⟨xs, _, rfl⟩ := dAppendIn0_ok_eq h
  exact dget_dset_ne2 hd hk

theorem dAppendIn0_ok_keys {d : JObj} {f : String} {v : JVal} {d1 : JObj}
    (h : dAppendIn0 d f v = .ok d1) : objKeys d1 = objKeys d := by
  obtain ⟨xs, heq, rfl⟩ := dAppendIn0_ok_eq h
  exact objKeys_dset_of_isSome _ (by rw [heq]; rfl)

theorem dAppendIn2_ok_eq {d : JObj} {f k1 k2 : String} {v : JVal} {d1 : JObj}
    (h : dAppendIn2 d f k1 k2 v = .ok d1) :
    ∃ m1 m2 xs, dget d f = some (.obj m1) ∧ dget m1 k1 = some (.obj m2) ∧
      dget m2 k2 = some (.arr xs) ∧
      d1 = dset d f (.obj (dset m1 k1 (.obj (dset m2 k2 (.arr (xs ++ [v])))))) := by
  unfold dAppendIn2 at h
  split at h
  · next m1 heq1 =>
      split at h
      · next m2 heq2 =>
          split at h
          · next xs heq3 =>
              injection h with h
              exact ⟨m1, m2, xs, heq1, heq2, heq3, h.symm⟩
          · exact absurd h (by simp)
      · exact absurd h (by simp)
  · exact absurd h (by simp)

theorem dAppendIn2_ok_keeps {d : JObj} {f k1 k2 : String} {v : JVal} {d1 : JObj} {k : String}
    {c : Option JVal} (h : dAppendIn2 d f k1 k2 v = .ok d1) (hd : dget d k = c)
    (hk : k ≠ f) : dget d1 k = c := by
  obtain ⟨m1, m2, xs, _, _, _, rfl⟩ := dAppendIn2_ok_eq h
  exact dget_dset_ne2 hd hk

theorem dAppendIn2_ok_keys {d : JObj} {f k1 k2 : String} {v : JVal} {d1 : JObj}
    (h : dAppendIn2 d f k1 k2 v = .ok d1) : objKeys d1 = objKeys d := by
  obtain ⟨m1, m2, xs, heq, _, _, rfl⟩ := dAppendIn2_ok_eq h
  exact objKeys_dset_of_isSome _ (by rw [heq]; rfl)

/-! ### Parametric per-block invariants -/

theorem cleanEventCompetitor_inv (P : JObj → Prop)
    (hteams : ∀ d a v d1, dSetIn1 d "teams" a v = .ok d1 → P d → P d1)
    (hscore : ∀ d a v d1, dSetIn1 d "final_score" a v = .ok d1 → P d → P d1)
    (d : JObj) (x : JVal) (hd : P d) :
    exceptInv P (cleanEventCompetitor d x) := by
  unfold cleanEventCompetitor
  split
  · exact hd
  · next abbr teamObj =>
      split
      · exact hd
      · next d1 h1 =>
          have hd1 : P d1 := hteams _ _ _ _ h1 hd
          split
          · exact hd1
          · next score =>
              split
              · exact hd1
              · next d2 h2 => exact hscore _ _ _ _ h2 hd1

theorem cleanEventBlock_inv (P : JObj → Prop)
    (hset : ∀ k0, k0 ∈ (["game_id", "date", "status", "venue", "attendance"] : List String) →
      ∀ d v, P d → P (dset d k0 v))
    (hteams : ∀ d a v d1, dSetIn1 d "teams" a v = .ok d1 → P d → P d1)
    (hscore : ∀ d a v d1, dSetIn1 d "final_score" a v = .ok d1 → P d → P d1)
    (e : Option JVal) (d : JObj) (hd : P d) :
    exceptInv P (cleanEventBlock e d) := by
  cases e with
  | none => exact hd
  | some ev =>
      simp only [cleanEventBlock]
      split
      · split
        · exact hd
        · next idV _ =>
            have hd := hset "game_id" (by simp) d idV hd
            split
            · exact hd
            · next dateV _ =>
                have hd := hset "date" (by simp) _ dateV hd
                split
                · exact hd
                · next descV _ =>
                    have hd := hset "status" (by simp) _ descV hd
                    split
                    · exact hd
                    · next hasComp _ =>
                        split
                        · split
                          · exact hd
                          · next compsV _ =>
                              split
                              · split
                                · exact hd
                                · next comp _ =>
                                    split
                                    · exact hd
                                    · next fullNameV _ =>
                                        have hd := hset "venue" (by simp) _ fullNameV hd
                                        split
                                        · exact hd
                                        · next attV _ =>
                                            have hd := hset "attendance" (by simp) _ attV hd
                                            split
                                            · exact hd
                                            · next hasCs _ =>
                                                split
                                                · split
                                                  · exact hd
                                                  · next csV _ =>
                                                      split
                                                      · exact hd
                                                      · next cs _ =>
                                                          exact pyFoldE_inv _
                                                            (cleanEventCompetitor_inv P hteams hscore)
                                                            cs _ hd
                                                · exact hd
                              · exact hd
                        · exact hd
      · exact hd

theorem cleanHeaderCompetitor_inv (P : JObj → Prop)
    (hteams : ∀ d a v d1, dSetIn1 d "teams" a v = .ok d1 → P d → P d1)
    (hscore : ∀ d a v d1, dSetIn1 d "final_score" a v = .ok d1 → P d → P d1)
    (d : JObj) (x : JVal) (hd : P d) :
    exceptInv P (cleanHeaderCompetitor d x) := by
  unfold cleanHeaderCompetitor
  split
  · exact hd
  · next abbr teamObj =>
      split
      · exact hd
      · next d1 h1 =>
          have hd1 : P d1 := hteams _ _ _ _ h1 hd
          split
          · exact hd1
          · next score =>
              split
              · exact hd1
              · next d2 h2 => exact hscore _ _ _ _ h2 hd1

theorem cleanHeaderBlock_inv (P : JObj → Prop)
    (hset : ∀ k0, k0 ∈ (["date", "status", "venue", "attendance"] : List String) →
      ∀ d v, P d → P (dset d k0 v))
    (hteams : ∀ d a v d1, dSetIn1 d "teams" a v = .ok d1 → P d → P d1)
    (hscore : ∀ d a v d1, dSetIn1 d "final_score" a v = .ok d1 → P d → P d1)
    (s : JVal) (e : Option JVal) (d : JObj) (hd : P d) :
    exceptInv P (cleanHeaderBlock s e d) := by
  unfold cleanHeaderBlock
  split
  · exact hd
  · next hasH _ =>
      split
      · split
        · exact hd
        · next header _ =>
            split
            · exact hd
            · next hasComp _ =>
                split
                · split
                  · exact hd
                  · next compsV _ =>
                      split
                      · split
                        · exact hd
                        · next comp _ =>
                            split
                            · exact hd
                            · next dateV _ =>
                                have hd := hset "date" (by simp) _ dateV hd
                                split
                                · exact hd
                                · next descV _ =>
                                    have hd := hset "status" (by simp) _ descV hd
                                    split
                                    · exact hd
                                    · next fullNameV _ =>
                                        have hd := hset "venue" (by simp) _ fullNameV hd
                                        split
                                        · exact hd
                                        · next attV _ =>
                                            have hd := hset "attendance" (by simp) _ attV hd
                                            split
                                            · exact hd
                                            · next hasCs _ =>
                                                split
                                                · split
                                                  · exact hd
                                                  · next csV _ =>
                                                      split
                                                      · exact hd
                                                      · next cs _ =>
                                                          exact pyFoldE_inv _
                                                            (cleanHeaderCompetitor_inv P hteams hscore)
                                                            cs _ hd
                                                · exact hd
                      · exact hd
                · exact hd
      · exact hd

/-- With a truthy `event_data` the header block leaves the record unchanged
(it can still raise on the `in` test, but assigns nothing). -/
theorem cleanHeaderBlock_of_truthy {s : JVal} {e : Option JVal}
    (he : truthyOpt e = true) (d : JObj) :
    exceptInv (fun d2 => d2 = d) (cleanHeaderBlock s e d) := by
  unfold cleanHeaderBlock
  split
  · rfl
  · next hasH _ =>
      rw [he]
      simp only [Bool.not_true, Bool.and_false, Bool.false_eq_true, if_false]
      rfl

theorem cleanTeamStatStep_inv (P : JObj → Prop)
    (hts : ∀ d a v d1, dSetIn1 d "team_statistics" a v = .ok d1 → P d → P d1)
    (d : JObj) (x : JVal) (hd : P d) :
    exceptInv P (cleanTeamStatStep d x) := by
  unfold cleanTeamStatStep
  split
  · exact hd
  · next abbrV _ =>
      split
      · split
        · exact hd
        · next pr _ =>
            split
            · exact hd
            · next d1 h1 => exact hts _ _ _ _ h1 hd
      · exact hd

theorem cleanTeamStatsBlock_inv (P : JObj → Prop)
    (hts : ∀ d a v d1, dSetIn1 d "team_statistics" a v = .ok d1 → P d → P d1)
    (s : JVal) (d : JObj) (hd : P d) :
    exceptInv P (cleanTeamStatsBlock s d) := by
  unfold cleanTeamStatsBlock
  split
  · exact hd
  · next h1 _ =>
      split
      · split
        · exact hd
        · next bs _ =>
            split
            · exact hd
            · next h2 _ =>
                split
                · split
                  · exact hd
                  · next bs2 _ =>
                      split
                      · exact hd
                      · next teamsV _ =>
                          split
                          · exact hd
                          · next teams _ =>
                              exact pyFoldE_inv _ (cleanTeamStatStep_inv P hts) teams _ hd
                · exact hd
      · exact hd

theorem cleanScoringStep_inv (P : JObj → Prop)
    (hsp : ∀ d v d1, dAppendIn0 d "scoring_plays" v = .ok d1 → P d → P d1)
    (d : JObj) (x : JVal) (hd : P d) :
    exceptInv P (cleanScoringStep d x) := by
  unfold cleanScoringStep
  split
  · exact hd
  · next playObj _ =>
      split
      · exact hd
      · next d1 h1 => exact hsp _ _ _ h1 hd

theorem cleanScoringBlock_inv (P : JObj → Prop)
    (hsp : ∀ d v d1, dAppendIn0 d "scoring_plays" v = .ok d1 → P d → P d1)
    (s : JVal) (d : JObj) (hd : P d) :
    exceptInv P (cleanScoringBlock s d) := by
  unfold cleanScoringBlock
  split
  · exact hd
  · next h1 _ =>
      split
      · split
        · exact hd
        · next playsV _ =>
            split
            · exact hd
            · next plays _ => exact pyFoldE_inv _ (cleanScoringStep_inv P hsp) plays _ hd
      · exact hd

theorem cleanCatStep_inv (P : JObj → Prop)
    (hps2 : ∀ d a b v d1, dSetIn2 d "player_statistics" a b v = .ok d1 → P d → P d1)
    (tk : String) (d : JObj) (x : JVal) (hd : P d) :
    exceptInv P (cleanCatStep tk d x) := by
  unfold cleanCatStep
  split
  · exact hd
  · next cnV _ =>
      split
      · next cn =>
          split
          · split
            · exact hd
            · next stat_labels _ =>
                split
                · exact hd
                · next athletes _ =>
                    split
                    · exact hd
                    · next players _ =>
                        split
                        · exact hd
                        · split
                          · exact hd
                          · next d1 h1 => exact hps2 _ _ _ _ _ h1 hd
          · exact hd
      · exact hd

theorem cleanPlayersTeamStep_inv (P : JObj → Prop)
    (hps1 : ∀ d a v d1, dSetIn1 d "player_statistics" a v = .ok d1 → P d → P d1)
    (hps2 : ∀ d a b v d1, dSetIn2 d "player_statistics" a b v = .ok d1 → P d → P d1)
    (d : JObj) (x : JVal) (hd : P d) :
    exceptInv P (cleanPlayersTeamStep d x) := by
  unfold cleanPlayersTeamStep
  split
  · exact hd
  · next abbrV _ =>
      split
      · split
        · exact hd
        · next tkey _ =>
            split
            · exact hd
            · next d1 h1 =>
                have hd1 : P d1 := hps1 _ _ _ _ h1 hd
                split
                · exact hd1
                · next cats _ =>
                    exact pyFoldE_inv _ (cleanCatStep_inv P hps2 tkey) cats _ hd1
      · exact hd

theorem cleanPlayersBlock_inv (P : JObj → Prop)
    (hps1 : ∀ d a v d1, dSetIn1 d "player_statistics" a v = .ok d1 → P d → P d1)
    (hps2 : ∀ d a b v d1, dSetIn2 d "player_statistics" a b v = .ok d1 → P d → P d1)
    (s : JVal) (d : JObj) (hd : P d) :
    exceptInv P (cleanPlayersBlock s d) := by
  unfold cleanPlayersBlock
  split
  · exact hd
  · next h1 _ =>
      split
      · split
        · exact hd
        · next bs _ =>
            split
            · exact hd
            · next h2 _ =>
                split
                · split
                  · exact hd
                  · next bs2 _ =>
                      split
                      · exact hd
                      · next playersV _ =>
                          split
                          · exact hd
                          · next items _ =>
                              exact pyFoldE_inv _ (cleanPlayersTeamStep_inv P hps1 hps2) items _ hd
                · exact hd
      · exact hd

theorem boxHeaderCompetitor_inv (P : JObj → Prop)
    (hts : ∀ d a v d1, dSetIn1 d "team_stats" a v = .ok d1 → P d → P d1)
    (d : JObj) (x : JVal) (hd : P d) :
    exceptInv P (boxHeaderCompetitor d x) := by
  unfold boxHeaderCompetitor
  split
  · exact hd
  · next name entry =>
      split
      · exact hd
      · next d1 h1 => exact hts _ _ _ _ h1 hd

theorem boxHeaderBlock_inv (P : JObj → Prop)
    (hinfo : ∀ d v, P d → P (dset d "game_info" v))
    (hts : ∀ d a v d1, dSetIn1 d "team_stats" a v = .ok d1 → P d → P d1)
    (s : JVal) (d : JObj) (hd : P d) :
    exceptInv P (boxHeaderBlock s d) := by
  unfold boxHeaderBlock
  split
  · exact hd
  · next hasH _ =>
      split
      · split
        · exact hd
        · next header _ =>
            split
            · exact hd
            · next hasComp _ =>
                split
                · split
                  · exact hd
                  · next compsV _ =>
                      split
                      · split
                        · exact hd
                        · next comp _ =>
                            split
                            · exact hd
                            · next infoObj _ =>
                                have hd := hinfo _ infoObj hd
                                split
                                · exact hd
                                · next hasCs _ =>
                                    split
                                    · split
                                      · exact hd
                                      · next csV _ =>
                                          split
                                          · exact hd
                                          · next cs _ =>
                                              exact pyFoldE_inv _
                                                (boxHeaderCompetitor_inv P hts) cs _ hd
                                    · exact hd
                      · exact hd
                · exact hd
      · exact hd

theorem boxTeamStep_inv (P : JObj → Prop)
    (hinit : ∀ d ts name, dget d "team_stats" = some (.obj ts) → P d →
      P (dset d "team_stats" (.obj (dset ts name (.obj [])))))
    (hts2 : ∀ d a b v d1, dSetIn2 d "team_stats" a b v = .ok d1 → P d → P d1)
    (d : JObj) (x : Nat × JVal) (hd : P d) :
    exceptInv P (boxTeamStep d x) := by
  unfold boxTeamStep
  split
  · exact hd
  · next nm tstats heq0 =>
      split
      · next ts heq =>
          split
          · split
            · exact hd
            · next stats_dict _ =>
                dsimp only
                split
                · exact hd
                · next d2 h2 => exact hts2 _ _ _ _ _ h2 hd
          · have hd1 : P (dset d "team_stats" (.obj (dset ts nm (.obj [])))) :=
              hinit _ _ _ heq hd
            split
            · exact hd1
            · next stats_dict _ =>
                dsimp only
                split
                · exact hd1
                · next d2 h2 => exact hts2 _ _ _ _ _ h2 hd1
      · exact hd

theorem boxTeamsBlock_inv (P : JObj → Prop)
    (hinit : ∀ d ts name, dget d "team_stats" = some (.obj ts) → P d →
      P (dset d "team_stats" (.obj (dset ts name (.obj [])))))
    (hts2 : ∀ d a b v d1, dSetIn2 d "team_stats" a b v = .ok d1 → P d → P d1)
    (bs : JVal) (d : JObj) (hd : P d) :
    exceptInv P (boxTeamsBlock bs d) := by
  unfold boxTeamsBlock
  split
  · exact hd
  · next h _ =>
      split
      · split
        · exact hd
        · next teamsV _ =>
            split
            · exact hd
            · next teams _ =>
                exact pyFoldE_inv _ (boxTeamStep_inv P hinit hts2) teams.enum _ hd
      · exact hd

theorem boxAthleteStep_inv (P : JObj → Prop)
    (hpa : ∀ d a b v d1, dAppendIn2 d "player_stats" a b v = .ok d1 → P d → P d1)
    (tk ck : String) (d : JObj) (x : JVal) (hd : P d) :
    exceptInv P (boxAthleteStep tk ck d x) := by
  unfold boxAthleteStep
  split
  · exact hd
  · next player _ =>
      split
      · exact hd
      · next d1 h1 => exact hpa _ _ _ _ _ h1 hd

theorem boxCatStep_inv (P : JObj → Prop)
    (hps2 : ∀ d a b v d1, dSetIn2 d "player_stats" a b v = .ok d1 → P d → P d1)
    (hpa : ∀ d a b v d1, dAppendIn2 d "player_stats" a b v = .ok d1 → P d → P d1)
    (tk : String) (d : JObj) (x : JVal) (hd : P d) :
    exceptInv P (boxCatStep tk d x) := by
  unfold boxCatStep
  split
  · exact hd
  · next ck _ =>
      split
      · exact hd
      · next d1 h1 =>
          have hd1 : P d1 := hps2 _ _ _ _ _ h1 hd
          split
          · exact hd1
          · next athletes _ =>
              exact pyFoldE_inv _ (boxAthleteStep_inv P hpa tk ck) athletes _ hd1

theorem boxPlayersTeamStep_inv (P : JObj → Prop)
    (hps1 : ∀ d a v d1, dSetIn1 d "player_stats" a v = .ok d1 → P d → P d1)
    (hps2 : ∀ d a b v d1, dSetIn2 d "player_stats" a b v = .ok d1 → P d → P d1)
    (hpa : ∀ d a b v d1, dAppendIn2 d "player_stats" a b v = .ok d1 → P d → P d1)
    (d : JObj) (x : JVal) (hd : P d) :
    exceptInv P (boxPlayersTeamStep d x) := by
  unfold boxPlayersTeamStep
  split
  · exact hd
  · next tkey _ =>
      split
      · exact hd
      · next d1 h1 =>
          have hd1 : P d1 := hps1 _ _ _ _ h1 hd
          split
          · exact hd1
          · next cats _ =>
              exact pyFoldE_inv _ (boxCatStep_inv P hps2 hpa tkey) cats _ hd1

theorem boxPlayersBlock_inv (P : JObj → Prop)
    (hps1 : ∀ d a v d1, dSetIn1 d "player_stats" a v = .ok d1 → P d → P d1)
    (hps2 : ∀ d a b v d1, dSetIn2 d "player_stats" a b v = .ok d1 → P d → P d1)
    (hpa : ∀ d a b v d1, dAppendIn2 d "player_stats" a b v = .ok d1 → P d → P d1)
    (bs : JVal) (d : JObj) (hd : P d) :
    exceptInv P (boxPlayersBlock bs d) := by
  unfold boxPlayersBlock
  split
  · exact hd
  · next h _ =>
      split
      · split
        · exact hd
        · next playersV _ =>
            split
            · exact hd
            · next items _ =>
                exact pyFoldE_inv _ (boxPlayersTeamStep_inv P hps1 hps2 hpa) items _ hd
      · exact hd

theorem boxBoxscoreBlock_inv (P : JObj → Prop)
    (hinit : ∀ d ts name, dget d "team_stats" = some (.obj ts) → P d →
      P (dset d "team_stats" (.obj (dset ts name (.obj [])))))
    (hts2 : ∀ d a b v d1, dSetIn2 d "team_stats" a b v = .ok d1 → P d → P d1)
    (hps1 : ∀ d a v d1, dSetIn1 d "player_stats" a v = .ok d1 → P d → P d1)
    (hps2 : ∀ d a b v d1, dSetIn2 d "player_stats" a b v = .ok d1 → P d → P d1)
    (hpa : ∀ d a b v d1, dAppendIn2 d "player_stats" a b v = .ok d1 → P d → P d1)
    (s : JVal) (d : JObj) (hd : P d) :
    exceptInv P (boxBoxscoreBlock s d) := by
  unfold boxBoxscoreBlock
  split
  · exact hd
  · next h _ =>
      split
      · split
        · exact hd
        · next bs _ =>
            exact exceptInv_bind (boxTeamsBlock_inv P hinit hts2 bs d hd)
              (fun d2 hd2 => boxPlayersBlock_inv P hps1 hps2 hpa bs d2 hd2)
      · exact hd

theorem boxScoringStep_inv (P : JObj → Prop)
    (hsc : ∀ d v d1, dAppendIn0 d "scoring" v = .ok d1 → P d → P d1)
    (d : JObj) (x : JVal) (hd : P d) :
    exceptInv P (boxScoringStep d x) := by
  unfold boxScoringStep
  split
  · exact hd
  · next playObj _ =>
      split
      · exact hd
      · next d1 h1 => exact hsc _ _ _ h1 hd

theorem boxScoringBlock_inv (P : JObj → Prop)
    (hsc : ∀ d v d1, dAppendIn0 d "scoring" v = .ok d1 → P d → P d1)
    (s : JVal) (d : JObj) (hd : P d) :
    exceptInv P (boxScoringBlock s d) := by
  unfold boxScoringBlock
  split
  · exact hd
  · next h1 _ =>
      split
      · split
        · exact hd
        · next playsV _ =>
            split
            · exact hd
            · next plays _ => exact pyFoldE_inv _ (boxScoringStep_inv P hsc) plays _ hd
      · exact hd

/-! ### Reflexivity of structural equality (Python deep equality) -/

mutual
theorem JVal.beq_refl : (v : JVal) → JVal.beq v v = true
  | .null => rfl
  | .bool b => by simp [JVal.beq]
  | .num n => by simp [JVal.beq]
  | .str s => by simp [JVal.beq]
  | .arr xs => by simpa [JVal.beq] using JVal.beqList_refl xs
  | .obj kvs => by simpa [JVal.beq] using JVal.beqFields_refl kvs

theorem JVal.beqList_refl : (xs : List JVal) → JVal.beqList xs xs = true
  | [] => rfl
  | x :: xs => by
      simp only [JVal.beqList, Bool.and_eq_true]
      exact ⟨JVal.beq_refl x, JVal.beqList_refl xs⟩

theorem JVal.beqFields_refl : (kvs : List (String × JVal)) → JVal.beqFields kvs kvs = true
  | [] => rfl
  | (k, v) :: kvs => by
      simp only [JVal.beqFields, Bool.and_eq_true]
      exact ⟨⟨by simp, JVal.beq_refl v⟩, JVal.beqFields_refl kvs⟩
end

/-! ### Claims -/

/-- C1: for every pair of input documents, neither `extract_clean_game_data`
nor `extract_box_score_data` lets an exception reach the caller: the result of
the `try` body is either a normal result or an internal raise carrying the
record accumulated so far, and in both cases the function returns that record
value. -/
theorem claim_C1_no_exception_escapes (s : JVal) (e : Option JVal) :
    (cleanTryBody s e cleanInit = .ok (extract_clean_game_data s e) ∨
      cleanTryBody s e cleanInit = .error (extract_clean_game_data s e)) ∧
    (boxTryBody s boxInit = .ok (extract_box_score_data s) ∨
      boxTryBody s boxInit = .error (extract_box_score_data s)) := by
  constructor
  · unfold extract_clean_game_data
    cases cleanTryBody s e cleanInit with
    | ok d => exact Or.inl rfl
    | error d => exact Or.inr rfl
  · unfold extract_box_score_data
    cases boxTryBody s boxInit with
    | ok d => exact Or.inl rfl
    | error d => exact Or.inr rfl

/-- C9: normalizing the same documents twice yields structurally identical
(deep-equal, in the sense of Python `==`) records; the embedding of both
extractors is a pure function of its arguments, with no state carried
between calls. -/
theorem claim_C9_idempotent (s : JVal) (e : Option JVal) :
    JVal.beq (.obj (extract_clean_game_data s e)) (.obj (extract_clean_game_data s e)) = true ∧
    JVal.beq (.obj (extract_box_score_data s)) (.obj (extract_box_score_data s)) = true :=
  ⟨JVal.beq_refl _, JVal.beq_refl _⟩

/-! ### Blocks guarded by an absent key leave the record unchanged -/

theorem exceptInv_of_eq {d : JObj} {r : Except JObj JObj} {P : JObj → Prop}
    (h : exceptInv (fun d2 => d2 = d) r) (hp : P d) : exceptInv P r := by
  cases r with
  | ok d2 => exact (h : d2 = d) ▸ hp
  | error d2 => exact (h : d2 = d) ▸ hp

theorem cleanTeamStatsBlock_noBox {s : JVal} (hb : hasKeyB s "boxscore" = false)
    (d : JObj) : exceptInv (fun d2 => d2 = d) (cleanTeamStatsBlock s d) := by
  unfold cleanTeamStatsBlock
  cases s with
  | obj kvs =>
      have hb' : (dget kvs "boxscore").isSome = false := hb
      simp [pyIn, hb']
  | arr xs =>
      simp only [pyIn]
      split
      · rfl
      · next b =>
          by_cases h : (xs.any fun x => JVal.beq x (.str "boxscore")) = true
          · simp [h, pySubS]
          · simp [h]
  | str t =>
      simp only [pyIn]
      split
      · rfl
      · next b =>
          by_cases h : strHasSub t "boxscore" = true
          · simp [h, pySubS]
          · simp [h]
  | null => simp [pyIn]
  | bool b => simp [pyIn]
  | num n => simp [pyIn]

theorem cleanPlayersBlock_noBox {s : JVal} (hb : hasKeyB s "boxscore" = false)
    (d : JObj) : exceptInv (fun d2 => d2 = d) (cleanPlayersBlock s d) := by
  unfold cleanPlayersBlock
  cases s with
  | obj kvs =>
      have hb' : (dget kvs "boxscore").isSome = false := hb
      simp [pyIn, hb']
  | arr xs =>
      simp only [pyIn]
      split
      · rfl
      · next b =>
          by_cases h : (xs.any fun x => JVal.beq x (.str "boxscore")) = true
          · simp [h, pySubS]
          · simp [h]
  | str t =>
      simp only [pyIn]
      split
      · rfl
      · next b =>
          by_cases h : strHasSub t "boxscore" = true
          · simp [h, pySubS]
          · simp [h]
  | null => simp [pyIn]
  | bool b => simp [pyIn]
  | num n => simp [pyIn]

theorem boxBoxscoreBlock_noBox {s : JVal} (hb : hasKeyB s "boxscore" = false)
    (d : JObj) : exceptInv (fun d2 => d2 = d) (boxBoxscoreBlock s d) := by
  unfold boxBoxscoreBlock
  cases s with
  | obj kvs =>
      have hb' : (dget kvs "boxscore").isSome = false := hb
      simp [pyIn, hb']
  | arr xs =>
      simp only [pyIn]
      split
      · rfl
      · next b =>
          by_cases h : (xs.any fun x => JVal.beq x (.str "boxscore")) = true
          · simp [h, pySubS]
          · simp [h]
  | str t =>
      simp only [pyIn]
      split
      · rfl
      · next b =>
          by_cases h : strHasSub t "boxscore" = true
          · simp [h, pySubS]
          · simp [h]
  | null => simp [pyIn]
  | bool b => simp [pyIn]
  | num n => simp [pyIn]

theorem boxHeaderBlock_noHeader {s : JVal} (hb : hasKeyB s "header" = false)
    (d : JObj) : exceptInv (fun d2 => d2 = d) (boxHeaderBlock s d) := by
  unfold boxHeaderBlock
  cases s with
  | obj kvs =>
      have hb' : (dget kvs "header").isSome = false := hb
      simp [pyIn, hb']
  | arr xs =>
      simp only [pyIn]
      split
      · rfl
      · next b =>
          by_cases h : (xs.any fun x => JVal.beq x (.str "header")) = true
          · simp [h, pySubS]
          · simp [h]
  | str t =>
      simp only [pyIn]
      split
      · rfl
      · next b =>
          by_cases h : strHasSub t "header" = true
          · simp [h, pySubS]
          · simp [h]
  | null => simp [pyIn]
  | bool b => simp [pyIn]
  | num n => simp [pyIn]

/-- C7 (amended): on a summary with no `boxscore` key both extractors still
succeed, `extract_clean_game_data` returns empty `team_statistics` and
`player_statistics`, and `extract_box_score_data` returns empty
`player_stats`; its `team_stats`, however, is filled from `summary.header`
and is only empty when the summary has no `header` key either. -/
theorem claim_C7_no_boxscore (s : JVal) (e : Option JVal)
    (hb : hasKeyB s "boxscore" = false) :
    dget (extract_clean_game_data s e) "team_statistics" = some (.obj []) ∧
    dget (extract_clean_game_data s e) "player_statistics" = some (.obj []) ∧
    dget (extract_box_score_data s) "player_stats" = some (.obj []) ∧
    (hasKeyB s "header" = false →
      dget (extract_box_score_data s) "team_stats" = some (.obj [])) := by
  have hclean : dget (extract_clean_game_data s e) "team_statistics" = some (.obj []) ∧
      dget (extract_clean_game_data s e) "player_statistics" = some (.obj []) := by
    apply exceptInv_runCatch
      (P := fun d => dget d "team_statistics" = some (.obj []) ∧
        dget d "player_statistics" = some (.obj []))
    unfold cleanTryBody
    apply exceptInv_bind
    · apply exceptInv_bind
      · apply exceptInv_bind
        · apply exceptInv_bind
          · apply cleanEventBlock_inv
            · intro k0 hk0 d v hd
              rcases hd with ⟨h1, h2⟩
              fin_cases hk0 <;>
                exact ⟨dget_dset_ne2 h1 (by decide), dget_dset_ne2 h2 (by decide)⟩
            · intro d a v d1 h hd
              exact ⟨dSetIn1_ok_keeps h hd.1 (by decide), dSetIn1_ok_keeps h hd.2 (by decide)⟩
            · intro d a v d1 h hd
              exact ⟨dSetIn1_ok_keeps h hd.1 (by decide), dSetIn1_ok_keeps h hd.2 (by decide)⟩
            · exact ⟨rfl, rfl⟩
          · intro d hd
            apply cleanHeaderBlock_inv
            · intro k0 hk0 d' v hd'
              rcases hd' with ⟨h1, h2⟩
              fin_cases hk0 <;>
                exact ⟨dget_dset_ne2 h1 (by decide), dget_dset_ne2 h2 (by decide)⟩
            · intro d' a v d1 h hd'
              exact ⟨dSetIn1_ok_keeps h hd'.1 (by decide), dSetIn1_ok_keeps h hd'.2 (by decide)⟩
            · intro d' a v d1 h hd'
              exact ⟨dSetIn1_ok_keeps h hd'.1 (by decide), dSetIn1_ok_keeps h hd'.2 (by decide)⟩
            · exact hd
        · intro d hd
          exact exceptInv_of_eq (cleanTeamStatsBlock_noBox hb d) hd
      · intro d hd
        apply cleanScoringBlock_inv
        · intro d' v d1 h hd'
          exact ⟨dAppendIn0_ok_keeps h hd'.1 (by decide), dAppendIn0_ok_keeps h hd'.2 (by decide)⟩
        · exact hd
    · intro d hd
      exact exceptInv_of_eq (cleanPlayersBlock_noBox hb d) hd
  refine ⟨hclean.1, hclean.2, ?_, ?_⟩
  · have hbox : dget (extract_box_score_data s) "player_stats" = some (.obj []) := by
      apply exceptInv_runCatch (P := fun d => dget d "player_stats" = some (.obj []))
      unfold boxTryBody
      apply exceptInv_bind
      · apply exceptInv_bind
        · apply boxHeaderBlock_inv
          · intro d v hd
            exact dget_dset_ne2 hd (by decide)
          · intro d a v d1 h hd
            exact dSetIn1_ok_keeps h hd (by decide)
          · exact rfl
        · intro d hd
          exact exceptInv_of_eq (boxBoxscoreBlock_noBox hb d) hd
      · intro d hd
        apply boxScoringBlock_inv
        · intro d' v d1 h hd'
          exact dAppendIn0_ok_keeps h hd' (by decide)
        · exact hd
    exact hbox
  · intro hh
    have hbox : dget (extract_box_score_data s) "team_stats" = some (.obj []) := by
      apply exceptInv_runCatch (P := fun d => dget d "team_stats" = some (.obj []))
      unfold boxTryBody
      apply exceptInv_bind
      · apply exceptInv_bind
        · exact exceptInv_of_eq (boxHeaderBlock_noHeader hh boxInit) rfl
        · intro d hd
          exact exceptInv_of_eq (boxBoxscoreBlock_noBox hb d) hd
      · intro d hd
        apply boxScoringBlock_inv
        · intro d' v d1 h hd'
          exact dAppendIn0_ok_keeps h hd' (by decide)
        · exact hd
    exact hbox

/-- C7 witness: the concrete summary `{"scoringPlays": []}` has no `boxscore`
and no `header` key, and all four statistics mappings come out empty. -/
theorem claim_C7_no_boxscore_witness :
    dget (extract_clean_game_data (.obj [("scoringPlays", .arr [])]) none)
        "team_statistics" = some (.obj []) ∧
    dget (extract_clean_game_data (.obj [("scoringPlays", .arr [])]) none)
        "player_statistics" = some (.obj []) ∧
    dget (extract_box_score_data (.obj [("scoringPlays", .arr [])]))
        "player_stats" = some (.obj []) ∧
    dget (extract_box_score_data (.obj [("scoringPlays", .arr [])]))
        "team_stats" = some (.obj []) := by
  have h := claim_C7_no_boxscore (.obj [("scoringPlays", .arr [])]) none (by rfl)
  exact ⟨h.1, h.2.1, h.2.2.1, h.2.2.2 (by rfl)⟩

/-- C7 counterexample: `docC7` contains no `boxscore` key, yet
`extract_box_score_data docC7` has a non-empty `team_stats` mapping (filled
from the header), contradicting the claim that `team_stats` is empty for
every summary without a `boxscore` key. -/
theorem counterexample_C7_team_stats_from_header :
    hasKeyB docC7 "boxscore" = false ∧
    dget (extract_box_score_data docC7) "team_stats" =
      some (.obj [("KC", .obj [("score", .num 7), ("home_away", .str ""),
        ("record", .arr [])])]) := by
  exact ⟨rfl, rfl⟩

/-! ### More dictionary and fold lemmas -/

theorem dset_dset_same (d : JObj) (k : String) (v w : JVal) :
    dset (dset d k v) k w = dset d k w := by
  induction d with
  | nil => simp [dset]
  | cons kv rest ih =>
      by_cases hk : kv.1 = k
      · simp [dset, hk]
      · simp [dset, hk, ih]

@[simp] theorem objKeys_nil : objKeys [] = [] := rfl

@[simp] theorem objKeys_cons (kv : String × JVal) (rest : JObj) :
    objKeys (kv :: rest) = kv.1 :: objKeys rest := rfl

theorem dset_eq_self_of_dget {d : JObj} {k : String} {v : JVal}
    (h : dget d k = some v) : dset d k v = d := by
  induction d with
  | nil => simp [dget] at h
  | cons kv rest ih =>
      obtain ⟨k1, v1⟩ := kv
      by_cases hk : k1 = k
      · subst hk
        simp only [dget, if_pos rfl] at h
        injection h with h
        subst h
        simp [dset]
      · simp only [dget, if_neg hk] at h
        simp [dset, hk, ih h]

theorem objKeys_dset_subset {d : JObj} {k k' : String} {v : JVal}
    (h : k' ∈ objKeys (dset d k v)) : k' ∈ objKeys d ∨ k' = k := by
  induction d with
  | nil =>
      right
      simpa [dset] using h
  | cons kv rest ih =>
      by_cases hk : kv.1 = k
      · rw [show dset (kv :: rest) k v = (k, v) :: rest by simp [dset, hk]] at h
        rw [objKeys_cons, List.mem_cons] at h
        rcases h with h | h
        · exact Or.inr h
        · exact Or.inl (by rw [objKeys_cons, List.mem_cons]; exact Or.inr h)
      · rw [show dset (kv :: rest) k v = kv :: dset rest k v by simp [dset, hk]] at h
        rw [objKeys_cons, List.mem_cons] at h
        rcases h with h | h
        · exact Or.inl (by rw [objKeys_cons, List.mem_cons]; exact Or.inl h)
        · rcases ih h with h2 | h2
          · exact Or.inl (by rw [objKeys_cons, List.mem_cons]; exact Or.inr h2)
          · exact Or.inr h2

theorem mem_objKeys_dset_self (d : JObj) (k : String) (v : JVal) :
    k ∈ objKeys (dset d k v) := by
  induction d with
  | nil => simp [dset]
  | cons kv rest ih =>
      by_cases hk : kv.1 = k
      · rw [show dset (kv :: rest) k v = (k, v) :: rest by simp [dset, hk]]
        simp
      · rw [show dset (kv :: rest) k v = kv :: dset rest k v by simp [dset, hk]]
        rw [objKeys_cons, List.mem_cons]
        exact Or.inr ih

theorem mem_objKeys_dset_of_mem {d : JObj} {k' : String} (k : String) (v : JVal)
    (h : k' ∈ objKeys d) : k' ∈ objKeys (dset d k v) := by
  induction d with
  | nil => simp at h
  | cons kv rest ih =>
      rw [objKeys_cons, List.mem_cons] at h
      by_cases hk : kv.1 = k
      · rw [show dset (kv :: rest) k v = (k, v) :: rest by simp [dset, hk]]
        rw [objKeys_cons, List.mem_cons]
        rcases h with h | h
        · exact Or.inl (by rw [← hk]; exact h)
        · exact Or.inr h
      · rw [show dset (kv :: rest) k v = kv :: dset rest k v by simp [dset, hk]]
        rw [objKeys_cons, List.mem_cons]
        rcases h with h | h
        · exact Or.inl h
        · exact Or.inr (ih h)

theorem dget_mem {d : JObj} {k : String} {v : JVal} (h : dget d k = some v) :
    (k, v) ∈ d := by
  induction d with
  | nil => simp [dget] at h
  | cons kv rest ih =>
      obtain ⟨k1, v1⟩ := kv
      by_cases hk : k1 = k
      · subst hk
        simp only [dget, if_pos rfl] at h
        injection h with h
        subst h
        exact List.mem_cons_self _ _
      · simp only [dget, if_neg hk] at h
        exact List.mem_cons_of_mem _ (ih h)

theorem dset_values {d : JObj} {k : String} {v : JVal} (P : JVal → Prop)
    (hall : ∀ kv ∈ d, P kv.2) (hv : P v) : ∀ kv ∈ dset d k v, P kv.2 := by
  induction d with
  | nil => simpa [dset] using hv
  | cons kv0 rest ih =>
      intro kv hkv
      by_cases hk : kv0.1 = k
      · simp only [dset, if_pos hk, List.mem_cons] at hkv
        rcases hkv with rfl | hkv
        · exact hv
        · exact hall _ (List.mem_cons_of_mem _ hkv)
      · simp only [dset, if_neg hk, List.mem_cons] at hkv
        rcases hkv with rfl | hkv
        · exact hall _ (List.mem_cons_self _ _)
        · exact ih (fun kv2 h2 => hall _ (List.mem_cons_of_mem _ h2)) _ hkv

theorem pyFoldE_append (f : JObj → α → Except JObj JObj) (d : JObj)
    (as bs : List α) :
    pyFoldE f d (as ++ bs) =
      match pyFoldE f d as with
      | .ok d1 => pyFoldE f d1 bs
      | .error d1 => .error d1 := by
  induction as generalizing d with
  | nil => simp [pyFoldE]
  | cons a rest ih =>
      simp only [List.cons_append, pyFoldE]
      cases f d a with
      | ok d1 => exact ih d1
      | error d1 => rfl

theorem pyFoldE_skip (f : JObj → α → Except JObj JObj) (x : α)
    (hx : ∀ d, f d x = .ok d) (as bs : List α) (d : JObj) :
    pyFoldE f d (as ++ x :: bs) = pyFoldE f d (as ++ bs) := by
  induction as generalizing d with
  | nil => simp [pyFoldE, hx]
  | cons a rest ih =>
      simp only [List.cons_append, pyFoldE]
      cases f d a with
      | ok d1 => exact ih d1
      | error d1 => rfl

/-! ### Decimal rendering facts -/

theorem decDigitsF_ne_nil (f n : Nat) (h : n < f) : decDigitsF f n ≠ [] := by
  cases f with
  | zero => omega
  | succ f0 =>
      simp only [decDigitsF]
      split
      · simp
      · simp

theorem natDec_ne_empty (n : Nat) : natDec n ≠ "" := by
  unfold natDec
  intro h
  have h2 : decDigitsF (n + 1) n = [] := congrArg String.data h
  exact decDigitsF_ne_nil (n + 1) n (Nat.lt_succ_self n) h2

/-! ### C10: synthetic `Team<i+1>` keys in the box score -/

@[simp] theorem exc_ok_bind {α β : Type} (a : α) (f : α → Except Unit β) :
    (Except.ok a >>= f : Except Unit β) = f a := rfl

@[simp] theorem exc_error_bind {α β : Type} (f : α → Except Unit β) :
    (Except.error () >>= f : Except Unit β) = Except.error () := rfl

@[simp] theorem exc_map_ok {α β : Type} (f : α → β) (a : α) :
    (f <$> Except.ok a : Except Unit β) = Except.ok (f a) := rfl

@[simp] theorem exc_map_error {α β : Type} (f : α → β) :
    (f <$> (Except.error () : Except Unit α) : Except Unit β) = Except.error () := rfl

/-- A team entry with no abbreviation is skipped by the clean extractor
before anything is stored. -/
theorem cleanTeamStatStep_skip {t : JVal} (h : lacksAbbr t = true) (d : JObj) :
    cleanTeamStatStep d t = .ok d := by
  cases t with
  | obj kvs =>
      unfold cleanTeamStatStep
      cases hteam : dget kvs "team" with
      | none => simp [pyGet, hteam, truthy, dget]
      | some tv =>
          cases tv with
          | obj tk =>
              have habbr : dget tk "abbreviation" = none := by
                simp [lacksAbbr, hteam, Option.isNone_iff_eq_none] at h
                exact h
              simp [pyGet, hteam, habbr, truthy]
          | null => simp [lacksAbbr, hteam] at h
          | bool b => simp [lacksAbbr, hteam] at h
          | num n => simp [lacksAbbr, hteam] at h
          | str s => simp [lacksAbbr, hteam] at h
          | arr xs => simp [lacksAbbr, hteam] at h
  | null => simp [lacksAbbr] at h
  | bool b => simp [lacksAbbr] at h
  | num n => simp [lacksAbbr] at h
  | str s => simp [lacksAbbr] at h
  | arr xs => simp [lacksAbbr] at h

/-- On a teams-only summary the clean try body reduces to the
team-statistics fold. -/
theorem cleanTryBody_mkTeams (L : List JVal) :
    cleanTryBody (mkTeamsSummary L) none cleanInit =
      pyFoldE cleanTeamStatStep cleanInit L := by
  have key : ∀ r : Except JObj JObj,
      (r >>= cleanScoringBlock (mkTeamsSummary L) >>=
        cleanPlayersBlock (mkTeamsSummary L)) = r := by
    intro r
    cases r with
    | ok d => rfl
    | error d => rfl
  calc cleanTryBody (mkTeamsSummary L) none cleanInit
      = pyFoldE cleanTeamStatStep cleanInit L >>=
          cleanScoringBlock (mkTeamsSummary L) >>=
          cleanPlayersBlock (mkTeamsSummary L) := rfl
    _ = pyFoldE cleanTeamStatStep cleanInit L := key _

theorem pyKey_ok_of_hashable {v : JVal} (h : pyHashable v = true) :
    ∃ s, pyKey v = .ok s := by
  cases v with
  | null => exact ⟨"None", rfl⟩
  | bool b => exact ⟨if b then "True" else "False", rfl⟩
  | num n => exact ⟨toString n, rfl⟩
  | str s => exact ⟨s, rfl⟩
  | arr xs => simp [pyHashable] at h
  | obj kvs => simp [pyHashable] at h

theorem foldlM_ok {α β : Type} (f : β → α → Except Unit β) (l : List α)
    (h : ∀ b a, a ∈ l → ∃ b2, f b a = .ok b2) :
    ∀ init, ∃ r, l.foldlM f init = .ok r := by
  induction l with
  | nil => exact fun init => ⟨init, rfl⟩
  | cons a rest ih =>
      intro init
      obtain ⟨b2, hb2⟩ := h init a (List.mem_cons_self _ _)
      obtain ⟨r, hr⟩ := ih (fun b x hx => h b x (List.mem_cons_of_mem _ hx)) b2
      exact ⟨r, by simp [List.foldlM, hb2, hr]⟩

theorem string_append_ne_empty_left (s t : String) (h : s ≠ "") : s ++ t ≠ "" := by
  intro he
  apply h
  have : (s ++ t).data = [] := congrArg String.data he
  rw [String.data_append] at this
  have hs : s.data = [] := by
    cases hd : s.data with
    | nil => rfl
    | cons c cs => rw [hd] at this; simp at this
  cases s with
  | mk l => simp at hs; simp [hs]

theorem teamName_ne_empty (n : Nat) : ("Team" ++ natDec n) ≠ "" :=
  string_append_ne_empty_left _ _ (by decide)

theorem boxEntryName_of_lacksAbbr {t : JVal} {i : Nat} (h : lacksAbbr t = true) :
    boxEntryName (i, t) = "Team" ++ natDec (i + 1) := by
  cases t with
  | obj kvs =>
      cases hteam : dget kvs "team" with
      | none => simp [boxEntryName, hteam]
      | some tv =>
          cases tv with
          | obj tk =>
              have habbr : dget tk "abbreviation" = none := by
                simp [lacksAbbr, hteam, Option.isNone_iff_eq_none] at h
                exact h
              simp [boxEntryName, hteam, habbr]
          | null => simp [lacksAbbr, hteam] at h
          | bool b => simp [lacksAbbr, hteam] at h
          | num m => simp [lacksAbbr, hteam] at h
          | str a => simp [lacksAbbr, hteam] at h
          | arr l => simp [lacksAbbr, hteam] at h
  | null => simp [lacksAbbr] at h
  | bool b => simp [lacksAbbr] at h
  | num m => simp [lacksAbbr] at h
  | str a => simp [lacksAbbr] at h
  | arr l => simp [lacksAbbr] at h

theorem boxEntryName_ne_empty_of_ok {t : JVal} {i : Nat}
    (h : boxTeamEntryOkB t = true) : boxEntryName (i, t) ≠ "" := by
  cases t with
  | obj kvs =>
      cases hteam : dget kvs "team" with
      | none =>
          rw [show boxEntryName (i, .obj kvs) = "Team" ++ natDec (i + 1) by
            simp [boxEntryName, hteam]]
          exact teamName_ne_empty _
      | some tv =>
          cases tv with
          | obj tk =>
              cases habbr : dget tk "abbreviation" with
              | none =>
                  rw [show boxEntryName (i, .obj kvs) = "Team" ++ natDec (i + 1) by
                    simp [boxEntryName, hteam, habbr]]
                  exact teamName_ne_empty _
              | some av =>
                  cases av with
                  | str a =>
                      simp only [boxTeamEntryOkB, hteam, habbr, Bool.and_eq_true,
                        Bool.not_eq_true', decide_eq_false_iff_not] at h
                      rw [show boxEntryName (i, .obj kvs) = a by
                        simp [boxEntryName, hteam, habbr]]
                      exact h.1
                  | null => simp [boxTeamEntryOkB, hteam, habbr] at h
                  | bool b => simp [boxTeamEntryOkB, hteam, habbr] at h
                  | num m => simp [boxTeamEntryOkB, hteam, habbr] at h
                  | arr l => simp [boxTeamEntryOkB, hteam, habbr] at h
                  | obj l => simp [boxTeamEntryOkB, hteam, habbr] at h
          | null => simp [boxTeamEntryOkB, hteam] at h
          | bool b => simp [boxTeamEntryOkB, hteam] at h
          | num m => simp [boxTeamEntryOkB, hteam] at h
          | str a => simp [boxTeamEntryOkB, hteam] at h
          | arr l => simp [boxTeamEntryOkB, hteam] at h
  | null => simp [boxTeamEntryOkB] at h
  | bool b => simp [boxTeamEntryOkB] at h
  | num m => simp [boxTeamEntryOkB] at h
  | str a => simp [boxTeamEntryOkB] at h
  | arr l => simp [boxTeamEntryOkB] at h

theorem boxStatsFold_ok {kvs : List (String × JVal)}
    (hok : boxTeamEntryOkB (.obj kvs) = true) :
    ∃ sd, (do
      let stats ← pyElems ((dget kvs "statistics").getD (.arr []))
      stats.foldlM (fun m st => do
        let stNameV ← pyGet st "name" (.str "")
        let valDefV ← pyGet st "value" (.str "")
        let valV ← pyGet st "displayValue" valDefV
        let labV ← pyGet st "label" stNameV
        let k ← pyKey labV
        pure (dset m k valV)) ([] : JObj) : Except Unit JObj) = .ok sd := by
  have hok2 : ((match dget kvs "team" with
       | none => true
       | some (.obj tk) =>
           (match dget tk "abbreviation" with
            | none => true
            | some (.str a) => !(a = "")
            | some _ => false)
       | some _ => false) &&
      (match dget kvs "statistics" with
       | none => true
       | some (.arr sts) => sts.all statEntryOkB
       | some _ => false)) = true := hok
  have hstats := (Bool.and_eq_true_iff.mp hok2).2
  cases hst : dget kvs "statistics" with
  | none => exact ⟨[], rfl⟩
  | some v =>
      cases v with
      | arr sts =>
          rw [hst] at hstats
          simp only [hst, Option.getD_some]
          have hel : pyElems (.arr sts) = .ok sts := rfl
          rw [hel, exc_ok_bind]
          apply foldlM_ok
          intro b st hstm
          have hsok : statEntryOkB st = true := List.all_eq_true.mp hstats st hstm
          cases st with
          | obj skvs =>
              have hh : pyHashable ((dget skvs "label").getD
                  ((dget skvs "name").getD (.str ""))) = true := by
                simpa [statEntryOkB] using hsok
              obtain ⟨ks, hks⟩ := pyKey_ok_of_hashable hh
              exact ⟨dset b ks ((dget skvs "displayValue").getD
                ((dget skvs "value").getD (.str ""))), by simp [pyGet, hks]⟩
          | null => simp [statEntryOkB] at hsok
          | bool b2 => simp [statEntryOkB] at hsok
          | num n => simp [statEntryOkB] at hsok
          | str a => simp [statEntryOkB] at hsok
          | arr l => simp [statEntryOkB] at hsok
      | null => rw [hst] at hstats; simp at hstats
      | bool b => rw [hst] at hstats; simp at hstats
      | num n => rw [hst] at hstats; simp at hstats
      | str a => rw [hst] at hstats; simp at hstats
      | obj l => rw [hst] at hstats; simp at hstats

theorem boxTeamStep_ok {i : Nat} {kvs : List (String × JVal)}
    (hok : boxTeamEntryOkB (.obj kvs) = true)
    (d ts : JObj) (hd : dget d "team_stats" = some (.obj ts))
    (hvals : ∀ kv ∈ ts, ∃ m, kv.2 = JVal.obj m) :
    ∃ ts2, boxTeamStep d (i, .obj kvs) = .ok (dset d "team_stats" (.obj ts2)) ∧
      (∀ kv ∈ ts2, ∃ m, kv.2 = JVal.obj m) ∧
      boxEntryName (i, .obj kvs) ∈ objKeys ts2 ∧
      (∀ k, k ∈ objKeys ts → k ∈ objKeys ts2) ∧
      (∀ k, k ∈ objKeys ts2 → k ∈ objKeys ts ∨ k = boxEntryName (i, .obj kvs)) := by
  have hok2 : ((match dget kvs "team" with
       | none => true
       | some (.obj tk) =>
           (match dget tk "abbreviation" with
            | none => true
            | some (.str a) => !(a = "")
            | some _ => false)
       | some _ => false) &&
      (match dget kvs "statistics" with
       | none => true
       | some (.arr sts) => sts.all statEntryOkB
       | some _ => false)) = true := hok
  have hteamOk := (Bool.and_eq_true_iff.mp hok2).1
  have hhead : (do
      let team_stats ← pyGet (JVal.obj kvs) "statistics" (.arr [])
      let teamV ← pyGet (JVal.obj kvs) "team" (.obj [])
      let nameV ← pyGet teamV "abbreviation" (.str ("Team" ++ natDec (i + 1)))
      let name ← pyKey nameV
      pure (name, team_stats) : Except Unit (String × JVal)) =
      .ok (boxEntryName (i, .obj kvs), (dget kvs "statistics").getD (.arr [])) := by
    cases hteam : dget kvs "team" with
    | none => simp [pyGet, hteam, pyKey, boxEntryName, dget]
    | some tv =>
        cases tv with
        | obj tk =>
            cases habbr : dget tk "abbreviation" with
            | none => simp [pyGet, hteam, habbr, pyKey, boxEntryName]
            | some av =>
                cases av with
                | str a => simp [pyGet, hteam, habbr, pyKey, boxEntryName]
                | null => simp [hteam, habbr] at hteamOk
                | bool b => simp [hteam, habbr] at hteamOk
                | num n => simp [hteam, habbr] at hteamOk
                | arr l => simp [hteam, habbr] at hteamOk
                | obj l => simp [hteam, habbr] at hteamOk
        | null => simp [hteam] at hteamOk
        | bool b => simp [hteam] at hteamOk
        | num n => simp [hteam] at hteamOk
        | str a => simp [hteam] at hteamOk
        | arr l => simp [hteam] at hteamOk
  obtain ⟨sd, hsd⟩ := boxStatsFold_ok hok
  unfold boxTeamStep
  dsimp only
  rw [hhead]
  dsimp only
  rw [hd]
  dsimp only
  rw [hsd]
  by_cases hmem : (dget ts (boxEntryName (i, .obj kvs))).isSome
  · rw [if_pos hmem]
    obtain ⟨v, hv⟩ := Option.isSome_iff_exists.mp hmem
    obtain ⟨m2, hm2⟩ := hvals _ (dget_mem hv)
    subst hm2
    have hset2 : dSetIn2 d "team_stats" (boxEntryName (i, .obj kvs)) "statistics"
        (.obj sd) = .ok (dset d "team_stats" (.obj (dset ts (boxEntryName (i, .obj kvs))
          (.obj (dset m2 "statistics" (.obj sd)))))) := by
      simp only [dSetIn2, hd, hv]
    dsimp only
    rw [hset2]
    dsimp only
    refine ⟨dset ts (boxEntryName (i, .obj kvs)) (.obj (dset m2 "statistics" (.obj sd))),
      rfl, ?_, mem_objKeys_dset_self _ _ _, ?_, ?_⟩
    · exact dset_values (fun v => ∃ m, v = JVal.obj m) hvals ⟨_, rfl⟩
    · intro k hk
      exact mem_objKeys_dset_of_mem _ _ hk
    · intro k hk
      exact objKeys_dset_subset hk
  · rw [if_neg hmem]
    have hd1 : dget (dset d "team_stats" (.obj (dset ts (boxEntryName (i, .obj kvs))
        (.obj [])))) "team_stats" = some (.obj (dset ts (boxEntryName (i, .obj kvs))
        (.obj []))) := dget_dset_self _ _ _
    have hset2 : dSetIn2 (dset d "team_stats" (.obj (dset ts (boxEntryName (i, .obj kvs))
        (.obj [])))) "team_stats" (boxEntryName (i, .obj kvs)) "statistics" (.obj sd) =
        .ok (dset d "team_stats" (.obj (dset (dset ts (boxEntryName (i, .obj kvs))
          (.obj [])) (boxEntryName (i, .obj kvs)) (.obj [("statistics", .obj sd)])))) := by
      simp only [dSetIn2, hd1, dget_dset_self, dset_dset_same]
      rfl
    dsimp only
    rw [hset2]
    dsimp only
    refine ⟨dset (dset ts (boxEntryName (i, .obj kvs)) (.obj []))
      (boxEntryName (i, .obj kvs)) (.obj [("statistics", .obj sd)]),
      rfl, ?_, mem_objKeys_dset_self _ _ _, ?_, ?_⟩
    · exact dset_values (fun v => ∃ m, v = JVal.obj m)
        (dset_values (fun v => ∃ m, v = JVal.obj m) hvals ⟨[], rfl⟩) ⟨_, rfl⟩
    · intro k hk
      exact mem_objKeys_dset_of_mem _ _ (mem_objKeys_dset_of_mem _ _ hk)
    · intro k hk
      rcases objKeys_dset_subset hk with hk2 | hk2
      · rcases objKeys_dset_subset hk2 with hk3 | hk3
        · exact Or.inl hk3
        · exact Or.inr hk3
      · exact Or.inr hk2

theorem boxTeams_fold_ok (ps : List (Nat × JVal))
    (hok : ∀ p ∈ ps, boxTeamEntryOkB p.2 = true) :
    ∀ (d ts : JObj), dget d "team_stats" = some (.obj ts) →
    (∀ kv ∈ ts, ∃ m, kv.2 = JVal.obj m) →
    ∃ ts2, pyFoldE boxTeamStep d ps = .ok (dset d "team_stats" (.obj ts2)) ∧
      (∀ kv ∈ ts2, ∃ m, kv.2 = JVal.obj m) ∧
      (∀ k, k ∈ objKeys ts → k ∈ objKeys ts2) ∧
      (∀ k, k ∈ objKeys ts2 → k ∈ objKeys ts ∨ ∃ p ∈ ps, k = boxEntryName p) := by
  induction ps with
  | nil =>
      intro d ts hd hvals
      refine ⟨ts, ?_, hvals, fun k hk => hk, fun k hk => Or.inl hk⟩
      rw [dset_eq_self_of_dget hd]
      rfl
  | cons p rest ih =>
      intro d ts hd hvals
      obtain ⟨i, t⟩ := p
      have hokp := hok (i, t) (List.mem_cons_self _ _)
      cases t with
      | obj kvs =>
          obtain ⟨ts1, hstep, hvals1, hmem1, hmono1, hbound1⟩ :=
            boxTeamStep_ok (i := i) hokp d ts hd hvals
          obtain ⟨ts2, hrest, hvals2, hmono2, hbound2⟩ :=
            ih (fun q hq => hok q (List.mem_cons_of_mem _ hq))
              (dset d "team_stats" (.obj ts1)) ts1 (dget_dset_self _ _ _) hvals1
          refine ⟨ts2, ?_, hvals2, ?_, ?_⟩
          · simp only [pyFoldE, hstep]
            rw [hrest, dset_dset_same]
          · intro k hk
            exact hmono2 k (hmono1 k hk)
          · intro k hk
            rcases hbound2 k hk with hk2 | hk2
            · rcases hbound1 k hk2 with hk3 | hk3
              · exact Or.inl hk3
              · exact Or.inr ⟨(i, .obj kvs), List.mem_cons_self _ _, hk3⟩
            · obtain ⟨q, hq, hq2⟩ := hk2
              exact Or.inr ⟨q, List.mem_cons_of_mem _ hq, hq2⟩
      | null => simp [boxTeamEntryOkB] at hokp
      | bool b => simp [boxTeamEntryOkB] at hokp
      | num n => simp [boxTeamEntryOkB] at hokp
      | str a => simp [boxTeamEntryOkB] at hokp
      | arr l => simp [boxTeamEntryOkB] at hokp

theorem boxHeadName_ne_empty {t : JVal} {i : Nat} {nm : String} {tstats : JVal}
    (hsafe : abbrSafeB t = true)
    (heq : (do
      let team_stats ← pyGet t "statistics" (.arr [])
      let teamV ← pyGet t "team" (.obj [])
      let nameV ← pyGet teamV "abbreviation" (.str ("Team" ++ natDec (i + 1)))
      let name ← pyKey nameV
      pure (name, team_stats) : Except Unit (String × JVal)) = .ok (nm, tstats)) :
    nm ≠ "" := by
  cases t with
  | obj kvs =>
      cases hteam : dget kvs "team" with
      | none =>
          simp [pyGet, hteam, pyKey, dget] at heq
          rw [← heq.1]
          exact teamName_ne_empty _
      | some tv =>
          cases tv with
          | obj tk =>
              cases habbr : dget tk "abbreviation" with
              | none =>
                  simp [pyGet, hteam, habbr, pyKey] at heq
                  rw [← heq.1]
                  exact teamName_ne_empty _
              | some av =>
                  cases av with
                  | str a =>
                      simp [pyGet, hteam, habbr, pyKey] at heq
                      rw [← heq.1]
                      simp only [abbrSafeB, hteam, habbr,
                        Bool.not_eq_true', decide_eq_false_iff_not] at hsafe
                      exact hsafe
                  | null => simp [abbrSafeB, hteam, habbr] at hsafe
                  | bool b => simp [abbrSafeB, hteam, habbr] at hsafe
                  | num n => simp [abbrSafeB, hteam, habbr] at hsafe
                  | arr l => simp [pyGet, hteam, habbr, pyKey] at heq
                  | obj l => simp [pyGet, hteam, habbr, pyKey] at heq
          | null => simp [pyGet, hteam] at heq
          | bool b => simp [pyGet, hteam] at heq
          | num n => simp [pyGet, hteam] at heq
          | str a => simp [pyGet, hteam] at heq
          | arr l => simp [pyGet, hteam] at heq
  | null => simp [pyGet] at heq
  | bool b => simp [pyGet] at heq
  | num n => simp [pyGet] at heq
  | str a => simp [pyGet] at heq
  | arr l => simp [pyGet] at heq

theorem boxTeamStep_safe (tgt : String) (p : Nat × JVal)
    (hsafe : abbrSafeB p.2 = true) (d : JObj)
    (hd : ∃ ts, dget d "team_stats" = some (.obj ts) ∧ tgt ∈ objKeys ts ∧
      "" ∉ objKeys ts) :
    exceptInv (fun d2 => ∃ ts, dget d2 "team_stats" = some (.obj ts) ∧
      tgt ∈ objKeys ts ∧ "" ∉ objKeys ts) (boxTeamStep d p) := by
  obtain ⟨ts, hdts, htgt, hne⟩ := hd
  obtain ⟨i, t⟩ := p
  unfold boxTeamStep
  dsimp only
  split
  · exact ⟨ts, hdts, htgt, hne⟩
  · next nm tstats heq =>
      have hnm : nm ≠ "" := boxHeadName_ne_empty hsafe heq
      rw [hdts]
      dsimp only
      have hP1 : ∃ ts1, dget (if (dget ts nm).isSome then d
          else dset d "team_stats" (.obj (dset ts nm (.obj []))))
            "team_stats" = some (.obj ts1) ∧
          tgt ∈ objKeys ts1 ∧ "" ∉ objKeys ts1 := by
        by_cases hmem : (dget ts nm).isSome
        · rw [if_pos hmem]
          exact ⟨ts, hdts, htgt, hne⟩
        · rw [if_neg hmem]
          refine ⟨dset ts nm (.obj []), dget_dset_self _ _ _,
            mem_objKeys_dset_of_mem _ _ htgt, ?_⟩
          intro hk
          rcases objKeys_dset_subset hk with hk2 | hk2
          · exact hne hk2
          · exact hnm hk2.symm
      obtain ⟨ts1, hts1, htgt1, hne1⟩ := hP1
      split
      · exact ⟨ts1, hts1, htgt1, hne1⟩
      · next stats_dict _ =>
          split
          · exact ⟨ts1, hts1, htgt1, hne1⟩
          · next d2 hset =>
              obtain ⟨m1, m2, hm1, hm2, rfl⟩ := dSetIn2_ok_eq hset
              rw [hts1] at hm1
              injection hm1 with hm1
              injection hm1 with hm1
              subst hm1
              refine ⟨dset ts1 nm (.obj (dset m2 "statistics" (.obj stats_dict))),
                dget_dset_self _ _ _, mem_objKeys_dset_of_mem _ _ htgt1, ?_⟩
              intro hk
              rcases objKeys_dset_subset hk with hk2 | hk2
              · exact hne1 hk2
              · exact hnm hk2.symm

theorem pyFoldE_inv_mem {P : JObj → Prop} (f : JObj → α → Except JObj JObj)
    (xs : List α) (hf : ∀ d x, x ∈ xs → P d → exceptInv P (f d x)) :
    ∀ d : JObj, P d → exceptInv P (pyFoldE f d xs) := by
  induction xs with
  | nil => intro d hd; simpa [pyFoldE] using hd
  | cons x rest ih =>
      intro d hd
      simp only [pyFoldE]
      cases hfd : f d x with
      | ok d1 =>
          have := hf d x (List.mem_cons_self _ _) hd
          rw [hfd] at this
          exact ih (fun d2 y hy hd2 => hf d2 y (List.mem_cons_of_mem _ hy) hd2) d1 this
      | error d1 =>
          have := hf d x (List.mem_cons_self _ _) hd
          rw [hfd] at this
          exact this

/-- C10 (amended): in `extract_box_score_data`, a `boxscore.teams` entry at
0-based index `i` that lacks a team abbreviation is keyed in `team_stats`
under the synthetic 1-based name `Team<i+1>`, and the empty string is never a
`team_stats` key (provided the earlier entries are processable and no entry
carries a present-but-empty abbreviation); `extract_clean_game_data` instead
skips such an entry entirely: removing it from the teams list does not change
the output at all. -/
theorem claim_C10_synthetic_team_keys (xs ys : List JVal) (ti : JVal)
    (hxs : ∀ t ∈ xs, boxTeamEntryOkB t = true)
    (hti1 : boxTeamEntryOkB ti = true) (hti2 : lacksAbbr ti = true)
    (hys : ∀ t ∈ ys, abbrSafeB t = true) :
    (∃ ts, dget (extract_box_score_data (mkTeamsSummary (xs ++ ti :: ys)))
        "team_stats" = some (.obj ts) ∧
      ("Team" ++ natDec (xs.length + 1)) ∈ objKeys ts ∧ "" ∉ objKeys ts) ∧
    extract_clean_game_data (mkTeamsSummary (xs ++ ti :: ys)) none =
      extract_clean_game_data (mkTeamsSummary (xs ++ ys)) none := by
  constructor
  · -- box part
    cases ti with
    | obj tkvs =>
        have henum : (xs ++ JVal.obj tkvs :: ys).enum =
            xs.enum ++ (xs.length, JVal.obj tkvs) ::
              List.enumFrom (xs.length + 1) ys := by
          rw [List.enum_append, List.enumFrom_cons]
        have hokE : ∀ p ∈ xs.enum, boxTeamEntryOkB p.2 = true := by
          intro p hp
          exact hxs p.2 (List.snd_mem_of_mem_enumFrom (by simpa [List.enum] using hp))
        obtain ⟨ts1, hfold1, hvals1, hmono1, hbound1⟩ :=
          boxTeams_fold_ok xs.enum hokE boxInit [] rfl (by intro kv hkv; simp at hkv)
        obtain ⟨ts2, hstep, hvals2, hmem2, hmono2, hbound2⟩ :=
          boxTeamStep_ok (i := xs.length) hti1
            (dset boxInit "team_stats" (.obj ts1)) ts1 (dget_dset_self _ _ _) hvals1
        have hname : boxEntryName (xs.length, JVal.obj tkvs) =
            "Team" ++ natDec (xs.length + 1) := boxEntryName_of_lacksAbbr hti2
        have htgt2 : ("Team" ++ natDec (xs.length + 1)) ∈ objKeys ts2 := hname ▸ hmem2
        have hne2 : "" ∉ objKeys ts2 := by
          intro hk
          rcases hbound2 "" hk with hk2 | hk2
          · rcases hbound1 "" hk2 with hk3 | hk3
            · simp at hk3
            · obtain ⟨p, hp, hp2⟩ := hk3
              obtain ⟨j, t⟩ := p
              have := boxEntryName_ne_empty_of_ok (i := j)
                (hokE (j, t) hp)
              exact this hp2.symm
          · rw [hname] at hk2
            exact teamName_ne_empty _ hk2.symm
        have hsafeE : ∀ p ∈ List.enumFrom (xs.length + 1) ys, abbrSafeB p.2 = true := by
          intro p hp
          exact hys p.2 (List.snd_mem_of_mem_enumFrom hp)
        have hfoldAll : exceptInv (fun d2 => ∃ ts, dget d2 "team_stats" =
            some (.obj ts) ∧ ("Team" ++ natDec (xs.length + 1)) ∈ objKeys ts ∧
            "" ∉ objKeys ts)
            (pyFoldE boxTeamStep boxInit (xs ++ JVal.obj tkvs :: ys).enum) := by
          rw [henum, pyFoldE_append, hfold1]
          simp only [pyFoldE, hstep]
          rw [dset_dset_same]
          apply pyFoldE_inv_mem _ _
            (fun d x hx hd => boxTeamStep_safe _ x (hsafeE x hx) d hd)
          exact ⟨ts2, dget_dset_self _ _ _, htgt2, hne2⟩
        have hkey : ∀ r : Except JObj JObj,
            ((r >>= boxPlayersBlock (.obj [("teams", .arr (xs ++ JVal.obj tkvs :: ys))])) >>=
              boxScoringBlock (mkTeamsSummary (xs ++ JVal.obj tkvs :: ys))) = r := by
          intro r
          cases r with
          | ok d => rfl
          | error d => rfl
        have hbody : boxTryBody (mkTeamsSummary (xs ++ JVal.obj tkvs :: ys)) boxInit =
            ((pyFoldE boxTeamStep boxInit (xs ++ JVal.obj tkvs :: ys).enum >>=
              boxPlayersBlock (.obj [("teams", .arr (xs ++ JVal.obj tkvs :: ys))])) >>=
              boxScoringBlock (mkTeamsSummary (xs ++ JVal.obj tkvs :: ys))) := rfl
        have hfin : exceptInv (fun d2 => ∃ ts, dget d2 "team_stats" = some (.obj ts) ∧
            ("Team" ++ natDec (xs.length + 1)) ∈ objKeys ts ∧ "" ∉ objKeys ts)
            (boxTryBody (mkTeamsSummary (xs ++ JVal.obj tkvs :: ys)) boxInit) := by
          rw [hbody, hkey]
          exact hfoldAll
        have hED : extract_box_score_data (mkTeamsSummary (xs ++ JVal.obj tkvs :: ys)) =
            runCatch (boxTryBody (mkTeamsSummary (xs ++ JVal.obj tkvs :: ys)) boxInit) := by
          unfold extract_box_score_data runCatch
          rfl
        rw [hED]
        exact exceptInv_runCatch hfin
    | null => simp [lacksAbbr] at hti2
    | bool b => simp [lacksAbbr] at hti2
    | num n => simp [lacksAbbr] at hti2
    | str a => simp [lacksAbbr] at hti2
    | arr l => simp [lacksAbbr] at hti2
  · -- clean part
    show runCatch (cleanTryBody (mkTeamsSummary (xs ++ ti :: ys)) none cleanInit) =
      runCatch (cleanTryBody (mkTeamsSummary (xs ++ ys)) none cleanInit)
    rw [cleanTryBody_mkTeams, cleanTryBody_mkTeams]
    rw [pyFoldE_skip cleanTeamStatStep ti (fun d => cleanTeamStatStep_skip hti2 d)]

/-- C10 witness: a concrete teams list with one normal entry followed by an
abbreviation-less entry: the box score keys the second entry as `Team2`,
and the clean extractor produces the same output with or without it. -/
theorem claim_C10_synthetic_team_keys_witness :
    (∃ ts, dget (extract_box_score_data (mkTeamsSummary
        [.obj [("team", .obj [("abbreviation", .str "KC")])], .obj []]))
        "team_stats" = some (.obj ts) ∧
      ("Team" ++ natDec 2) ∈ objKeys ts ∧ "" ∉ objKeys ts) ∧
    extract_clean_game_data (mkTeamsSummary
        [.obj [("team", .obj [("abbreviation", .str "KC")])], .obj []]) none =
      extract_clean_game_data (mkTeamsSummary
        [.obj [("team", .obj [("abbreviation", .str "KC")])]]) none := by
  have h := claim_C10_synthetic_team_keys
    [.obj [("team", .obj [("abbreviation", .str "KC")])]] [] (.obj [])
    (by intro t ht; simp at ht; rw [ht]; rfl)
    rfl rfl
    (by intro t ht; simp at ht)
  exact h

/-- C10 counterexample: the entry at index 1 of `docC10bad` lacks a team
abbreviation, but because the entry at index 0 raises mid-processing, the
returned `team_stats` is exactly `{"Team1": {}}`: no `Team2` key is ever
created, contradicting the claim read over every input. -/
theorem counterexample_C10_earlier_entry_raises :
    dget (extract_box_score_data docC10bad) "team_stats" =
      some (.obj [("Team1", .obj [])]) ∧
    ("Team" ++ natDec 2) ∉ objKeys [("Team1", (JVal.obj []))] := by
  exact ⟨rfl, by decide⟩

theorem att_write_ok {ckvs : List (String × JVal)}
    (hatt : attOkB (dget ckvs "attendance") = true) (d : JObj) :
    ∃ n : Int, dget (dset d "attendance" ((dget ckvs "attendance").getD (.num 0)))
      "attendance" = some (.num n) ∧ 0 ≤ n := by
  rw [show attOkB (dget ckvs "attendance") = true ↔
      attOkB (dget ckvs "attendance") = true from Iff.rfl] at hatt
  cases hv : dget ckvs "attendance" with
  | none => exact ⟨0, dget_dset_self _ _ _, le_refl 0⟩
  | some v =>
      rw [hv] at hatt
      cases v with
      | num n =>
          exact ⟨n, dget_dset_self _ _ _, by simpa [attOkB] using hatt⟩
      | null => simp [attOkB] at hatt
      | bool b => simp [attOkB] at hatt
      | str a => simp [attOkB] at hatt
      | arr l => simp [attOkB] at hatt
      | obj l => simp [attOkB] at hatt

theorem att_keep {d : JObj} (k0 : String) (v : JVal)
    (hne : ("attendance" : String) ≠ k0)
    (hd : ∃ n : Int, dget d "attendance" = some (.num n) ∧ 0 ≤ n) :
    ∃ n : Int, dget (dset d k0 v) "attendance" = some (.num n) ∧ 0 ≤ n := by
  obtain ⟨n, hn, h0⟩ := hd
  exact ⟨n, dget_dset_ne2 hn hne, h0⟩

theorem cleanEventBlock_att (e : Option JVal)
    (hatt : attOkB (eventAttSrc e) = true) (d : JObj)
    (hd : ∃ n : Int, dget d "attendance" = some (.num n) ∧ 0 ≤ n) :
    exceptInv (fun d2 => ∃ n : Int, dget d2 "attendance" = some (.num n) ∧ 0 ≤ n)
      (cleanEventBlock e d) := by
  have hcomp : ∀ d2 : JObj, (∃ n : Int, dget d2 "attendance" = some (.num n) ∧ 0 ≤ n) →
      ∀ x : JVal, exceptInv (fun d3 => ∃ n : Int, dget d3 "attendance" =
        some (.num n) ∧ 0 ≤ n) (cleanEventCompetitor d2 x) :=
    fun d2 hd2 x => cleanEventCompetitor_inv _
      (fun d3 a v d4 h hp => ⟨hp.choose, dSetIn1_ok_keeps h hp.choose_spec.1 (by decide),
        hp.choose_spec.2⟩)
      (fun d3 a v d4 h hp => ⟨hp.choose, dSetIn1_ok_keeps h hp.choose_spec.1 (by decide),
        hp.choose_spec.2⟩) d2 x hd2
  cases e with
  | none => exact hd
  | some ev =>
      cases ev with
      | obj evkvs =>
          simp only [cleanEventBlock]
          split
          · simp only [pyGet]
            have hd1 := att_keep "game_id" ((dget evkvs "id").getD (.str ""))
              (by decide) hd
            have hd2 := att_keep "date" ((dget evkvs "date").getD (.str ""))
              (by decide) hd1
            split
            · exact hd2
            · next descV _ =>
                have hd3 := att_keep "status" descV (by decide) hd2
                split
                · exact hd3
                · next hasComp heqIn =>
                    split
                    · split
                      · exact hd3
                      · next compsV heqSub =>
                          simp only [pySubS] at heqSub
                          cases hcomps : dget evkvs "competitions" with
                          | none => rw [hcomps] at heqSub; cases heqSub
                          | some cv =>
                              rw [hcomps] at heqSub
                              injection heqSub with heqSub
                              subst heqSub
                              split
                              · split
                                · exact hd3
                                · next comp heqN =>
                                    split
                                    · exact hd3
                                    · next fullNameV heqV =>
                                        have hd4 := att_keep "venue" fullNameV (by decide) hd3
                                        split
                                        · exact hd4
                                        · next attV heqA =>
                                            cases comp with
                                            | obj ckvs =>
                                                simp only [pyGet] at heqA
                                                injection heqA with heqA
                                                subst heqA
                                                have hsrc : eventAttSrc (some (.obj evkvs)) =
                                                    dget ckvs "attendance" := by
                                                  cases cv with
                                                  | arr cl =>
                                                      cases cl with
                                                      | nil => simp [pySubN] at heqN
                                                      | cons c0 crest =>
                                                          simp only [pySubN, List.get?] at heqN
                                                          injection heqN with heqN
                                                          subst heqN
                                                          simp [eventAttSrc, hcomps]
                                                  | str sv =>
                                                      simp only [pySubN] at heqN
                                                      cases hg : sv.toList.get? 0 with
                                                      | none => rw [hg] at heqN; cases heqN
                                                      | some c0 =>
                                                          rw [hg] at heqN
                                                          cases heqN
                                                  | null => simp [pySubN] at heqN
                                                  | bool b => simp [pySubN] at heqN
                                                  | num n => simp [pySubN] at heqN
                                                  | obj l => simp [pySubN] at heqN
                                                rw [hsrc] at hatt
                                                have hd5 := att_write_ok hatt
                                                  (dset (dset (dset (dset d "game_id"
                                                    ((dget evkvs "id").getD (.str "")))
                                                    "date" ((dget evkvs "date").getD (.str "")))
                                                    "status" descV) "venue" fullNameV)
                                                split
                                                · exact hd5
                                                · next hasCs _ =>
                                                    split
                                                    · split
                                                      · exact hd5
                                                      · next csV _ =>
                                                          split
                                                          · exact hd5
                                                          · next cs _ =>
                                                              exact pyFoldE_inv _
                                                                (fun d6 x hd6 => hcomp d6 hd6 x)
                                                                cs _ hd5
                                                    · exact hd5
                                            | null => simp [pyGet] at heqA
                                            | bool b => simp [pyGet] at heqA
                                            | num n => simp [pyGet] at heqA
                                            | str a => simp [pyGet] at heqA
                                            | arr l => simp [pyGet] at heqA
                              · exact hd3
                    · exact hd3
          · exact hd
      | null => exact hd
      | bool b =>
          simp only [cleanEventBlock]
          split
          · exact hd
          · exact hd
      | num n =>
          simp only [cleanEventBlock]
          split
          · exact hd
          · exact hd
      | str a =>
          simp only [cleanEventBlock]
          split
          · exact hd
          · exact hd
      | arr l =>
          simp only [cleanEventBlock]
          split
          · exact hd
          · exact hd

theorem cleanHeaderBlock_att (s : JVal) (e : Option JVal)
    (hatt : attOkB (headerAttSrc s) = true) (d : JObj)
    (hd : ∃ n : Int, dget d "attendance" = some (.num n) ∧ 0 ≤ n) :
    exceptInv (fun d2 => ∃ n : Int, dget d2 "attendance" = some (.num n) ∧ 0 ≤ n)
      (cleanHeaderBlock s e d) := by
  have hcomp : ∀ d2 : JObj, (∃ n : Int, dget d2 "attendance" = some (.num n) ∧ 0 ≤ n) →
      ∀ x : JVal, exceptInv (fun d3 => ∃ n : Int, dget d3 "attendance" =
        some (.num n) ∧ 0 ≤ n) (cleanHeaderCompetitor d2 x) :=
    fun d2 hd2 x => cleanHeaderCompetitor_inv _
      (fun d3 a v d4 h hp => ⟨hp.choose, dSetIn1_ok_keeps h hp.choose_spec.1 (by decide),
        hp.choose_spec.2⟩)
      (fun d3 a v d4 h hp => ⟨hp.choose, dSetIn1_ok_keeps h hp.choose_spec.1 (by decide),
        hp.choose_spec.2⟩) d2 x hd2
  cases s with
  | obj skvs =>
      simp only [cleanHeaderBlock, pyIn]
      cases hh : dget skvs "header" with
      | none => simp; exact hd
      | some hv =>
          simp only [Option.isSome_some]
          split
          · next hcond =>
              simp only [pySubS, hh]
              cases hv with
              | obj hkvs =>
                  simp only [pyIn]
                  cases hcomps : dget hkvs "competitions" with
                  | none => simp; exact hd
                  | some cv =>
                      simp only [Option.isSome_some, if_true]
                      split
                      · split
                        · exact hd
                        · next comp heqN =>
                            split
                            · exact hd
                            · next dateV heqD =>
                                have hd1 := att_keep "date" dateV (by decide) hd
                                split
                                · exact hd1
                                · next descV _ =>
                                    have hd2 := att_keep "status" descV (by decide) hd1
                                    split
                                    · exact hd2
                                    · next fullNameV _ =>
                                        have hd3 := att_keep "venue" fullNameV (by decide) hd2
                                        split
                                        · exact hd3
                                        · next attV heqA =>
                                            cases comp with
                                            | obj ckvs =>
                                                simp only [pyGet] at heqA
                                                injection heqA with heqA
                                                subst heqA
                                                have hsrc : headerAttSrc (.obj skvs) =
                                                    dget ckvs "attendance" := by
                                                  cases cv with
                                                  | arr cl =>
                                                      cases cl with
                                                      | nil => simp [pySubN] at heqN
                                                      | cons c0 crest =>
                                                          simp only [pySubN, List.get?] at heqN
                                                          injection heqN with heqN
                                                          subst heqN
                                                          simp [headerAttSrc, hh, hcomps]
                                                  | str sv =>
                                                      simp only [pySubN] at heqN
                                                      cases hg : sv.toList.get? 0 with
                                                      | none => rw [hg] at heqN; cases heqN
                                                      | some c0 =>
                                                          rw [hg] at heqN
                                                          cases heqN
                                                  | null => simp [pySubN] at heqN
                                                  | bool b => simp [pySubN] at heqN
                                                  | num n => simp [pySubN] at heqN
                                                  | obj l => simp [pySubN] at heqN
                                                rw [hsrc] at hatt
                                                have hd4 := att_write_ok hatt
                                                  (dset (dset (dset d "date" dateV)
                                                    "status" descV) "venue" fullNameV)
                                                split
                                                · exact hd4
                                                · next hasCs _ =>
                                                    split
                                                    · split
                                                      · exact hd4
                                                      · next csV _ =>
                                                          split
                                                          · exact hd4
                                                          · next cs _ =>
                                                              exact pyFoldE_inv _
                                                                (fun d6 x hd6 => hcomp d6 hd6 x)
                                                                cs _ hd4
                                                    · exact hd4
                                            | null => simp [pyGet] at heqA
                                            | bool b => simp [pyGet] at heqA
                                            | num n => simp [pyGet] at heqA
                                            | str a => simp [pyGet] at heqA
                                            | arr l => simp [pyGet] at heqA
                      · exact hd
              | null => exact hd
              | bool b => exact hd
              | num n => exact hd
              | str a =>
                  simp only [pyIn]
                  split
                  · exact hd
                  · exact hd
              | arr l =>
                  simp only [pyIn]
                  split
                  · exact hd
                  · exact hd
          · exact hd
  | arr l =>
      simp only [cleanHeaderBlock, pyIn]
      split
      · simp only [pySubS]
        exact hd
      · exact hd
  | str a =>
      simp only [cleanHeaderBlock, pyIn]
      split
      · simp only [pySubS]
        exact hd
      · exact hd
  | null => exact hd
  | bool b => exact hd
  | num n => exact hd

theorem gameInfoAtt_congr {d d1 : JObj}
    (h : dget d1 "game_info" = dget d "game_info") :
    gameInfoAtt d1 = gameInfoAtt d := by
  unfold gameInfoAtt
  rw [h]

theorem boxHeaderBlock_att (s : JVal)
    (hatt : attOkB (headerAttSrc s) = true) (d : JObj)
    (hd : attOkB (gameInfoAtt d) = true) :
    exceptInv (fun d2 => attOkB (gameInfoAtt d2) = true) (boxHeaderBlock s d) := by
  have hcomp : ∀ d2 : JObj, attOkB (gameInfoAtt d2) = true →
      ∀ x : JVal, exceptInv (fun d3 => attOkB (gameInfoAtt d3) = true)
        (boxHeaderCompetitor d2 x) :=
    fun d2 hd2 x => boxHeaderCompetitor_inv _
      (fun d3 a v d4 h hp => by
        rw [gameInfoAtt_congr (dSetIn1_ok_keeps h rfl (by decide))]
        exact hp) d2 x hd2
  cases s with
  | obj skvs =>
      simp only [boxHeaderBlock, pyIn]
      cases hh : dget skvs "header" with
      | none => simp; exact hd
      | some hv =>
          simp only [Option.isSome_some]
          split
          · next hcond =>
              simp only [pySubS, hh]
              cases hv with
              | obj hkvs =>
                  simp only [pyIn]
                  cases hcomps : dget hkvs "competitions" with
                  | none => simp; exact hd
                  | some cv =>
                      simp only [Option.isSome_some, if_true]
                      split
                      · split
                        · exact hd
                        · next comp heqN =>
                            split
                            · exact hd
                            · next infoObj heqI =>
                                cases comp with
                                | obj ckvs =>
                                    have hsrc : headerAttSrc (.obj skvs) =
                                        dget ckvs "attendance" := by
                                      cases cv with
                                      | arr cl =>
                                          cases cl with
                                          | nil => simp [pySubN] at heqN
                                          | cons c0 crest =>
                                              simp only [pySubN, List.get?] at heqN
                                              injection heqN with heqN
                                              subst heqN
                                              simp [headerAttSrc, hh, hcomps]
                                      | str sv =>
                                          simp only [pySubN] at heqN
                                          cases hg : sv.toList.get? 0 with
                                          | none => rw [hg] at heqN; cases heqN
                                          | some c0 =>
                                              rw [hg] at heqN
                                              cases heqN
                                      | null => simp [pySubN] at heqN
                                      | bool b => simp [pySubN] at heqN
                                      | num n => simp [pySubN] at heqN
                                      | obj l => simp [pySubN] at heqN
                                    have hobjGet : ∀ k dflt, pyGet (JVal.obj ckvs) k dflt =
                                        .ok ((dget ckvs k).getD dflt) := fun k dflt => rfl
                                    simp only [hobjGet, exc_ok_bind] at heqI
                                    cases h2 : pyGet ((dget ckvs "status").getD (.obj []))
                                        "type" (.obj []) with
                                    | error u => cases u; rw [h2] at heqI; simp at heqI
                                    | ok tyV =>
                                        rw [h2] at heqI
                                        simp only [exc_ok_bind] at heqI
                                        cases h3 : pyGet tyV "description" (.str "") with
                                        | error u => cases u; rw [h3] at heqI; simp at heqI
                                        | ok descV =>
                                            rw [h3] at heqI
                                            simp only [exc_ok_bind] at heqI
                                            cases h4 : pyGet ((dget ckvs "venue").getD
                                                (.obj [])) "fullName" (.str "") with
                                            | error u => cases u; rw [h4] at heqI; simp at heqI
                                            | ok fullNameV =>
                                                rw [h4] at heqI
                                                simp only [exc_ok_bind] at heqI
                                                injection heqI with heqI
                                                subst heqI
                                                rw [hsrc] at hatt
                                                have hd1 : attOkB (gameInfoAtt
                                                    (dset d "game_info" (JVal.obj
                                                      [("date", (dget ckvs "date").getD
                                                          (.str "")),
                                                        ("status", descV),
                                                        ("venue", fullNameV),
                                                        ("attendance", (dget ckvs
                                                          "attendance").getD
                                                          (.num 0))]))) = true := by
                                                  unfold gameInfoAtt
                                                  rw [dget_dset_self]
                                                  cases ha : dget ckvs "attendance" with
                                                  | none => simp [dget, attOkB]
                                                  | some av =>
                                                      rw [ha] at hatt
                                                      cases av with
                                                      | num n =>
                                                          simp only [attOkB] at hatt
                                                          simp [dget, attOkB, hatt]
                                                      | null => simp [attOkB] at hatt
                                                      | bool b => simp [attOkB] at hatt
                                                      | str a => simp [attOkB] at hatt
                                                      | arr l => simp [attOkB] at hatt
                                                      | obj l => simp [attOkB] at hatt
                                                split
                                                · exact hd1
                                                · next hasCs _ =>
                                                    split
                                                    · split
                                                      · exact hd1
                                                      · next csV _ =>
                                                          split
                                                          · exact hd1
                                                          · next cs _ =>
                                                              exact pyFoldE_inv _
                                                                (fun d6 x hd6 =>
                                                                  hcomp d6 hd6 x)
                                                                cs _ hd1
                                                    · exact hd1
                                | null => simp [pyGet] at heqI
                                | bool b => simp [pyGet] at heqI
                                | num n => simp [pyGet] at heqI
                                | str a => simp [pyGet] at heqI
                                | arr l => simp [pyGet] at heqI
                      · exact hd
              | null => exact hd
              | bool b => exact hd
              | num n => exact hd
              | str a =>
                  simp only [pyIn]
                  split
                  · exact hd
                  · exact hd
              | arr l =>
                  simp only [pyIn]
                  split
                  · exact hd
                  · exact hd
          · exact hd
  | arr l =>
      simp only [boxHeaderBlock, pyIn]
      split
      · exact hd
      · exact hd
  | str a =>
      simp only [boxHeaderBlock, pyIn]
      split
      · exact hd
      · exact hd
  | null => exact hd
  | bool b => exact hd
  | num n => exact hd

theorem extract_clean_keys (s : JVal) (e : Option JVal) :
    objKeys (extract_clean_game_data s e) = cleanFieldNames := by
  have hED : extract_clean_game_data s e = runCatch (cleanTryBody s e cleanInit) := by
    unfold extract_clean_game_data runCatch
    rfl
  rw [hED]
  apply exceptInv_runCatch (P := fun d => objKeys d = cleanFieldNames)
  have hset : ∀ L : List String, (∀ k0 ∈ L, k0 ∈ cleanFieldNames) →
      ∀ k0 ∈ L, ∀ (d : JObj) (v : JVal), objKeys d = cleanFieldNames →
        objKeys (dset d k0 v) = cleanFieldNames := by
    intro L hL k0 hk0 d v hp
    rw [objKeys_dset_of_isSome v (dget_isSome_of_mem (by rw [hp]; exact hL k0 hk0))]
    exact hp
  have h1 : ∀ (d : JObj) (a : String) (v : JVal) (d1 : JObj),
      dSetIn1 d "teams" a v = .ok d1 →
      objKeys d = cleanFieldNames → objKeys d1 = cleanFieldNames :=
    fun d a v d1 h hp => (dSetIn1_ok_keys h).trans hp
  have h2 : ∀ (d : JObj) (a : String) (v : JVal) (d1 : JObj),
      dSetIn1 d "final_score" a v = .ok d1 →
      objKeys d = cleanFieldNames → objKeys d1 = cleanFieldNames :=
    fun d a v d1 h hp => (dSetIn1_ok_keys h).trans hp
  unfold cleanTryBody
  apply exceptInv_bind
  apply exceptInv_bind
  apply exceptInv_bind
  apply exceptInv_bind
  · exact cleanEventBlock_inv _ (hset _ (by decide)) h1 h2 e cleanInit rfl
  · exact fun d hp => cleanHeaderBlock_inv _ (hset _ (by decide)) h1 h2 s e d hp
  · exact fun d hp => cleanTeamStatsBlock_inv _
      (fun d a v d1 h hp => (dSetIn1_ok_keys h).trans hp) s d hp
  · exact fun d hp => cleanScoringBlock_inv _
      (fun d v d1 h hp => (dAppendIn0_ok_keys h).trans hp) s d hp
  · exact fun d hp => cleanPlayersBlock_inv _
      (fun d a v d1 h hp => (dSetIn1_ok_keys h).trans hp)
      (fun d a b v d1 h hp => (dSetIn2_ok_keys h).trans hp) s d hp

theorem extract_box_keys (s : JVal) :
    objKeys (extract_box_score_data s) = boxFieldNames := by
  have hED : extract_box_score_data s = runCatch (boxTryBody s boxInit) := by
    unfold extract_box_score_data runCatch
    rfl
  rw [hED]
  apply exceptInv_runCatch (P := fun d => objKeys d = boxFieldNames)
  unfold boxTryBody
  apply exceptInv_bind
  apply exceptInv_bind
  · refine boxHeaderBlock_inv _ ?hinfo ?hts s boxInit rfl
    · intro d v hp
      rw [objKeys_dset_of_isSome v (dget_isSome_of_mem (by rw [hp]; decide))]
      exact hp
    · exact fun d a v d1 h hp => (dSetIn1_ok_keys h).trans hp
  · intro d hp
    refine boxBoxscoreBlock_inv _ ?hinit ?hts2 ?hps1 ?hps2 ?hpa s d hp
    · intro d ts name hts hp
      rw [objKeys_dset_of_isSome _ (by rw [hts]; rfl)]
      exact hp
    · exact fun d a b v d1 h hp => (dSetIn2_ok_keys h).trans hp
    · exact fun d a v d1 h hp => (dSetIn1_ok_keys h).trans hp
    · exact fun d a b v d1 h hp => (dSetIn2_ok_keys h).trans hp
    · exact fun d a b v d1 h hp => (dAppendIn2_ok_keys h).trans hp
  · exact fun d hp => boxScoringBlock_inv _
      (fun d v d1 h hp => (dAppendIn0_ok_keys h).trans hp) s d hp

theorem extract_clean_att (s : JVal) (e : Option JVal)
    (h1 : attOkB (eventAttSrc e) = true) (h2 : attOkB (headerAttSrc s) = true) :
    ∃ n : Int, dget (extract_clean_game_data s e) "attendance" = some (.num n) ∧ 0 ≤ n := by
  have hED : extract_clean_game_data s e = runCatch (cleanTryBody s e cleanInit) := by
    unfold extract_clean_game_data runCatch
    rfl
  rw [hED]
  apply exceptInv_runCatch
    (P := fun d => ∃ n : Int, dget d "attendance" = some (.num n) ∧ 0 ≤ n)
  unfold cleanTryBody
  apply exceptInv_bind
  apply exceptInv_bind
  apply exceptInv_bind
  apply exceptInv_bind
  · exact cleanEventBlock_att e h1 cleanInit ⟨0, rfl, le_refl 0⟩
  · exact fun d hp => cleanHeaderBlock_att s e h2 d hp
  · exact fun d hp => cleanTeamStatsBlock_inv _
      (fun d a v d1 h hp => ⟨hp.choose, dSetIn1_ok_keeps h hp.choose_spec.1 (by decide),
        hp.choose_spec.2⟩) s d hp
  · exact fun d hp => cleanScoringBlock_inv _
      (fun d v d1 h hp => ⟨hp.choose, dAppendIn0_ok_keeps h hp.choose_spec.1 (by decide),
        hp.choose_spec.2⟩) s d hp
  · exact fun d hp => cleanPlayersBlock_inv _
      (fun d a v d1 h hp => ⟨hp.choose, dSetIn1_ok_keeps h hp.choose_spec.1 (by decide),
        hp.choose_spec.2⟩)
      (fun d a b v d1 h hp => ⟨hp.choose, dSetIn2_ok_keeps h hp.choose_spec.1 (by decide),
        hp.choose_spec.2⟩) s d hp

theorem extract_box_att (s : JVal) (h2 : attOkB (headerAttSrc s) = true) :
    attOkB (gameInfoAtt (extract_box_score_data s)) = true := by
  have hED : extract_box_score_data s = runCatch (boxTryBody s boxInit) := by
    unfold extract_box_score_data runCatch
    rfl
  rw [hED]
  apply exceptInv_runCatch (P := fun d => attOkB (gameInfoAtt d) = true)
  unfold boxTryBody
  apply exceptInv_bind
  apply exceptInv_bind
  · exact boxHeaderBlock_att s h2 boxInit rfl
  · intro d hp
    refine boxBoxscoreBlock_inv _ ?hinit ?hts2 ?hps1 ?hps2 ?hpa s d hp
    · intro d ts name hts hp
      rw [gameInfoAtt_congr (dget_dset_ne2 rfl (by decide))]
      exact hp
    · intro d a b v d1 h hp
      rw [gameInfoAtt_congr (dSetIn2_ok_keeps h rfl (by decide))]
      exact hp
    · intro d a v d1 h hp
      rw [gameInfoAtt_congr (dSetIn1_ok_keeps h rfl (by decide))]
      exact hp
    · intro d a b v d1 h hp
      rw [gameInfoAtt_congr (dSetIn2_ok_keeps h rfl (by decide))]
      exact hp
    · intro d a b v d1 h hp
      rw [gameInfoAtt_congr (dAppendIn2_ok_keeps h rfl (by decide))]
      exact hp
  · intro d hp
    refine boxScoringBlock_inv _ ?hsc s d hp
    intro d v d1 h hp
    rw [gameInfoAtt_congr (dAppendIn0_ok_keeps h rfl (by decide))]
    exact hp

/-- C2 (amended): for every input, both extractors return records whose
top-level keys are exactly the declared field names of CleanGameRecord and
BoxScoreRecord, in declaration order; and whenever the attendance slots the
code copies from (the first competition of `event` and of `summary.header`)
are absent or hold a nonnegative integer, the clean record's `attendance`
and the box record's `game_info.attendance` are nonnegative integers.  The
frozen claim's unconditional "attendance is always an integer ≥ 0" is false:
the code copies the source attendance verbatim, so a string survives into
the output (see the counterexample). -/
theorem claim_C2_totality_and_attendance (s : JVal) (e : Option JVal)
    (h1 : attOkB (eventAttSrc e) = true) (h2 : attOkB (headerAttSrc s) = true) :
    objKeys (extract_clean_game_data s e) = cleanFieldNames ∧
    objKeys (extract_box_score_data s) = boxFieldNames ∧
    (∃ n : Int, dget (extract_clean_game_data s e) "attendance" = some (.num n) ∧ 0 ≤ n) ∧
    attOkB (gameInfoAtt (extract_box_score_data s)) = true :=
  ⟨extract_clean_keys s e, extract_box_keys s, extract_clean_att s e h1 h2,
    extract_box_att s h2⟩

theorem claim_C2_totality_and_attendance_witness :
    attOkB (eventAttSrc none) = true ∧ attOkB (headerAttSrc (.obj [])) = true ∧
    (objKeys (extract_clean_game_data (.obj []) none) = cleanFieldNames ∧
     objKeys (extract_box_score_data (.obj [])) = boxFieldNames ∧
     (∃ n : Int, dget (extract_clean_game_data (.obj []) none) "attendance" =
        some (.num n) ∧ 0 ≤ n) ∧
     attOkB (gameInfoAtt (extract_box_score_data (.obj []))) = true) :=
  ⟨rfl, rfl, claim_C2_totality_and_attendance (.obj []) none rfl rfl⟩

/-- C2 as frozen is false: a summary whose header competition carries
`"attendance": "lots"` makes both extractors copy the string verbatim, so
the clean record's `attendance` field and the box record's
`game_info.attendance` are strings, not integers. -/
theorem counterexample_C2_attendance_not_int :
    dget (extract_clean_game_data
        (.obj [("header", .obj [("competitions",
          .arr [.obj [("attendance", .str "lots")]])])]) none) "attendance" =
      some (.str "lots") ∧
    gameInfoAtt (extract_box_score_data
        (.obj [("header", .obj [("competitions",
          .arr [.obj [("attendance", .str "lots")]])])])) =
      some (.str "lots") :=
  ⟨rfl, rfl⟩

theorem cleanEventBlock_venue (ekvs : List (String × JVal)) (c : JVal) (cl : List JVal)
    (descV fullV : JVal) (htr : truthy (.obj ekvs) = true)
    (hst : cleanEventStatus (.obj ekvs) = .ok descV)
    (hcomps : dget ekvs "competitions" = some (.arr (c :: cl)))
    (hven : cleanEventVenueOf c = .ok fullV) (d : JObj) :
    exceptInv (fun d2 => dget d2 "venue" = some fullV)
      (cleanEventBlock (some (.obj ekvs)) d) := by
  have hcomp : ∀ d2 : JObj, dget d2 "venue" = some fullV →
      ∀ x : JVal, exceptInv (fun d3 => dget d3 "venue" = some fullV)
        (cleanEventCompetitor d2 x) :=
    fun d2 hd2 x => cleanEventCompetitor_inv _
      (fun d3 a v d4 h hp => dSetIn1_ok_keeps h hp (by decide))
      (fun d3 a v d4 h hp => dSetIn1_ok_keeps h hp (by decide)) d2 x hd2
  simp only [cleanEventBlock]
  split
  · simp only [pyGet]
    split
    · next u herr =>
        have heq : (Except.ok descV : Except Unit JVal) = Except.error u := by
          rw [← hst]
          exact herr
        cases heq
    · next descV' hok =>
        have heq : (Except.ok descV : Except Unit JVal) = Except.ok descV' := by
          rw [← hst]
          exact hok
        injection heq with heq
        subst heq
        simp only [pyIn, hcomps, Option.isSome_some, if_true]
        simp only [pySubS, hcomps]
        simp only [truthy, List.isEmpty_cons, Bool.not_false, if_true]
        simp only [pySubN, List.get?]
        split
        · next u herr =>
            have heq2 : (Except.ok fullV : Except Unit JVal) = Except.error u := by
              rw [← hven]
              exact herr
            cases heq2
        · next fullV' hok2 =>
            have heq2 : (Except.ok fullV : Except Unit JVal) = Except.ok fullV' := by
              rw [← hven]
              exact hok2
            injection heq2 with heq2
            subst heq2
            have hd4 := dget_dset_self (dset (dset (dset d "game_id"
              ((dget ekvs "id").getD (.str ""))) "date"
              ((dget ekvs "date").getD (.str ""))) "status" descV) "venue" fullV
            split
            · exact hd4
            · next attV heqA =>
                have hd5 := @dget_dset_ne2 _ _ "attendance" attV _ hd4 (by decide)
                split
                · exact hd5
                · next hasCs _ =>
                    split
                    · split
                      · exact hd5
                      · next csV _ =>
                          split
                          · exact hd5
                          · next cs _ =>
                              exact pyFoldE_inv _ (fun d6 x hd6 => hcomp d6 hd6 x)
                                cs _ hd5
                    · exact hd5
  · next h => exact absurd htr h

theorem extract_clean_event_field (s : JVal) (e : JVal) (he : truthy e = true)
    (k : String) (h1 : k ≠ "team_statistics") (h2 : k ≠ "scoring_plays")
    (h3 : k ≠ "player_statistics") :
    dget (extract_clean_game_data s (some e)) k =
      dget (runCatch (cleanEventBlock (some e) cleanInit)) k := by
  have hED : extract_clean_game_data s (some e) =
      runCatch (cleanTryBody s (some e) cleanInit) := by
    unfold extract_clean_game_data runCatch
    rfl
  rw [hED]
  apply exceptInv_runCatch
    (P := fun d => dget d k = dget (runCatch (cleanEventBlock (some e) cleanInit)) k)
  unfold cleanTryBody
  apply exceptInv_bind
  apply exceptInv_bind
  apply exceptInv_bind
  apply exceptInv_bind
  · cases hr : cleanEventBlock (some e) cleanInit with
    | ok d => simp [runCatch, hr]
    | error d => simp [runCatch, hr]
  · intro d hp
    exact exceptInv_of_eq
      (cleanHeaderBlock_of_truthy (show truthyOpt (some e) = true from he) d) hp
  · intro d hp
    exact cleanTeamStatsBlock_inv _
      (fun d a v d1 h hq => dSetIn1_ok_keeps h hq h1) s d hp
  · intro d hp
    exact cleanScoringBlock_inv _
      (fun d v d1 h hq => dAppendIn0_ok_keeps h hq h2) s d hp
  · intro d hp
    exact cleanPlayersBlock_inv _
      (fun d a v d1 h hq => dSetIn1_ok_keeps h hq h3)
      (fun d a b v d1 h hq => dSetIn2_ok_keeps h hq h3) s d hp

/-- C3 (amended): when the event is truthy and its identity chains are
well-shaped (the status chain and the first competition's venue chain
succeed), `extract_clean_game_data` takes the seven identity fields
exclusively from the event — their values do not depend on the summary at
all, so nothing of `summary.header` is merged in — and the returned venue
is exactly the event competition's `venue.fullName`.  The frozen claim's
precondition (both sides merely "carry venue values") is too weak: a
malformed sibling field such as a string-valued event `status` raises
mid-branch and leaves the venue at its initial empty value (see the
counterexample). -/
theorem claim_C3_event_priority (s1 s2 : JVal) (ekvs : List (String × JVal))
    (c : JVal) (cl : List JVal) (descV fullV : JVal)
    (htr : truthy (.obj ekvs) = true)
    (hst : cleanEventStatus (.obj ekvs) = .ok descV)
    (hcomps : dget ekvs "competitions" = some (.arr (c :: cl)))
    (hven : cleanEventVenueOf c = .ok fullV) :
    (∀ k, k ∈ (["game_id", "date", "status", "venue", "attendance", "teams",
        "final_score"] : List String) →
      dget (extract_clean_game_data s1 (some (.obj ekvs))) k =
        dget (extract_clean_game_data s2 (some (.obj ekvs))) k) ∧
    dget (extract_clean_game_data s1 (some (.obj ekvs))) "venue" = some fullV := by
  have hne : ∀ k ∈ (["game_id", "date", "status", "venue", "attendance", "teams",
      "final_score"] : List String), k ≠ "team_statistics" ∧ k ≠ "scoring_plays" ∧
      k ≠ "player_statistics" := by decide
  constructor
  · intro k hk
    obtain ⟨hk1, hk2, hk3⟩ := hne k hk
    exact (extract_clean_event_field s1 _ htr k hk1 hk2 hk3).trans
      (extract_clean_event_field s2 _ htr k hk1 hk2 hk3).symm
  · exact (extract_clean_event_field s1 _ htr "venue" (by decide) (by decide)
      (by decide)).trans (exceptInv_runCatch
        (cleanEventBlock_venue ekvs c cl descV fullV htr hst hcomps hven cleanInit))

theorem claim_C3_event_priority_witness :
    truthy (.obj [("status", .obj []), ("competitions",
      .arr [.obj [("venue", .obj [("fullName", .str "A")])]])]) = true ∧
    cleanEventStatus (.obj [("status", .obj []), ("competitions",
      .arr [.obj [("venue", .obj [("fullName", .str "A")])]])]) = .ok (.str "") ∧
    dget [("competitions", .arr [.obj [("venue", .obj [("fullName", .str "A")])]])]
      "competitions" = some (.arr ([] ++ [.obj [("venue",
        .obj [("fullName", .str "A")])]])) ∧
    cleanEventVenueOf (.obj [("venue", .obj [("fullName", .str "A")])]) =
      .ok (.str "A") ∧
    dget (extract_clean_game_data
      (.obj [("header", .obj [("competitions", .arr [.obj [("venue",
        .obj [("fullName", .str "B")])]])])])
      (some (.obj [("status", .obj []), ("competitions",
        .arr [.obj [("venue", .obj [("fullName", .str "A")])]])]))) "venue" =
      some (.str "A") :=
  ⟨rfl, rfl, rfl,  rfl,
    (claim_C3_event_priority
      (.obj [("header", .obj [("competitions", .arr [.obj [("venue",
        .obj [("fullName", .str "B")])]])])])
      (.obj [])
      [("status", .obj []), ("competitions",
        .arr [.obj [("venue", .obj [("fullName", .str "A")])]])]
      (.obj [("venue", .obj [("fullName", .str "A")])]) []
      (.str "") (.str "A") rfl rfl rfl rfl).2⟩

/-- C3 as frozen is false: here both the event competition and the header
competition carry venue values ("A" and "B"), yet the event's string-valued
`status` makes `.get("type", {})` raise, aborting the event branch before
its venue write; the event being truthy, the header branch is skipped too,
so the returned venue is the initial empty string, not event's "A". -/
theorem counterexample_C3_status_string_aborts :
    dget (extract_clean_game_data
        (.obj [("header", .obj [("competitions", .arr [.obj [("venue",
          .obj [("fullName", .str "B")])]])])])
        (some (.obj [("status", .str "final"), ("competitions",
          .arr [.obj [("venue", .obj [("fullName", .str "A")])]])]))) "venue" =
      some (.str "") ∧
    cleanEventVenueOf (.obj [("venue", .obj [("fullName", .str "A")])]) =
      .ok (.str "A") :=
  ⟨rfl, rfl⟩

theorem zipFold_ok (L : List String) : ∀ (S : List JVal) (m : JObj),
    (((L.map JVal.str).zip S).foldlM (fun m lv => do
      let k ← pyKey lv.1
      pure (dset m k lv.2)) m : Except Unit JObj) =
      .ok ((L.zip S).foldl (fun m p => dset m p.1 p.2) m) := by
  induction L with
  | nil => intro S m; rfl
  | cons l lt ih =>
      intro S m
      cases S with
      | nil => rfl
      | cons s st =>
          have h1 : (fun (m : JObj) (lv : JVal × JVal) => do
              let k ← pyKey lv.1
              pure (dset m k lv.2)) m (JVal.str l, s) =
              (.ok (dset m l s) : Except Unit JObj) := rfl
          simp only [List.map_cons, List.zip_cons_cons, List.foldlM_cons, h1,
            exc_ok_bind, List.foldl_cons]
          exact ih st (dset m l s)

theorem enumFromFold (fb : List String) : ∀ (S : List JVal) (pre : List String) (m : JObj),
    ((S.take fb.length).enumFrom pre.length).foldl (fun m iv =>
      match (pre ++ fb).get? iv.1 with
      | some lab => dset m lab iv.2
      | none => m) m =
    (fb.zip S).foldl (fun m p => dset m p.1 p.2) m := by
  induction fb with
  | nil => intro S pre m; simp [List.take]
  | cons f ft ih =>
      intro S pre m
      cases S with
      | nil => simp [List.take]
      | cons s st =>
          simp only [List.length_cons, List.take_succ_cons, List.enumFrom_cons,
            List.foldl_cons, List.zip_cons_cons]
          rw [List.get?_append_right (Nat.le_refl _), Nat.sub_self]
          simp only [List.get?]
          have hpre : pre.length + 1 = (pre ++ [f]).length := by
            simp
          rw [hpre]
          have happ : pre ++ f :: ft = (pre ++ [f]) ++ ft := by
            simp
          rw [happ]
          exact ih st (pre ++ [f]) (dset m f s)

theorem enumFold_eq_zip (fb : List String) (S : List JVal) :
    ((S.take fb.length).enum.foldl (fun m iv =>
      match fb.get? iv.1 with
      | some lab => dset m lab iv.2
      | none => m) ([] : JObj)) =
    (fb.zip S).foldl (fun m p => dset m p.1 p.2) [] := by
  have h := enumFromFold fb S [] []
  simpa [List.enum] using h

theorem genFromFold (S : List JVal) : ∀ (i : Nat) (m : JObj),
    (S.enumFrom i).foldl (fun m iv => dset m ("stat_" ++ natDec (iv.1 + 1)) iv.2) m =
    (((List.range' i S.length).map (fun j => "stat_" ++ natDec (j + 1))).zip S).foldl
      (fun m p => dset m p.1 p.2) m := by
  induction S with
  | nil => intro i m; rfl
  | cons s st ih =>
      intro i m
      simp only [List.enumFrom_cons, List.foldl_cons, List.length_cons, List.range',
        List.map_cons, List.zip_cons_cons]
      exact ih (i + 1) (dset m ("stat_" ++ natDec (i + 1)) s)

theorem genFold_eq_zip (S : List JVal) :
    (S.enum.foldl (fun m iv => dset m ("stat_" ++ natDec (iv.1 + 1)) iv.2) ([] : JObj)) =
    ((genericLabels S.length).zip S).foldl (fun m p => dset m p.1 p.2) [] := by
  have h := genFromFold S 0 []
  simpa [List.enum, genericLabels, List.range_eq_range'] using h

theorem fallbackStats_ok (cn : String) (S : List JVal) :
    fallbackStats cn (.arr S) = .ok (match fixedFallback (strLower cn) with
      | some fb => zipStats fb S
      | none => zipStats (genericLabels S.length) S) := by
  unfold fallbackStats
  cases hf : fixedFallback (strLower cn) with
  | some fb =>
      simp only [pySlice, pyElems, exc_ok_bind]
      show Except.ok _ = _
      rw [zipStats, enumFold_eq_zip]
  | none =>
      simp only [pyElems, exc_ok_bind]
      show Except.ok _ = _
      rw [zipStats, genFold_eq_zip]

theorem foldl_dset_ne_nil (pairs : List (String × JVal)) :
    ∀ m : JObj, m ≠ [] → pairs.foldl (fun m p => dset m p.1 p.2) m ≠ [] := by
  induction pairs with
  | nil => exact fun m h => h
  | cons p pt ih => exact fun m h => ih _ (dset_ne_nil _ _ _)

theorem zipStats_ne_nil {labs : List String} {vals : List JVal}
    (h1 : labs ≠ []) (h2 : vals ≠ []) : zipStats labs vals ≠ [] := by
  cases labs with
  | nil => exact absurd rfl h1
  | cons l lt =>
      cases vals with
      | nil => exact absurd rfl h2
      | cons v vt =>
          unfold zipStats
          simp only [List.zip_cons_cons, List.foldl_cons]
          exact foldl_dset_ne_nil _ _ (dset_ne_nil _ _ _)

theorem zipStats_nil_right (labs : List String) : zipStats labs [] = [] := by
  simp [zipStats]

theorem fixedFallback_ne_nil {x : String} {fb : List String}
    (h : fixedFallback x = some fb) : fb ≠ [] := by
  unfold fixedFallback at h
  split at h
  · injection h with h
    subst h
    simp
  · split at h
    · injection h with h
      subst h
      simp
    · split at h
      · injection h with h
        subst h
        simp
      · cases h

theorem isEmpty_false_of_ne {α : Type} {l : List α} (h : l ≠ []) :
    l.isEmpty = false := by
  cases l with
  | nil => exact absurd rfl h
  | cons a t => rfl

theorem fallbackStats_spec (cn : String) (S : List JVal) :
    ∃ PS : JObj, fallbackStats cn (.arr S) = .ok PS ∧
      (if PS.isEmpty then JVal.arr S else .obj PS) =
        (match fixedFallback (strLower cn) with
         | some fb => if S.isEmpty then JVal.arr [] else .obj (zipStats fb S)
         | none => if S.isEmpty then JVal.arr [] else
             .obj (zipStats (genericLabels S.length) S)) := by
  refine ⟨_, fallbackStats_ok cn S, ?_⟩
  cases hf : fixedFallback (strLower cn) with
  | some fb =>
      cases S with
      | nil => simp [zipStats_nil_right]
      | cons s st =>
          rw [isEmpty_false_of_ne (zipStats_ne_nil (fixedFallback_ne_nil hf)
            (List.cons_ne_nil s st))]
          simp
  | none =>
      cases S with
      | nil => simp [zipStats_nil_right]
      | cons s st =>
          rw [isEmpty_false_of_ne (zipStats_ne_nil (by simp [genericLabels])
            (List.cons_ne_nil s st))]
          simp

/-- The `stats` field produced by `cleanMkPlayer` for a well-shaped
athlete is exactly `specStats`. -/
theorem cleanMkPlayer_spec (cn : String) (L : List String)
    (S : List JVal) (athlete : JVal) (hath : athleteOkB athlete = true)
    (hstats : pyGet athlete "stats" (.arr []) = .ok (.arr S)) :
    ∃ nameV posV, cleanMkPlayer cn (.arr (L.map JVal.str)) athlete =
      .ok (.obj [("name", nameV), ("position", posV),
        ("stats", specStats cn L S)]) := by
  cases athlete with
  | obj akvs =>
      simp only [athleteOkB] at hath
      obtain ⟨hA1, hA2⟩ := Bool.and_eq_true_iff.mp hath
      cases hA : (dget akvs "athlete").getD (.obj []) with
      | obj avkvs =>
          rw [hA] at hA1
          simp only [] at hA1
          cases hP : (dget avkvs "position").getD (.obj []) with
          | obj pkvs =>
              refine ⟨(dget avkvs "displayName").getD (.str ""),
                (dget pkvs "abbreviation").getD (.str ""), ?_⟩
              have hg1 : pyGet (JVal.obj akvs) "athlete" (.obj []) =
                  .ok (.obj avkvs) := by
                show Except.ok _ = _
                rw [hA]
              have hg3 : pyGet (JVal.obj avkvs) "position" (.obj []) =
                  .ok (.obj pkvs) := by
                show Except.ok _ = _
                rw [hP]
              have hg2 : pyGet (JVal.obj avkvs) "displayName" (.str "") =
                  .ok ((dget avkvs "displayName").getD (.str "")) := rfl
              have hg4 : pyGet (JVal.obj pkvs) "abbreviation" (.str "") =
                  .ok ((dget pkvs "abbreviation").getD (.str "")) := rfl
              unfold cleanMkPlayer
              simp only [hstats, exc_ok_bind]
              cases L with
              | nil =>
                  rw [List.map_nil]
                  have ht := eq_false (show ¬(truthy (JVal.arr []) = true) by decide)
                  simp only [ht, if_false]
                  obtain ⟨PS, hPS, hfield⟩ := fallbackStats_spec cn S
                  simp only [hPS, exc_ok_bind, hg1, hg2, hg3, hg4]
                  rw [hfield]
                  have hc0 : ((([] : List String) ≠ []) ∧
                      ([] : List String).length = S.length) = False :=
                    eq_false (fun h => h.1 rfl)
                  simp only [specStats, hc0, if_false]
                  rfl
              | cons l lt =>
                  have ht := eq_true (show truthy (.arr ((l :: lt).map JVal.str)) =
                    true by simp [truthy])
                  simp only [ht, if_true]
                  have hn1 : pyLen (.arr ((l :: lt).map JVal.str)) =
                      .ok (l :: lt).length := by
                    simp [pyLen]
                  simp only [hn1, exc_ok_bind]
                  have hn2 : pyLen (.arr S) = .ok S.length := rfl
                  simp only [hn2, exc_ok_bind]
                  by_cases hlen : (l :: lt).length = S.length
                  · have hc1 := eq_true hlen
                    simp only [hc1, if_true]
                    have hzip : pyZip (.arr ((l :: lt).map JVal.str)) (.arr S) =
                        .ok (((l :: lt).map JVal.str).zip S) := rfl
                    simp only [hzip, exc_ok_bind, zipFold_ok]
                    rw [show (((l :: lt).zip S).foldl
                        (fun m p => dset m p.1 p.2) ([] : JObj)) =
                      zipStats (l :: lt) S from rfl]
                    have hSne : S ≠ [] := by
                      intro h
                      subst h
                      simp at hlen
                    rw [isEmpty_false_of_ne
                      (zipStats_ne_nil (List.cons_ne_nil l lt) hSne)]
                    simp only [Bool.false_eq_true, if_false]
                    have hc2 : ((l :: lt ≠ []) ∧ (l :: lt).length = S.length) =
                        True := eq_true ⟨List.cons_ne_nil l lt, hlen⟩
                    simp only [specStats, hc2, if_true, hg1, hg2, hg3, hg4,
                      exc_ok_bind]
                    rfl
                  · have hc1 := eq_false hlen
                    simp only [hc1, if_false]
                    obtain ⟨PS, hPS, hfield⟩ := fallbackStats_spec cn S
                    simp only [hPS, exc_ok_bind, hg1, hg2, hg3, hg4]
                    rw [hfield]
                    have hc2 : ((l :: lt ≠ []) ∧ (l :: lt).length = S.length) =
                        False := eq_false (fun h => hlen h.2)
                    simp only [specStats, hc2, if_false]
                    rfl
          | null =>
              rw [hP] at hA1
              cases hA1
          | bool b =>
              rw [hP] at hA1
              cases hA1
          | num n =>
              rw [hP] at hA1
              cases hA1
          | str a =>
              rw [hP] at hA1
              cases hA1
          | arr xs =>
              rw [hP] at hA1
              cases hA1
      | null =>
          rw [hA] at hA1
          cases hA1
      | bool b =>
          rw [hA] at hA1
          cases hA1
      | num n =>
          rw [hA] at hA1
          cases hA1
      | str a =>
          rw [hA] at hA1
          cases hA1
      | arr xs =>
          rw [hA] at hA1
          cases hA1
  | null => cases hath
  | bool b => cases hath
  | num n => cases hath
  | str a => cases hath
  | arr xs => cases hath

/-- C4 (amended): for one athlete of a qualifying category whose
surrounding accesses are well-shaped, the `stats` field produced by
`cleanMkPlayer` is `specStats`: the positional zip of the label list when
it is nonempty and exactly matches the stats length; otherwise the fixed
per-category fallback list applied positionally; otherwise generic
`stat_<i+1>` labels; and — the amendment — when the resulting mapping is
empty (empty stats sequence) the raw stats sequence is stored instead of a
mapping. -/
theorem claim_C4_label_zip_and_fallback (cn : String) (L : List String)
    (S : List JVal) (athlete : JVal) (hath : athleteOkB athlete = true)
    (hstats : pyGet athlete "stats" (.arr []) = .ok (.arr S)) :
    ∃ nameV posV, cleanMkPlayer cn (.arr (L.map JVal.str)) athlete =
      .ok (.obj [("name", nameV), ("position", posV),
        ("stats", specStats cn L S)]) :=
  cleanMkPlayer_spec cn L S athlete hath hstats

theorem claim_C4_label_zip_and_fallback_witness :
    athleteOkB (.obj [("athlete", .obj [("displayName", .str "P. Mahomes"),
      ("position", .obj [("abbreviation", .str "QB")])]),
      ("stats", .arr [.str "18/25", .str "210"])]) = true ∧
    pyGet (.obj [("athlete", .obj [("displayName", .str "P. Mahomes"),
      ("position", .obj [("abbreviation", .str "QB")])]),
      ("stats", .arr [.str "18/25", .str "210"])]) "stats" (.arr []) =
      .ok (.arr [.str "18/25", .str "210"]) ∧
    specStats "passing" ["C/ATT", "YDS"] [.str "18/25", .str "210"] =
      .obj [("C/ATT", .str "18/25"), ("YDS", .str "210")] ∧
    (∃ nameV posV, cleanMkPlayer "passing" (.arr (["C/ATT", "YDS"].map JVal.str))
        (.obj [("athlete", .obj [("displayName", .str "P. Mahomes"),
          ("position", .obj [("abbreviation", .str "QB")])]),
          ("stats", .arr [.str "18/25", .str "210"])]) =
      .ok (.obj [("name", nameV), ("position", posV),
        ("stats", specStats "passing" ["C/ATT", "YDS"]
          [.str "18/25", .str "210"])])) :=
  ⟨rfl, rfl, rfl,
    claim_C4_label_zip_and_fallback "passing" ["C/ATT", "YDS"]
      [.str "18/25", .str "210"]
      (.obj [("athlete", .obj [("displayName", .str "P. Mahomes"),
        ("position", .obj [("abbreviation", .str "QB")])]),
        ("stats", .arr [.str "18/25", .str "210"])]) rfl rfl⟩

/-- C4 as frozen is false at the empty-stats edge: a receiving athlete with
no labels/keys and an empty stats sequence does not receive the fixed
fallback mapping (which would be the empty mapping) — the empty mapping is
falsy, so main.py line 231 stores the raw stats sequence `[]` instead. -/
theorem counterexample_C4_empty_stats_raw :
    cleanMkPlayer "receiving" (.arr []) (.obj []) =
      .ok (.obj [("name", .str ""), ("position", .str ""),
        ("stats", .arr [])]) ∧
    dget (extract_clean_game_data
        (.obj [("boxscore", .obj [("players", .arr [.obj [
          ("team", .obj [("abbreviation", .str "KC")]),
          ("statistics", .arr [.obj [("name", .str "receiving"),
            ("athletes", .arr [.obj []])]])]])])]) none)
      "player_statistics" =
      some (.obj [("KC", .obj [("receiving", .arr [.obj [("name", .str ""),
        ("position", .str ""), ("stats", .arr [])]])])]) := by
  exact ⟨by rfl, by rfl⟩

theorem objKeys_dset_not_mem {d : JObj} {k : String} (h : k ∉ objKeys d) (v : JVal) :
    objKeys (dset d k v) = objKeys d ++ [k] := by
  induction d with
  | nil => simp [dset, objKeys]
  | cons kv rest ih =>
      simp only [objKeys, List.map_cons, List.mem_cons] at h
      push_neg at h
      obtain ⟨h1, h2⟩ := h
      have hne : kv.1 ≠ k := fun hh => h1 hh.symm
      simp only [dset, if_neg hne, objKeys, List.map_cons]
      rw [show List.map Prod.fst (dset rest k v) = objKeys (dset rest k v) from rfl,
        ih h2]
      rfl

theorem mapM_ok {α β : Type} (g : α → Except Unit β) (l : List α)
    (h : ∀ a ∈ l, ∃ b, g a = .ok b) :
    ∃ bs, l.mapM g = .ok bs ∧ bs.length = l.length := by
  induction l with
  | nil => exact ⟨[], rfl, rfl⟩
  | cons a t ih =>
      obtain ⟨b, hb⟩ := h a (List.mem_cons_self a t)
      obtain ⟨bs, hbs, hlen⟩ := ih (fun x hx => h x (List.mem_cons_of_mem _ hx))
      refine ⟨b :: bs, ?_, by simp [hlen]⟩
      rw [List.mapM_cons, hb]
      simp only [exc_ok_bind, hbs]
      rfl

theorem cleanMkPlayer_ok (cn : String) (a : JVal) (hath : athleteOkB a = true) :
    ∃ p, cleanMkPlayer cn (.arr []) a = .ok p := by
  cases a with
  | obj akvs =>
      simp only [athleteOkB] at hath
      obtain ⟨hA1, hA2⟩ := Bool.and_eq_true_iff.mp hath
      cases hA : (dget akvs "athlete").getD (.obj []) with
      | obj avkvs =>
          rw [hA] at hA1
          simp only [] at hA1
          cases hP : (dget avkvs "position").getD (.obj []) with
          | obj pkvs =>
              cases hS : (dget akvs "stats").getD (.arr []) with
              | arr S =>
                  have hstats : pyGet (JVal.obj akvs) "stats" (.arr []) =
                      .ok (.arr S) := by
                    show Except.ok _ = _
                    rw [hS]
                  have hg1 : pyGet (JVal.obj akvs) "athlete" (.obj []) =
                      .ok (.obj avkvs) := by
                    show Except.ok _ = _
                    rw [hA]
                  have hg3 : pyGet (JVal.obj avkvs) "position" (.obj []) =
                      .ok (.obj pkvs) := by
                    show Except.ok _ = _
                    rw [hP]
                  have hg2 : pyGet (JVal.obj avkvs) "displayName" (.str "") =
                      .ok ((dget avkvs "displayName").getD (.str "")) := rfl
                  have hg4 : pyGet (JVal.obj pkvs) "abbreviation" (.str "") =
                      .ok ((dget pkvs "abbreviation").getD (.str "")) := rfl
                  obtain ⟨PS, hPS, hfield⟩ := fallbackStats_spec cn S
                  refine ⟨.obj [("name", (dget avkvs "displayName").getD (.str "")),
                    ("position", (dget pkvs "abbreviation").getD (.str "")),
                    ("stats", if PS.isEmpty then JVal.arr S else .obj PS)], ?_⟩
                  unfold cleanMkPlayer
                  have ht := eq_false (show ¬(truthy (JVal.arr []) = true) by decide)
                  simp only [hstats, exc_ok_bind, ht, if_false, hPS,
                    hg1, hg2, hg3, hg4]
                  rfl
              | null => rw [hS] at hA2; simp at hA2
              | bool b => rw [hS] at hA2; simp at hA2
              | num n => rw [hS] at hA2; simp at hA2
              | str s => rw [hS] at hA2; simp at hA2
              | obj o => rw [hS] at hA2; simp at hA2
          | null => rw [hP] at hA1; simp at hA1
          | bool b => rw [hP] at hA1; simp at hA1
          | num n => rw [hP] at hA1; simp at hA1
          | str s => rw [hP] at hA1; simp at hA1
          | arr xs => rw [hP] at hA1; simp at hA1
      | null => rw [hA] at hA1; simp at hA1
      | bool b => rw [hA] at hA1; simp at hA1
      | num n => rw [hA] at hA1; simp at hA1
      | str s => rw [hA] at hA1; simp at hA1
      | arr xs => rw [hA] at hA1; simp at hA1
  | null => cases hath
  | bool b => cases hath
  | num n => cases hath
  | str s => cases hath
  | arr xs => cases hath

theorem boxMkPlayer_ok (a : JVal) (hath : athleteOkB a = true) :
    ∃ p, boxMkPlayer a = .ok p := by
  cases a with
  | obj akvs =>
      simp only [athleteOkB] at hath
      obtain ⟨hA1, hA2⟩ := Bool.and_eq_true_iff.mp hath
      cases hA : (dget akvs "athlete").getD (.obj []) with
      | obj avkvs =>
          rw [hA] at hA1
          simp only [] at hA1
          cases hP : (dget avkvs "position").getD (.obj []) with
          | obj pkvs =>
              have hg1 : pyGet (JVal.obj akvs) "athlete" (.obj []) =
                  .ok (.obj avkvs) := by
                show Except.ok _ = _
                rw [hA]
              have hg3 : pyGet (JVal.obj avkvs) "position" (.obj []) =
                  .ok (.obj pkvs) := by
                show Except.ok _ = _
                rw [hP]
              have hg2 : pyGet (JVal.obj avkvs) "displayName" (.str "") =
                  .ok ((dget avkvs "displayName").getD (.str "")) := rfl
              have hg4 : pyGet (JVal.obj pkvs) "abbreviation" (.str "") =
                  .ok ((dget pkvs "abbreviation").getD (.str "")) := rfl
              have hg5 : pyGet (JVal.obj akvs) "stats" (.arr []) =
                  .ok ((dget akvs "stats").getD (.arr [])) := rfl
              refine ⟨.obj [("name", (dget avkvs "displayName").getD (.str "")),
                ("position", (dget pkvs "abbreviation").getD (.str "")),
                ("stats", (dget akvs "stats").getD (.arr []))], ?_⟩
              unfold boxMkPlayer
              simp only [hg1, hg2, hg3, hg4, hg5, exc_ok_bind]
              rfl
          | null => rw [hP] at hA1; simp at hA1
          | bool b => rw [hP] at hA1; simp at hA1
          | num n => rw [hP] at hA1; simp at hA1
          | str s => rw [hP] at hA1; simp at hA1
          | arr xs => rw [hP] at hA1; simp at hA1
      | null => rw [hA] at hA1; simp at hA1
      | bool b => rw [hA] at hA1; simp at hA1
      | num n => rw [hA] at hA1; simp at hA1
      | str s => rw [hA] at hA1; simp at hA1
      | arr xs => rw [hA] at hA1; simp at hA1
  | null => cases hath
  | bool b => cases hath
  | num n => cases hath
  | str s => cases hath
  | arr xs => cases hath

theorem cleanCatStep_notkey (tk : String) (d : JObj) (cat : JVal) (nm : String)
    (hname : pyGet cat "name" (.str "") = .ok (.str nm))
    (hnq : keyCategories.contains (strLower nm) = false) :
    cleanCatStep tk d cat = .ok d := by
  unfold cleanCatStep
  simp only [hname]
  rw [hnq]
  simp

theorem cleanCatStep_qual (tk nm : String) (cat : JVal) (As : List JVal) (d : JObj)
    (psm tm : List (String × JVal))
    (hname : pyGet cat "name" (.str "") = .ok (.str nm))
    (hq : keyCategories.contains (strLower nm) = true)
    (hlab : statLabelsOf cat = .ok (.arr []))
    (haths : pyGet cat "athletes" (.arr []) = .ok (.arr As))
    (hAs : ∀ a ∈ As, athleteOkB a = true) (hAne : As ≠ [])
    (hd : dget d "player_statistics" = some (.obj psm))
    (hT : dget psm tk = some (.obj tm)) :
    ∃ players : List JVal, players ≠ [] ∧
      cleanCatStep tk d cat = .ok (dset d "player_statistics"
        (.obj (dset psm tk (.obj (dset tm nm (.arr players)))))) := by
  obtain ⟨players, hmap, hlen⟩ := mapM_ok (cleanMkPlayer nm (.arr [])) (As.take 3)
    (fun a ha => cleanMkPlayer_ok nm a (hAs a (List.take_subset 3 As ha)))
  have hpne : players ≠ [] := by
    intro hnil
    rw [hnil] at hlen
    cases As with
    | nil => exact hAne rfl
    | cons a t => simp [List.take_succ_cons] at hlen
  refine ⟨players, hpne, ?_⟩
  unfold cleanCatStep
  simp only [hname]
  have hc := eq_true hq
  simp only [hc, if_true]
  rw [hlab]
  simp only [haths, exc_ok_bind, pySlice, pyElems]
  simp only [hmap]
  rw [isEmpty_false_of_ne hpne]
  simp only [Bool.false_eq_true, if_false]
  unfold dSetIn2
  simp only [hd, hT]

theorem boxAthletesFold (tk nm : String) (As : List JVal)
    (hAs : ∀ a ∈ As, athleteOkB a = true) :
    ∀ (d : JObj) (psb tm : List (String × JVal)) (xs : List JVal),
    dget d "player_stats" = some (.obj psb) → dget psb tk = some (.obj tm) →
    dget tm nm = some (.arr xs) →
    ∃ d1 psb1 tm1 xs1, pyFoldE (boxAthleteStep tk nm) d As = .ok d1 ∧
      dget d1 "player_stats" = some (.obj psb1) ∧ dget psb1 tk = some (.obj tm1) ∧
      dget tm1 nm = some (.arr xs1) ∧ objKeys psb1 = objKeys psb ∧
      objKeys tm1 = objKeys tm := by
  induction As with
  | nil =>
      intro d psb tm xs hd hT hx
      exact ⟨d, psb, tm, xs, rfl, hd, hT, hx, rfl, rfl⟩
  | cons a At ih =>
      intro d psb tm xs hd hT hx
      obtain ⟨p, hp⟩ := boxMkPlayer_ok a (hAs a (List.mem_cons_self a At))
      have hstep : boxAthleteStep tk nm d a = .ok (dset d "player_stats"
          (.obj (dset psb tk (.obj (dset tm nm (.arr (xs ++ [p]))))))) := by
        unfold boxAthleteStep
        rw [hp]
        unfold dAppendIn2
        simp only [hd, hT, hx]
      obtain ⟨d1, psb1, tm1, xs1, hfold, h1, h2, h3, h4, h5⟩ :=
        ih (fun x hx2 => hAs x (List.mem_cons_of_mem _ hx2))
          (dset d "player_stats" (.obj (dset psb tk (.obj (dset tm nm
            (.arr (xs ++ [p]))))))) (dset psb tk (.obj (dset tm nm
            (.arr (xs ++ [p]))))) (dset tm nm (.arr (xs ++ [p]))) (xs ++ [p])
          (dget_dset_self _ _ _) (dget_dset_self _ _ _) (dget_dset_self _ _ _)
      refine ⟨d1, psb1, tm1, xs1, ?_, h1, h2, h3, ?_, ?_⟩
      · unfold pyFoldE
        rw [hstep]
        exact hfold
      · rw [h4, objKeys_dset_of_isSome _ (by rw [hT]; rfl)]
      · rw [h5, objKeys_dset_of_isSome _ (by rw [hx]; rfl)]

theorem boxCatStep_run (tk nm : String) (cat : JVal) (As : List JVal) (d : JObj)
    (psb tm : List (String × JVal))
    (hname : pyGet cat "name" (.str "") = .ok (.str nm))
    (haths : pyGet cat "athletes" (.arr []) = .ok (.arr As))
    (hAs : ∀ a ∈ As, athleteOkB a = true)
    (hd : dget d "player_stats" = some (.obj psb))
    (hT : dget psb tk = some (.obj tm)) :
    ∃ d1 psb1 tm1, boxCatStep tk d cat = .ok d1 ∧
      dget d1 "player_stats" = some (.obj psb1) ∧
      dget psb1 tk = some (.obj tm1) ∧
      objKeys psb1 = objKeys psb ∧
      objKeys tm1 = objKeys (dset tm nm (.arr [])) := by
  obtain ⟨d1, psb1, tm1, xs1, hfold, h1, h2, h3, h4, h5⟩ :=
    boxAthletesFold tk nm As hAs
      (dset d "player_stats" (.obj (dset psb tk (.obj (dset tm nm (.arr []))))))
      (dset psb tk (.obj (dset tm nm (.arr [])))) (dset tm nm (.arr [])) []
      (dget_dset_self _ _ _) (dget_dset_self _ _ _) (dget_dset_self _ _ _)
  refine ⟨d1, psb1, tm1, ?_, h1, h2, ?_, ?_⟩
  · unfold boxCatStep
    simp only [hname, exc_ok_bind, pyKey,
      show (pure nm : Except Unit String) = Except.ok nm from rfl]
    have hset : dSetIn2 d "player_stats" tk nm (.arr []) = .ok (dset d "player_stats"
        (.obj (dset psb tk (.obj (dset tm nm (.arr [])))))) := by
      unfold dSetIn2
      simp only [hd, hT]
    rw [hset]
    simp only [haths, exc_ok_bind, pyElems]
    exact hfold
  · rw [h4, objKeys_dset_of_isSome _ (by rw [hT]; rfl)]
  · exact h5

/-- C5 (amended): for a team players block with categories named
"Passing", "Kicking", "Defensive", whose category and athlete entries are
well-shaped and whose qualifying categories have nonempty athlete lists,
the clean extractor's category mapping for that team gets exactly the keys
["Passing", "Defensive"] — "Kicking" is filtered out by the fixed
allow-list — while the box extractor's mapping for the same input keeps
all three names in source order.  The frozen claim quantifies over
arbitrary blocks with these names; malformed sibling data (e.g. a numeric
`athletes` entry) aborts the loop mid-way and loses later categories (see
the counterexample). -/
theorem claim_C5_category_filtering (tk : String) (c1 c2 c3 : JVal)
    (As1 As2 As3 : List JVal) (dC dB : JObj) (psm psb : List (String × JVal))
    (hn1 : pyGet c1 "name" (.str "") = .ok (.str "Passing"))
    (hn2 : pyGet c2 "name" (.str "") = .ok (.str "Kicking"))
    (hn3 : pyGet c3 "name" (.str "") = .ok (.str "Defensive"))
    (hl1 : statLabelsOf c1 = .ok (.arr []))
    (hl3 : statLabelsOf c3 = .ok (.arr []))
    (ha1 : pyGet c1 "athletes" (.arr []) = .ok (.arr As1))
    (ha2 : pyGet c2 "athletes" (.arr []) = .ok (.arr As2))
    (ha3 : pyGet c3 "athletes" (.arr []) = .ok (.arr As3))
    (hok1 : ∀ a ∈ As1, athleteOkB a = true)
    (hok2 : ∀ a ∈ As2, athleteOkB a = true)
    (hok3 : ∀ a ∈ As3, athleteOkB a = true)
    (hne1 : As1 ≠ []) (hne3 : As3 ≠ [])
    (hdC : dget dC "player_statistics" = some (.obj psm))
    (hTC : dget psm tk = some (.obj []))
    (hdB : dget dB "player_stats" = some (.obj psb))
    (hTB : dget psb tk = some (.obj [])) :
    (∃ dc, pyFoldE (cleanCatStep tk) dC [c1, c2, c3] = .ok dc ∧
      teamCats dc "player_statistics" tk = some ["Passing", "Defensive"]) ∧
    (∃ db, pyFoldE (boxCatStep tk) dB [c1, c2, c3] = .ok db ∧
      teamCats db "player_stats" tk = some ["Passing", "Kicking", "Defensive"]) := by
  constructor
  · obtain ⟨ps1, hps1ne, hstep1⟩ := cleanCatStep_qual tk "Passing" c1 As1 dC psm []
      hn1 (by decide) hl1 ha1 hok1 hne1 hdC hTC
    have hstep2 : cleanCatStep tk (dset dC "player_statistics"
        (.obj (dset psm tk (.obj (dset [] "Passing" (.arr ps1)))))) c2 =
        .ok (dset dC "player_statistics"
          (.obj (dset psm tk (.obj (dset [] "Passing" (.arr ps1)))))) :=
      cleanCatStep_notkey tk _ c2 "Kicking" hn2 (by decide)
    obtain ⟨ps3, hps3ne, hstep3⟩ := cleanCatStep_qual tk "Defensive" c3 As3
      (dset dC "player_statistics" (.obj (dset psm tk
        (.obj (dset [] "Passing" (.arr ps1))))))
      (dset psm tk (.obj (dset [] "Passing" (.arr ps1))))
      (dset [] "Passing" (.arr ps1))
      hn3 (by decide) hl3 ha3 hok3 hne3 (dget_dset_self _ _ _) (dget_dset_self _ _ _)
    refine ⟨dset (dset dC "player_statistics" (.obj (dset psm tk
      (.obj (dset [] "Passing" (.arr ps1)))))) "player_statistics"
      (.obj (dset (dset psm tk (.obj (dset [] "Passing" (.arr ps1)))) tk
        (.obj (dset (dset [] "Passing" (.arr ps1)) "Defensive" (.arr ps3))))),
      ?_, ?_⟩
    · simp only [pyFoldE, hstep1, hstep2, hstep3]
    · unfold teamCats
      simp only [dget_dset_self]
      rfl
  · obtain ⟨e1, q1, t1, hb1, hv1, hw1, hk1, hm1⟩ := boxCatStep_run tk "Passing" c1
      As1 dB psb [] hn1 ha1 hok1 hdB hTB
    obtain ⟨e2, q2, t2, hb2, hv2, hw2, hk2, hm2⟩ := boxCatStep_run tk "Kicking" c2
      As2 e1 q1 t1 hn2 ha2 hok2 hv1 hw1
    obtain ⟨e3, q3, t3, hb3, hv3, hw3, hk3, hm3⟩ := boxCatStep_run tk "Defensive" c3
      As3 e2 q2 t2 hn3 ha3 hok3 hv2 hw2
    refine ⟨e3, ?_, ?_⟩
    · simp only [pyFoldE, hb1, hb2, hb3]
    · have e1k : objKeys t1 = ["Passing"] := by
        rw [hm1]
        rfl
      have e2k : objKeys t2 = ["Passing", "Kicking"] := by
        rw [hm2, objKeys_dset_not_mem (by rw [e1k]; decide) (.arr []), e1k]
        rfl
      have e3k : objKeys t3 = ["Passing", "Kicking", "Defensive"] := by
        rw [hm3, objKeys_dset_not_mem (by rw [e2k]; decide) (.arr []), e2k]
        rfl
      unfold teamCats
      simp only [hv3, hw3, e3k]

theorem claim_C5_category_filtering_witness :
    (∃ dc, pyFoldE (cleanCatStep "KC")
        [("player_statistics", JVal.obj [("KC", .obj [])])]
        [.obj [("name", .str "Passing"), ("athletes", .arr [.obj []])],
         .obj [("name", .str "Kicking"), ("athletes", .arr [.obj []])],
         .obj [("name", .str "Defensive"), ("athletes", .arr [.obj []])]] =
          .ok dc ∧
      teamCats dc "player_statistics" "KC" = some ["Passing", "Defensive"]) ∧
    (∃ db, pyFoldE (boxCatStep "KC")
        [("player_stats", JVal.obj [("KC", .obj [])])]
        [.obj [("name", .str "Passing"), ("athletes", .arr [.obj []])],
         .obj [("name", .str "Kicking"), ("athletes", .arr [.obj []])],
         .obj [("name", .str "Defensive"), ("athletes", .arr [.obj []])]] =
          .ok db ∧
      teamCats db "player_stats" "KC" = some ["Passing", "Kicking", "Defensive"]) :=
  claim_C5_category_filtering "KC"
    (.obj [("name", .str "Passing"), ("athletes", .arr [.obj []])])
    (.obj [("name", .str "Kicking"), ("athletes", .arr [.obj []])])
    (.obj [("name", .str "Defensive"), ("athletes", .arr [.obj []])])
    [.obj []] [.obj []] [.obj []]
    [("player_statistics", JVal.obj [("KC", .obj [])])]
    [("player_stats", JVal.obj [("KC", .obj [])])]
    [("KC", .obj [])] [("KC", .obj [])]
    rfl rfl rfl rfl rfl rfl rfl rfl
    (by intro a ha; rw [List.mem_singleton.mp ha]; rfl)
    (by intro a ha; rw [List.mem_singleton.mp ha]; rfl)
    (by intro a ha; rw [List.mem_singleton.mp ha]; rfl)
    (List.cons_ne_nil _ _) (List.cons_ne_nil _ _)
    rfl rfl rfl rfl

/-- C5 as frozen is false: with categories Passing/Kicking/Defensive where
Passing's `athletes` is a number, iterating it raises; the box extractor
keeps only the partially written {"Passing": []} for the team — "Kicking"
and "Defensive" are lost rather than retained — and the clean extractor
keeps an empty mapping for the team. -/
theorem counterexample_C5_later_categories_lost :
    dget (extract_box_score_data
        (.obj [("boxscore", .obj [("players", .arr [.obj [
          ("team", .obj [("abbreviation", .str "KC")]),
          ("statistics", .arr [
            .obj [("name", .str "Passing"), ("athletes", .num 5)],
            .obj [("name", .str "Kicking"), ("athletes", .arr [])],
            .obj [("name", .str "Defensive"), ("athletes", .arr [])]])]])])]))
      "player_stats" =
      some (.obj [("KC", .obj [("Passing", .arr [])])]) ∧
    dget (extract_clean_game_data
        (.obj [("boxscore", .obj [("players", .arr [.obj [
          ("team", .obj [("abbreviation", .str "KC")]),
          ("statistics", .arr [
            .obj [("name", .str "Passing"), ("athletes", .num 5)],
            .obj [("name", .str "Kicking"), ("athletes", .arr [])],
            .obj [("name", .str "Defensive"), ("athletes", .arr [])]])]])])])
        none)
      "player_statistics" =
      some (.obj [("KC", .obj [])]) := by
  exact ⟨by rfl, by rfl⟩

/-- C6 (amended): for a qualifying category holding exactly five athlete
entries each of which the per-athlete builders can process, the clean
extractor stores exactly the players built from the first three athletes
in source order (the fourth and fifth are never consulted), while the box
extractor stores the players built from all five in source order.  The
frozen claim drops the processability condition; a malformed athlete
aborts the loop (see the counterexample). -/
theorem claim_C6_top3_cap (tk nm : String) (cat : JVal)
    (a1 a2 a3 a4 a5 p1 p2 p3 q1 q2 q3 q4 q5 : JVal)
    (dC dB : JObj) (psm psb : List (String × JVal))
    (hname : pyGet cat "name" (.str "") = .ok (.str nm))
    (hq : keyCategories.contains (strLower nm) = true)
    (hlab : statLabelsOf cat = .ok (.arr []))
    (haths : pyGet cat "athletes" (.arr []) = .ok (.arr [a1, a2, a3, a4, a5]))
    (hp1 : cleanMkPlayer nm (.arr []) a1 = .ok p1)
    (hp2 : cleanMkPlayer nm (.arr []) a2 = .ok p2)
    (hp3 : cleanMkPlayer nm (.arr []) a3 = .ok p3)
    (hb1 : boxMkPlayer a1 = .ok q1)
    (hb2 : boxMkPlayer a2 = .ok q2)
    (hb3 : boxMkPlayer a3 = .ok q3)
    (hb4 : boxMkPlayer a4 = .ok q4)
    (hb5 : boxMkPlayer a5 = .ok q5)
    (hdC : dget dC "player_statistics" = some (.obj psm))
    (hTC : dget psm tk = some (.obj []))
    (hdB : dget dB "player_stats" = some (.obj psb))
    (hTB : dget psb tk = some (.obj [])) :
    cleanCatStep tk dC cat = .ok (dset dC "player_statistics"
      (.obj (dset psm tk (.obj [(nm, .arr [p1, p2, p3])])))) ∧
    boxCatStep tk dB cat = .ok (dset dB "player_stats"
      (.obj (dset psb tk (.obj [(nm, .arr [q1, q2, q3, q4, q5])])))) := by
  constructor
  · unfold cleanCatStep
    simp only [hname, eq_true hq, if_true]
    rw [hlab]
    simp only [haths, exc_ok_bind, pySlice, pyElems]
    have hmap : List.mapM (cleanMkPlayer nm (.arr [])) [a1, a2, a3] =
        .ok [p1, p2, p3] := by
      rw [List.mapM_cons, hp1]
      simp only [exc_ok_bind]
      rw [List.mapM_cons, hp2]
      simp only [exc_ok_bind]
      rw [List.mapM_cons, hp3]
      simp only [exc_ok_bind]
      rfl
    simp only [List.take_succ_cons, List.take_zero]
    simp only [hmap]
    rw [isEmpty_false_of_ne (List.cons_ne_nil _ _)]
    simp only [Bool.false_eq_true, if_false]
    unfold dSetIn2
    simp only [hdC, hTC]
    rfl
  · have step : ∀ (q : JVal) (xs ys : List JVal) (a : JVal),
        boxMkPlayer a = .ok q → xs ++ [q] = ys →
        boxAthleteStep tk nm (dset dB "player_stats"
          (.obj (dset psb tk (.obj [(nm, .arr xs)])))) a =
          .ok (dset dB "player_stats"
            (.obj (dset psb tk (.obj [(nm, .arr ys)])))) := by
      intro q xs ys a hq2 hy
      unfold boxAthleteStep
      rw [hq2]
      unfold dAppendIn2
      simp only [dget_dset_self]
      have hdg : dget [(nm, JVal.arr xs)] nm = some (.arr xs) := by
        simp [dget]
      simp only [hdg]
      rw [← hy]
      rw [dset_dset_same, dset_dset_same]
      have hds : dset [(nm, JVal.arr xs)] nm (.arr (xs ++ [q])) =
          [(nm, .arr (xs ++ [q]))] := by
        simp [dset]
      rw [hds]
    unfold boxCatStep
    simp only [hname, exc_ok_bind, pyKey,
      show (pure nm : Except Unit String) = Except.ok nm from rfl]
    have hset : dSetIn2 dB "player_stats" tk nm (.arr []) =
        .ok (dset dB "player_stats" (.obj (dset psb tk
          (.obj (dset [] nm (.arr [])))))) := by
      unfold dSetIn2
      simp only [hdB, hTB]
    rw [hset]
    simp only [haths, exc_ok_bind, pyElems]
    rw [show dset ([] : JObj) nm (JVal.arr []) = [(nm, JVal.arr [])] from rfl]
    have s1 := step q1 [] [q1] a1 hb1 rfl
    have s2 := step q2 [q1] [q1, q2] a2 hb2 rfl
    have s3 := step q3 [q1, q2] [q1, q2, q3] a3 hb3 rfl
    have s4 := step q4 [q1, q2, q3] [q1, q2, q3, q4] a4 hb4 rfl
    have s5 := step q5 [q1, q2, q3, q4] [q1, q2, q3, q4, q5] a5 hb5 rfl
    simp only [pyFoldE, s1, s2, s3, s4, s5]

theorem claim_C6_top3_cap_witness :
    cleanCatStep "KC" [("player_statistics", JVal.obj [("KC", .obj [])])]
      (.obj [("name", .str "Passing"),
        ("athletes", .arr [.obj [], .obj [], .obj [], .obj [], .obj []])]) =
      .ok (dset [("player_statistics", JVal.obj [("KC", .obj [])])]
        "player_statistics" (.obj (dset [("KC", .obj [])] "KC"
          (.obj [("Passing", .arr [
            .obj [("name", .str ""), ("position", .str ""), ("stats", .arr [])],
            .obj [("name", .str ""), ("position", .str ""), ("stats", .arr [])],
            .obj [("name", .str ""), ("position", .str ""),
              ("stats", .arr [])]])])))) ∧
    boxCatStep "KC" [("player_stats", JVal.obj [("KC", .obj [])])]
      (.obj [("name", .str "Passing"),
        ("athletes", .arr [.obj [], .obj [], .obj [], .obj [], .obj []])]) =
      .ok (dset [("player_stats", JVal.obj [("KC", .obj [])])]
        "player_stats" (.obj (dset [("KC", .obj [])] "KC"
          (.obj [("Passing", .arr [
            .obj [("name", .str ""), ("position", .str ""), ("stats", .arr [])],
            .obj [("name", .str ""), ("position", .str ""), ("stats", .arr [])],
            .obj [("name", .str ""), ("position", .str ""), ("stats", .arr [])],
            .obj [("name", .str ""), ("position", .str ""), ("stats", .arr [])],
            .obj [("name", .str ""), ("position", .str ""),
              ("stats", .arr [])]])])))) :=
  claim_C6_top3_cap "KC" "Passing"
    (.obj [("name", .str "Passing"),
      ("athletes", .arr [.obj [], .obj [], .obj [], .obj [], .obj []])])
    (.obj []) (.obj []) (.obj []) (.obj []) (.obj [])
    (.obj [("name", .str ""), ("position", .str ""), ("stats", .arr [])])
    (.obj [("name", .str ""), ("position", .str ""), ("stats", .arr [])])
    (.obj [("name", .str ""), ("position", .str ""), ("stats", .arr [])])
    (.obj [("name", .str ""), ("position", .str ""), ("stats", .arr [])])
    (.obj [("name", .str ""), ("position", .str ""), ("stats", .arr [])])
    (.obj [("name", .str ""), ("position", .str ""), ("stats", .arr [])])
    (.obj [("name", .str ""), ("position", .str ""), ("stats", .arr [])])
    (.obj [("name", .str ""), ("position", .str ""), ("stats", .arr [])])
    [("player_statistics", JVal.obj [("KC", .obj [])])]
    [("player_stats", JVal.obj [("KC", .obj [])])]
    [("KC", .obj [])] [("KC", .obj [])]
    rfl (by rfl) rfl rfl (by rfl) (by rfl) (by rfl)
    rfl rfl rfl rfl rfl rfl rfl rfl rfl

/-- C6 as frozen is false: five athletes in a qualifying category where the
first athlete's `athlete` entry is a number make `.get("displayName", "")`
raise on the very first build, so the clean extractor emits no players for
the team (not the first three) and the box extractor emits an empty list
for the category (not all five). -/
theorem counterexample_C6_malformed_athlete_aborts :
    dget (extract_clean_game_data
        (.obj [("boxscore", .obj [("players", .arr [.obj [
          ("team", .obj [("abbreviation", .str "KC")]),
          ("statistics", .arr [.obj [("name", .str "Passing"),
            ("athletes", .arr [.obj [("athlete", .num 5)],
              .obj [], .obj [], .obj [], .obj []])]])]])])]) none)
      "player_statistics" = some (.obj [("KC", .obj [])]) ∧
    dget (extract_box_score_data
        (.obj [("boxscore", .obj [("players", .arr [.obj [
          ("team", .obj [("abbreviation", .str "KC")]),
          ("statistics", .arr [.obj [("name", .str "Passing"),
            ("athletes", .arr [.obj [("athlete", .num 5)],
              .obj [], .obj [], .obj [], .obj []])]])]])])]))
      "player_stats" = some (.obj [("KC", .obj [("Passing", .arr [])])]) := by
  exact ⟨by rfl, by rfl⟩

/-- C8 (amended): a player entry built by `cleanMkPlayer` from an athlete
whose stats sequence is nonempty carries a mapping (a JSON object) in its
`stats` field, whichever labelling branch applies.  The frozen "never a raw
sequence" is false for an empty stats sequence: the built mapping is then
empty and falsy, and main.py line 231 stores the raw sequence instead (see
the counterexample). -/
theorem claim_C8_stats_is_mapping (cn : String) (L : List String)
    (S : List JVal) (athlete : JVal) (hath : athleteOkB athlete = true)
    (hstats : pyGet athlete "stats" (.arr []) = .ok (.arr S)) (hSne : S ≠ []) :
    ∃ nameV posV PS, cleanMkPlayer cn (.arr (L.map JVal.str)) athlete =
      .ok (.obj [("name", nameV), ("position", posV), ("stats", .obj PS)]) := by
  obtain ⟨nameV, posV, heq⟩ := cleanMkPlayer_spec cn L S athlete hath hstats
  by_cases hc : L ≠ [] ∧ L.length = S.length
  · have hspec : specStats cn L S = .obj (zipStats L S) := by
      simp only [specStats, eq_true hc, if_true]
    rw [hspec] at heq
    exact ⟨nameV, posV, zipStats L S, heq⟩
  · cases hf : fixedFallback (strLower cn) with
    | some fb =>
        have hspec : specStats cn L S = .obj (zipStats fb S) := by
          simp only [specStats, eq_false hc, if_false, hf]
          rw [isEmpty_false_of_ne hSne]
          simp only [Bool.false_eq_true, if_false]
        rw [hspec] at heq
        exact ⟨nameV, posV, zipStats fb S, heq⟩
    | none =>
        have hspec : specStats cn L S =
            .obj (zipStats (genericLabels S.length) S) := by
          simp only [specStats, eq_false hc, if_false, hf]
          rw [isEmpty_false_of_ne hSne]
          simp only [Bool.false_eq_true, if_false]
        rw [hspec] at heq
        exact ⟨nameV, posV, zipStats (genericLabels S.length) S, heq⟩

theorem claim_C8_stats_is_mapping_witness :
    athleteOkB (.obj [("stats", .arr [.str "5"])]) = true ∧
    pyGet (.obj [("stats", .arr [.str "5"])]) "stats" (.arr []) =
      .ok (.arr [.str "5"]) ∧
    ([.str "5"] : List JVal) ≠ [] ∧
    (∃ nameV posV PS, cleanMkPlayer "defensive"
        (.arr (([] : List String).map JVal.str))
        (.obj [("stats", .arr [.str "5"])]) =
      .ok (.obj [("name", nameV), ("position", posV), ("stats", .obj PS)])) :=
  ⟨rfl, rfl, List.cons_ne_nil _ _,
    claim_C8_stats_is_mapping "defensive" [] [.str "5"]
      (.obj [("stats", .arr [.str "5"])]) rfl rfl (List.cons_ne_nil _ _)⟩

/-- C8 as frozen is false: an athlete with an empty stats sequence in a
qualifying rushing category ends up with `stats` equal to the raw empty
sequence (a JSON array, not a mapping) in the returned player_statistics. -/
theorem counterexample_C8_raw_sequence_in_output :
    dget (extract_clean_game_data
        (.obj [("boxscore", .obj [("players", .arr [.obj [
          ("team", .obj [("abbreviation", .str "KC")]),
          ("statistics", .arr [.obj [("name", .str "rushing"),
            ("athletes", .arr [.obj [("stats", .arr [])]])]])]])])]) none)
      "player_statistics" =
      some (.obj [("KC", .obj [("rushing", .arr [.obj [("name", .str ""),
        ("position", .str ""), ("stats", .arr [])]])])]) := by
  rfl
